import Mathlib

set_option linter.unusedSectionVars false
set_option linter.unusedVariables false

/-!
# Panoramic render pass: blending engine and tile layout

A shallow embedding of `FPanoramicBlender` (PanoramicBlender.cpp / PanoramicBlender.h), of the
pane descriptor `FPanoPane` (PanoramicPass.h) and of the tile layout and pane set-up of
`UPanoramicPass` (PanoramicPass.cpp).

Conventions of the embedding.

* `float` values are elements of an arbitrary linearly ordered field `K` with a floor function
  (exact arithmetic).  Instantiating `K := ℚ` makes every definition executable; the statement
  about the angular weight instantiates `K := ℝ` with the cosine and sine of the real numbers.
* `int32` values are `Int`; signed overflow is undefined behaviour in C++ and is not modelled.
* Routines of the game engine that are not part of this repository (trigonometry, quaternion
  conversions, the projection matrix) are the fields of an `FEngine` record taken as a parameter;
  those used by the render pass (arc tangent, rotation of vectors, composition of rotations) are
  the fields of an `FPoseEngine` record.
* The callback is executed by one thread at a time: a call runs to its end before the next begins.
* A `check(...)` that fails is the result `none`.
* An array access of the blender outside the array's bounds reads zero and writes nothing; a
  lookup of a step value of the render pass outside its array is the result `none`.
* The divisions of the normalization loop are `FloatDiv`, whose result `none` stands for the
  non-finite quotient of a division by zero; every other division is the field's.
* The weak pointer to the downstream output merger is alive; the calls made on it are collected in
  a list.
-/

namespace Panoramic

/-! ## Engine value types -/

/-- Integer point of the engine (`FIntPoint`). -/
structure FIntPoint where
  X : Int
  Y : Int
deriving DecidableEq, Repr

/-- Two-component vector of the engine. -/
structure FVector2D (K : Type) where
  X : K
  Y : K
deriving DecidableEq, Repr

/-- Three-component vector of the engine. -/
structure FVector (K : Type) where
  X : K
  Y : K
  Z : K
deriving DecidableEq, Repr

/-- Four-component vector of the engine; also used for the rows (`FPlane`) of a matrix. -/
structure FVector4 (K : Type) where
  X : K
  Y : K
  Z : K
  W : K
deriving DecidableEq, Repr

/-- Rotation in degrees (`FRotator`). -/
structure FRotator (K : Type) where
  Pitch : K
  Yaw : K
  Roll : K
deriving DecidableEq, Repr

/-- Matrix given by its four rows, as in `FMatrix(FPlane, FPlane, FPlane, FPlane)`. -/
structure FMatrix (K : Type) where
  XPlane : FVector4 K
  YPlane : FVector4 K
  ZPlane : FVector4 K
  WPlane : FVector4 K
deriving DecidableEq, Repr

/-- Linear colour with four channels (`FLinearColor`). -/
@[ext]
structure FLinearColor (K : Type) where
  R : K
  G : K
  B : K
  A : K
deriving DecidableEq, Repr

/-- Supported and unsupported encodings of a pixel buffer (`EImagePixelType`). -/
inductive EImagePixelType where
  | Color
  | Float16
  | Float32
deriving DecidableEq, Repr

/-- Engine routines used by the blender whose code is outside this repository. -/
structure FEngine (K : Type) where
  /-- The constant `UE_PI`. -/
  PI : K
  /-- Cosine of an angle in radians (`FMath::Cos`). -/
  Cos : K → K
  /-- Sine of an angle in radians (`FMath::Sin`). -/
  Sin : K → K
  /-- The rotator of `FTransform(ActorRotation, ..).InverseTransformRotation(CameraRotation.Quaternion())`. -/
  InverseTransformRotation : FRotator K → FRotator K → FRotator K
  /-- Rotation of a vector by the inverse of a rotator (`FRotator::UnrotateVector`). -/
  UnrotateVector : FRotator K → FVector K → FVector K
  /-- Projection matrix built from half field of view (radians), width, height and near plane. -/
  FReversedZPerspectiveMatrix : K → K → K → K → FMatrix K
  /-- Product of a homogeneous vector with a matrix (`FMatrix::TransformFVector4`). -/
  TransformFVector4 : FMatrix K → FVector4 K → FVector4 K

section Scalars

variable {K : Type} [LinearOrderedField K] [FloorRing K]

instance : Zero (FLinearColor K) := ⟨⟨0, 0, 0, 0⟩⟩

instance : Add (FLinearColor K) := ⟨fun a b => ⟨a.R + b.R, a.G + b.G, a.B + b.B, a.A + b.A⟩⟩

instance : Sub (FLinearColor K) := ⟨fun a b => ⟨a.R - b.R, a.G - b.G, a.B - b.B, a.A - b.A⟩⟩

/-- Colour times scalar (`FLinearColor::operator*(float)`). -/
def FLinearColor.Scale (c : FLinearColor K) (s : K) : FLinearColor K :=
  ⟨c.R * s, c.G * s, c.B * s, c.A * s⟩

/-- Conversion `x * (UE_PI / 180)` from degrees to radians. -/
def DegreesToRadians (E : FEngine K) (x : K) : K := x * (E.PI / 180)

/-- Largest integer not above the argument (`FMath::FloorToInt`). -/
def FloorToInt (x : K) : Int := Int.floor x

/-- Rounding `FloorToInt(x + 0.5)` (`FMath::RoundToInt`). -/
def RoundToInt (x : K) : Int := FloorToInt (x + 1 / 2)

/-- Fractional part `x - floor x` (`FMath::Frac`). -/
def Frac (x : K) : K := x - (FloorToInt x : K)

/-- Clamping `Max(Min(X, MaxValue), MinValue)` (`FMath::Clamp`). -/
def Clamp (x lo hi : Int) : Int := max (min x hi) lo

/-- Linear interpolation `A + Alpha * (B - A)` of two colours (`FMath::Lerp`). -/
def Lerp (a b : FLinearColor K) (alpha : K) : FLinearColor K := a + (b - a).Scale alpha

/-- The threshold `KINDA_SMALL_NUMBER` (1e-4). -/
def KINDA_SMALL_NUMBER : K := 1 / 10000

/-! ## Panes and samples -/

/-- Pane descriptor (`FPanoPane`, PanoramicPass.h). -/
structure FPanoPane (K : Type) where
  OriginalCameraLocation : FVector K
  PrevOriginalCameraLocation : FVector K
  OriginalCameraRotation : FRotator K
  PrevOriginalCameraRotation : FRotator K
  NearClippingPlane : K
  EyeSeparation : K
  EyeConvergenceDistance : K
  HorizontalFieldOfView : K
  VerticalFieldOfView : K
  Resolution : FIntPoint
  CameraLocation : FVector K
  PrevCameraLocation : FVector K
  CameraRotation : FRotator K
  PrevCameraRotation : FRotator K
  NumHorizontalSteps : Int
  NumVerticalSteps : Int
  HorizontalStepIndex : Int
  VerticalStepIndex : Int
  EyeIndex : Int
  bIncludeAlpha : Bool

/-- Output-frame identifier (`FMoviePipelineFrameOutputState`, an engine type): the frame number
the blender's lookup compares, and one further field standing for the rest of the engine's
record, which takes part in the map's key equality. -/
structure FMoviePipelineFrameOutputState where
  OutputFrameNumber : Int
  TemporalSampleIndex : Int
deriving DecidableEq, Repr

/-- The part of `FMoviePipelineRenderPassMetrics` the blender reads. -/
structure FSampleState where
  OutputState : FMoviePipelineFrameOutputState
  bWriteSampleToDisk : Bool
deriving DecidableEq, Repr

/-- Payload travelling with a pixel buffer (`FPanoramicImagePixelDataPayload`). -/
structure FPanoramicImagePixelDataPayload (K : Type) where
  SampleState : FSampleState
  Pane : FPanoPane K

/-- A rendered tile with its payload (`FImagePixelData`): size, encoding and the pixels in
row-major order, already converted to linear colour. -/
structure FImagePixelData (K : Type) where
  Size : FIntPoint
  PixelType : EImagePixelType
  RawData : List (FLinearColor K)
  Payload : FPanoramicImagePixelDataPayload K

/-! ## Array access -/

/-- Read of `Array[Index]`; zero outside the bounds. -/
def ReadAt {α : Type} [Zero α] (arr : List α) (i : Int) : α :=
  if 0 ≤ i then arr.getD i.toNat 0 else 0

/-- The statement `Array[Index] += Value`; nothing is written outside the bounds. -/
def AddAt {α : Type} [Add α] (arr : List α) (i : Int) (v : α) : List α :=
  if 0 ≤ i then arr.modify (fun x => x + v) i.toNat else arr

/-- Zeroed array of the given number of entries (`SetNumZeroed` on an empty array). -/
def SetNumZeroed {α : Type} [Zero α] (n : Int) : List α := List.replicate n.toNat 0

/-- Values `lo, lo + 1, ..., hi - 1` of a loop `for (i = lo; i < hi; i++)`. -/
def LoopRange (lo hi : Int) : List Int :=
  (List.range (hi - lo).toNat).map (fun (i : Nat) => lo + (i : Int))

/-! ## Bilinear sampling (PanoramicBlender.cpp, lines 13-90) -/

/-- The lambda `ClampPixelCoords`: sets the clipped flag when the index is outside the array and
clamps the index. -/
def ClampPixelCoords (InOutPixelCoords InArraySize : FIntPoint) (OutClipped : Bool) :
    FIntPoint × Bool :=
  let clipped :=
    if InOutPixelCoords.X > InArraySize.X - 1 ∨ InOutPixelCoords.Y > InArraySize.Y - 1 ∨
        InOutPixelCoords.X < 0 ∨ InOutPixelCoords.Y < 0 then true else OutClipped
  (⟨Clamp InOutPixelCoords.X 0 (InArraySize.X - 1), Clamp InOutPixelCoords.Y 0 (InArraySize.Y - 1)⟩,
    clipped)

/-- Fetch of one tap from the raw data; `none` for an encoding that is not implemented
(`check(0)`). -/
def FetchPixel (InSampleData : FImagePixelData K) (Index : FIntPoint) : Option (FLinearColor K) :=
  match InSampleData.PixelType with
  | EImagePixelType.Float16 =>
      some (ReadAt InSampleData.RawData (Index.X + Index.Y * InSampleData.Size.X))
  | EImagePixelType.Float32 =>
      some (ReadAt InSampleData.RawData (Index.X + Index.Y * InSampleData.Size.X))
  | EImagePixelType.Color => none

/-- Translation of `GetColorBilinearFiltered`: the interpolated colour and the value of
`OutClipped` after the call. -/
def GetColorBilinearFiltered (InSampleData : FImagePixelData K) (InSamplePixelCoords : FVector2D K)
    (OutClipped : Bool) (bIncludeAlpha : Bool) : Option (FLinearColor K × Bool) :=
  let PixelCoordinateIndex : FVector2D K := ⟨InSamplePixelCoords.X - 1 / 2, InSamplePixelCoords.Y - 1 / 2⟩
  let LowerLeftPixelIndex : FIntPoint :=
    ⟨RoundToInt PixelCoordinateIndex.X, RoundToInt PixelCoordinateIndex.Y⟩
  let LowerRightPixelIndex : FIntPoint := ⟨LowerLeftPixelIndex.X + 1, LowerLeftPixelIndex.Y + 0⟩
  let UpperLeftPixelIndex : FIntPoint := ⟨LowerLeftPixelIndex.X + 0, LowerLeftPixelIndex.Y + 1⟩
  let UpperRightPixelIndex : FIntPoint := ⟨LowerLeftPixelIndex.X + 1, LowerLeftPixelIndex.Y + 1⟩
  let ll := ClampPixelCoords LowerLeftPixelIndex InSampleData.Size OutClipped
  let lr := ClampPixelCoords LowerRightPixelIndex InSampleData.Size ll.2
  let ul := ClampPixelCoords UpperLeftPixelIndex InSampleData.Size lr.2
  let ur := ClampPixelCoords UpperRightPixelIndex InSampleData.Size ul.2
  match FetchPixel InSampleData ll.1, FetchPixel InSampleData lr.1,
      FetchPixel InSampleData ul.1, FetchPixel InSampleData ur.1 with
  | some LowerLeftPixelColor, some LowerRightPixelColor,
      some UpperLeftPixelColor, some UpperRightPixelColor =>
    let FracX := Frac InSamplePixelCoords.X
    let FracY := Frac InSamplePixelCoords.Y
    let InterpolatedPixelColor :=
      Lerp (Lerp LowerLeftPixelColor LowerRightPixelColor FracX)
        (Lerp UpperLeftPixelColor UpperRightPixelColor FracX) FracY
    some (if bIncludeAlpha then InterpolatedPixelColor
      else { InterpolatedPixelColor with A := 1 }, ur.2)
  | _, _, _, _ => none


/-! ## Blender state (PanoramicBlender.h) -/

/-- Bookkeeping record of one sample (`FPanoramicBlendData`); its pixel arrays live in
`FBlendBuffers` while the sample is processed and are released afterwards. -/
structure FPanoramicBlendData where
  bFinished : Bool
  OutputBoundsMin : FIntPoint
  OutputBoundsMax : FIntPoint
  PixelWidth : Int
  PixelHeight : Int
  EyeIndex : Int
deriving DecidableEq, Repr

/-- A colour array with its parallel weight array (`Data` / `OutputEquirectangularMap` and
`AlphaArray`). -/
structure FBlendBuffers (K : Type) where
  Data : List (FLinearColor K)
  AlphaArray : List K

/-- Accumulation state of one output frame (`FPanoramicOutputFrame`). -/
structure FPanoramicOutputFrame (K : Type) where
  BlendedData : List (Int × List FPanoramicBlendData)
  NumSamplesTotal : Int
  OutputEquirectangularMap : List (FLinearColor K)
  AlphaArray : List K

/-- The blender (`FPanoramicBlender`): pending frames in map order and the output resolution. -/
structure FPanoramicBlender (K : Type) where
  PendingData : List (FMoviePipelineFrameOutputState × FPanoramicOutputFrame K)
  OutputEquirectangularMapSize : FIntPoint

/-- Result of a `float` division: `none` stands for the non-finite quotient of a division by
zero. -/
def FloatDiv (a b : K) : Option K := if b = 0 then none else some (a / b)

/-- Calls received by the output merger. -/
inductive FMergerCall (K : Type) where
  | OnCompleteRenderPassDataAvailable (Size : FIntPoint) (Data : List (FLinearColor (Option K)))
      (Payload : FPanoramicImagePixelDataPayload K)
  | OnSingleSampleDataAvailable (Size : FIntPoint) (Data : List (FLinearColor K))
      (Payload : FPanoramicImagePixelDataPayload K)

/-! ## Per-sample geometry (PanoramicBlender.cpp, lines 118-167) -/

/-- Local `SampleRotation`. -/
def SampleRotation (E : FEngine K) (Pane : FPanoPane K) : FRotator K :=
  E.InverseTransformRotation Pane.OriginalCameraRotation Pane.CameraRotation

/-- Local `SampleHalfHorizontalFoVDegrees`. -/
def SampleHalfHorizontalFoVDegrees (Pane : FPanoPane K) : K := 1 / 2 * Pane.HorizontalFieldOfView

/-- Local `SampleHalfVerticalFoVDegrees`. -/
def SampleHalfVerticalFoVDegrees (Pane : FPanoPane K) : K := 1 / 2 * Pane.VerticalFieldOfView

/-- Local `SampleHalfHorizontalFoVCosine`. -/
def SampleHalfHorizontalFoVCosine (E : FEngine K) (Pane : FPanoPane K) : K :=
  E.Cos (DegreesToRadians E (SampleHalfHorizontalFoVDegrees Pane))

/-- Local `SampleHalfVerticalFoVCosine`. -/
def SampleHalfVerticalFoVCosine (E : FEngine K) (Pane : FPanoPane K) : K :=
  E.Cos (DegreesToRadians E (SampleHalfVerticalFoVDegrees Pane))

/-- Local `SampleYawRad`. -/
def SampleYawRad (E : FEngine K) (Pane : FPanoPane K) : K :=
  DegreesToRadians E (SampleRotation E Pane).Yaw

/-- Local `SamplePitchRad`. -/
def SamplePitchRad (E : FEngine K) (Pane : FPanoPane K) : K :=
  DegreesToRadians E (SampleRotation E Pane).Pitch

/-- Local `SampleDirectionOnTheta`. -/
def SampleDirectionOnTheta (E : FEngine K) (Pane : FPanoPane K) : FVector K :=
  ⟨E.Cos (SampleYawRad E Pane), E.Sin (SampleYawRad E Pane), 0⟩

/-- Local `SampleDirectionOnPhi`. -/
def SampleDirectionOnPhi (E : FEngine K) (Pane : FPanoPane K) : FVector K :=
  ⟨E.Cos (SamplePitchRad E Pane), 0, E.Sin (SamplePitchRad E Pane)⟩

/-- Local `SampleProjectionMatrix`. -/
def SampleProjectionMatrix (E : FEngine K) (Pane : FPanoPane K) : FMatrix K :=
  E.FReversedZPerspectiveMatrix (DegreesToRadians E (SampleHalfHorizontalFoVDegrees Pane))
    (Pane.Resolution.X : K) (Pane.Resolution.Y : K) Pane.NearClippingPlane

/-- Local `EquiRectMapThetaStep`. -/
def EquiRectMapThetaStep (MapSize : FIntPoint) : K := 360 / (MapSize.X : K)

/-- Local `EquiRectMapPhiStep`. -/
def EquiRectMapPhiStep (MapSize : FIntPoint) : K := 180 / (MapSize.Y : K)

/-- Local `SampleYawMin`. -/
def SampleYawMin (E : FEngine K) (Pane : FPanoPane K) : K :=
  (SampleRotation E Pane).Yaw - SampleHalfHorizontalFoVDegrees Pane

/-- Local `SampleYawMax`. -/
def SampleYawMax (E : FEngine K) (Pane : FPanoPane K) : K :=
  (SampleRotation E Pane).Yaw + SampleHalfHorizontalFoVDegrees Pane

/-- Local `PixelIndexHorzMinBound`. -/
def PixelIndexHorzMinBound (E : FEngine K) (MapSize : FIntPoint) (Pane : FPanoPane K) : Int :=
  FloorToInt ((SampleYawMin E Pane + 180) / EquiRectMapThetaStep MapSize)

/-- Local `PixelIndexHorzMaxBound`. -/
def PixelIndexHorzMaxBound (E : FEngine K) (MapSize : FIntPoint) (Pane : FPanoPane K) : Int :=
  FloorToInt ((SampleYawMax E Pane + 180) / EquiRectMapThetaStep MapSize)

/-- Local `SamplePitchMin`. -/
def SamplePitchMin (E : FEngine K) (Pane : FPanoPane K) : K :=
  max ((SampleRotation E Pane).Pitch - SampleHalfVerticalFoVDegrees Pane) (-90)

/-- Local `SamplePitchMax`. -/
def SamplePitchMax (E : FEngine K) (Pane : FPanoPane K) : K :=
  min ((SampleRotation E Pane).Pitch + SampleHalfVerticalFoVDegrees Pane) 90

/-- Local `PixelIndexVertMinBound`. -/
def PixelIndexVertMinBound (E : FEngine K) (MapSize : FIntPoint) (Pane : FPanoPane K) : Int :=
  max (MapSize.Y - FloorToInt ((SamplePitchMax E Pane + 90) / EquiRectMapPhiStep MapSize)) 0

/-- Local `PixelIndexVertMaxBound`. -/
def PixelIndexVertMaxBound (E : FEngine K) (MapSize : FIntPoint) (Pane : FPanoPane K) : Int :=
  min (MapSize.Y - FloorToInt ((SamplePitchMin E Pane + 90) / EquiRectMapPhiStep MapSize)) MapSize.Y

/-- Field `OutputBoundsMin` of the sample's blend data. -/
def OutputBoundsMin (E : FEngine K) (MapSize : FIntPoint) (Pane : FPanoPane K) : FIntPoint :=
  ⟨PixelIndexHorzMinBound E MapSize Pane, PixelIndexVertMinBound E MapSize Pane⟩

/-- Field `OutputBoundsMax` of the sample's blend data. -/
def OutputBoundsMax (E : FEngine K) (MapSize : FIntPoint) (Pane : FPanoPane K) : FIntPoint :=
  ⟨PixelIndexHorzMaxBound E MapSize Pane, PixelIndexVertMaxBound E MapSize Pane⟩

/-- Field `PixelWidth` of the sample's blend data. -/
def PixelWidth (E : FEngine K) (MapSize : FIntPoint) (Pane : FPanoPane K) : Int :=
  (OutputBoundsMax E MapSize Pane).X - (OutputBoundsMin E MapSize Pane).X

/-- Field `PixelHeight` of the sample's blend data. -/
def PixelHeight (E : FEngine K) (MapSize : FIntPoint) (Pane : FPanoPane K) : Int :=
  (OutputBoundsMax E MapSize Pane).Y - (OutputBoundsMin E MapSize Pane).Y

/-- The positive modulo `((X % W) + W) % W` with the truncating remainder of C++. -/
def PositiveMod (X W : Int) : Int := Int.tmod (Int.tmod X W + W) W

/-- Scalar product of two vectors (`FVector::DotProduct`). -/
def DotProduct (a b : FVector K) : K := a.X * b.X + a.Y * b.Y + a.Z * b.Z

/-- The constant matrix `UnrealCoordinateConversion`. -/
def UnrealCoordinateConversion : FMatrix K :=
  ⟨⟨0, 0, 1, 0⟩, ⟨1, 0, 0, 0⟩, ⟨0, 1, 0, 0⟩, ⟨0, 0, 0, 1⟩⟩


/-! ## Per-pixel resampling (PanoramicBlender.cpp, lines 245-329) -/

/-- Local `Theta` of the pixel loop, for the loop variable `X`. -/
def Theta (MapSize : FIntPoint) (X : Int) : K :=
  EquiRectMapThetaStep MapSize * (((PositiveMod X MapSize.X : Int) : K) + 1 / 2) - 180

/-- Local `Phi` of the pixel loop, for the loop variable `Y`. -/
def Phi (MapSize : FIntPoint) (Y : Int) : K :=
  EquiRectMapPhiStep MapSize * (((MapSize.Y : K) - (Y : K)) + 1 / 2) - 90

/-- Local `OutputDirection`. -/
def OutputDirection (E : FEngine K) (MapSize : FIntPoint) (X Y : Int) : FVector K :=
  let ThetaDeg := DegreesToRadians E (Theta MapSize X)
  let PhiDeg := DegreesToRadians E (Phi MapSize Y)
  ⟨E.Cos PhiDeg * E.Cos ThetaDeg, E.Cos PhiDeg * E.Sin ThetaDeg, E.Sin PhiDeg⟩

/-- Local `OutputDirectionTheta`. -/
def OutputDirectionTheta (E : FEngine K) (MapSize : FIntPoint) (X : Int) : FVector K :=
  let ThetaDeg := DegreesToRadians E (Theta MapSize X)
  ⟨E.Cos ThetaDeg, E.Sin ThetaDeg, 0⟩

/-- Local `OutputDirectionPhi`. -/
def OutputDirectionPhi (E : FEngine K) (MapSize : FIntPoint) (Y : Int) : FVector K :=
  let PhiDeg := DegreesToRadians E (Phi MapSize Y)
  ⟨E.Cos PhiDeg, 0, E.Sin PhiDeg⟩

/-- Local `WeightTheta`. -/
def WeightTheta (E : FEngine K) (MapSize : FIntPoint) (Pane : FPanoPane K) (X : Int) : K :=
  let DirectionThetaDot := DotProduct (OutputDirectionTheta E MapSize X) (SampleDirectionOnTheta E Pane)
  max (DirectionThetaDot - SampleHalfHorizontalFoVCosine E Pane) 0 /
    (1 - SampleHalfHorizontalFoVCosine E Pane)

/-- Local `WeightPhi`. -/
def WeightPhi (E : FEngine K) (MapSize : FIntPoint) (Pane : FPanoPane K) (Y : Int) : K :=
  let DirectionPhiDot := DotProduct (OutputDirectionPhi E MapSize Y) (SampleDirectionOnPhi E Pane)
  max (DirectionPhiDot - SampleHalfVerticalFoVCosine E Pane) 0 /
    (1 - SampleHalfVerticalFoVCosine E Pane)

/-- Local `SampleWeightSquared`. -/
def SampleWeightSquared (E : FEngine K) (MapSize : FIntPoint) (Pane : FPanoPane K) (X Y : Int) : K :=
  let SampleWeight := WeightTheta E MapSize Pane X * WeightPhi E MapSize Pane Y
  SampleWeight * SampleWeight

/-- Local `DirectionInSampleScreenSpace` after the flip of its `Y` component. -/
def DirectionInSampleScreenSpace (E : FEngine K) (MapSize : FIntPoint) (Pane : FPanoPane K)
    (X Y : Int) : FVector2D K :=
  let Unrotated := E.UnrotateVector (SampleRotation E Pane) (OutputDirection E MapSize X Y)
  let DirectionInSampleWorldSpace :=
    E.TransformFVector4 UnrealCoordinateConversion ⟨Unrotated.X, Unrotated.Y, Unrotated.Z, 1⟩
  let DirectionInSampleClipSpace :=
    E.TransformFVector4 (SampleProjectionMatrix E Pane) DirectionInSampleWorldSpace
  let DirectionInSampleNDSpace : FVector K :=
    ⟨DirectionInSampleClipSpace.X / DirectionInSampleClipSpace.W,
      DirectionInSampleClipSpace.Y / DirectionInSampleClipSpace.W,
      DirectionInSampleClipSpace.Z / DirectionInSampleClipSpace.W⟩
  let ScreenX := (DirectionInSampleNDSpace.X + 1) / 2 * (Pane.Resolution.X : K)
  let ScreenY := (DirectionInSampleNDSpace.Y + 1) / 2 * (Pane.Resolution.Y : K)
  ⟨ScreenX, ((Pane.Resolution.Y : K) - ScreenY) - 1⟩

/-- Local `SampleOutputX`: the column of the intermediate buffer written for loop variable `X`,
given the column `BoundsMinX` of the rectangle's left edge and the rectangle's width. -/
def SampleOutputX (MapSizeX BoundsMinX Width X : Int) : Int :=
  PositiveMod (PositiveMod X MapSizeX - BoundsMinX) Width

/-- Local `FinalIndex`: the index of the intermediate buffer written for loop variables `X`, `Y`. -/
def FinalIndex (MapSizeX : Int) (BoundsMin : FIntPoint) (Width X Y : Int) : Int :=
  SampleOutputX MapSizeX BoundsMin.X Width X + (Y - BoundsMin.Y) * Width

/-- Body of the pixel loops for one `(X, Y)`: the intermediate buffers after the iteration. -/
def BlendPixel (E : FEngine K) (MapSize : FIntPoint) (InData : FImagePixelData K) (X Y : Int)
    (Target : FBlendBuffers K) : Option (FBlendBuffers K) :=
  let Pane := InData.Payload.Pane
  let SampleWeightSquared := SampleWeightSquared E MapSize Pane X Y
  if SampleWeightSquared > KINDA_SMALL_NUMBER then
    match GetColorBilinearFiltered InData (DirectionInSampleScreenSpace E MapSize Pane X Y) false
        Pane.bIncludeAlpha with
    | none => none
    | some (SampleColor, bClipped) =>
      if !bClipped then
        let FinalIndex := FinalIndex MapSize.X (OutputBoundsMin E MapSize Pane)
          (PixelWidth E MapSize Pane) X Y
        some ⟨AddAt Target.Data FinalIndex (SampleColor.Scale SampleWeightSquared),
          if Pane.bIncludeAlpha then AddAt Target.AlphaArray FinalIndex SampleWeightSquared
          else Target.AlphaArray⟩
      else some Target
  else some Target

/-- Inner loop over `X` for one row `Y`. -/
def BlendRow (E : FEngine K) (MapSize : FIntPoint) (InData : FImagePixelData K) (Y : Int)
    (Target : FBlendBuffers K) : Option (FBlendBuffers K) :=
  (LoopRange (PixelIndexHorzMinBound E MapSize InData.Payload.Pane)
    (PixelIndexHorzMaxBound E MapSize InData.Payload.Pane)).foldlM
    (fun T X => BlendPixel E MapSize InData X Y T) Target

/-- Zeroed intermediate buffers of the sample (lines 232-240). -/
def NewBlendBuffers (E : FEngine K) (MapSize : FIntPoint) (Pane : FPanoPane K) : FBlendBuffers K :=
  ⟨SetNumZeroed (PixelWidth E MapSize Pane * PixelHeight E MapSize Pane),
    if Pane.bIncludeAlpha then SetNumZeroed (PixelWidth E MapSize Pane * PixelHeight E MapSize Pane)
    else []⟩

/-- Resampling of one sample into its intermediate buffers: allocation and both pixel loops. -/
def BlendSample (E : FEngine K) (MapSize : FIntPoint) (InData : FImagePixelData K) :
    Option (FBlendBuffers K) :=
  (LoopRange (PixelIndexVertMinBound E MapSize InData.Payload.Pane)
    (PixelIndexVertMaxBound E MapSize InData.Payload.Pane)).foldlM
    (fun T Y => BlendRow E MapSize InData Y T) (NewBlendBuffers E MapSize InData.Payload.Pane)

/-! ## Merge into the shared buffers (PanoramicBlender.cpp, lines 336-365) -/

/-- Local `EyeOffset` of the merge step. -/
def EyeOffset (MapSize : FIntPoint) (Pane : FPanoPane K) : Int :=
  if Pane.EyeIndex ≠ -1 then MapSize.X * MapSize.Y * Pane.EyeIndex else 0

/-- Local `DestIndex` of the merge step for intermediate position `(SampleX, SampleY)`. -/
def DestIndex (MapSize BoundsMin : FIntPoint) (SampleX SampleY : Int) : Int :=
  PositiveMod (SampleX + BoundsMin.X) MapSize.X + (SampleY + BoundsMin.Y) * MapSize.X

/-- Body of the merge loops for one `(SampleX, SampleY)`. -/
def MergePixel (MapSize : FIntPoint) (Pane : FPanoPane K) (BoundsMin : FIntPoint) (Width : Int)
    (Source : FBlendBuffers K) (SampleX SampleY : Int) (Shared : FBlendBuffers K) :
    FBlendBuffers K :=
  let SourceIndex := SampleX + SampleY * Width
  let Dest := DestIndex MapSize BoundsMin SampleX SampleY + EyeOffset MapSize Pane
  ⟨AddAt Shared.Data Dest (ReadAt Source.Data SourceIndex),
    if Pane.bIncludeAlpha then AddAt Shared.AlphaArray Dest (ReadAt Source.AlphaArray SourceIndex)
    else Shared.AlphaArray⟩

/-- Inner merge loop over `SampleX` for one `SampleY`. -/
def MergeRow (MapSize : FIntPoint) (Pane : FPanoPane K) (BoundsMin : FIntPoint) (Width : Int)
    (Source : FBlendBuffers K) (SampleY : Int) (Shared : FBlendBuffers K) : FBlendBuffers K :=
  (LoopRange 0 Width).foldl
    (fun S SampleX => MergePixel MapSize Pane BoundsMin Width Source SampleX SampleY S) Shared

/-- Both merge loops: the shared buffers after the intermediate buffers were added. -/
def MergeBuffers (MapSize : FIntPoint) (Pane : FPanoPane K) (BoundsMin : FIntPoint)
    (Width Height : Int) (Source : FBlendBuffers K) (Shared : FBlendBuffers K) : FBlendBuffers K :=
  (LoopRange 0 Height).foldl
    (fun S SampleY => MergeRow MapSize Pane BoundsMin Width Source SampleY S) Shared

/-- Merge step of one sample with intermediate buffers `Source`. -/
def MergeSample (E : FEngine K) (MapSize : FIntPoint) (Pane : FPanoPane K)
    (Source : FBlendBuffers K) (Shared : FBlendBuffers K) : FBlendBuffers K :=
  MergeBuffers MapSize Pane (OutputBoundsMin E MapSize Pane) (PixelWidth E MapSize Pane)
    (PixelHeight E MapSize Pane) Source Shared


/-! ## Frame bookkeeping (PanoramicBlender.cpp, lines 170-218 and 403-424) -/

/-- Local `EyeMultiplier`. -/
def EyeMultiplier (Pane : FPanoPane K) : Int := if Pane.EyeIndex = -1 then 1 else 2

/-- Local `TotalSampleCount`. -/
def TotalSampleCount (Pane : FPanoPane K) : Int :=
  Pane.NumHorizontalSteps * Pane.NumVerticalSteps * EyeMultiplier Pane

/-- Frame state created for the first sample of a frame (lines 186-200). -/
def NewOutputFrame (MapSize : FIntPoint) (Pane : FPanoPane K) : FPanoramicOutputFrame K where
  BlendedData := []
  NumSamplesTotal := TotalSampleCount Pane
  OutputEquirectangularMap := SetNumZeroed (MapSize.X * MapSize.Y * EyeMultiplier Pane)
  AlphaArray :=
    if Pane.bIncludeAlpha then SetNumZeroed (MapSize.X * MapSize.Y * EyeMultiplier Pane) else []

/-- The lookup loop over `PendingData`: the first entry whose key has the given frame number. -/
def FindPendingFrame (Pending : List (FMoviePipelineFrameOutputState × FPanoramicOutputFrame K))
    (OutputFrameNumber : Int) : Option (FMoviePipelineFrameOutputState × FPanoramicOutputFrame K) :=
  Pending.find? (fun KVP => decide (KVP.1.OutputFrameNumber = OutputFrameNumber))

/-- Write through the shared pointer obtained by the lookup: the frame of the first entry whose
key has the given frame number is replaced. -/
def StorePendingFrame :
    List (FMoviePipelineFrameOutputState × FPanoramicOutputFrame K) → Int →
    FPanoramicOutputFrame K → List (FMoviePipelineFrameOutputState × FPanoramicOutputFrame K)
  | [], _, _ => []
  | KVP :: Rest, OutputFrameNumber, Frame =>
    if KVP.1.OutputFrameNumber = OutputFrameNumber then (KVP.1, Frame) :: Rest
    else KVP :: StorePendingFrame Rest OutputFrameNumber Frame

/-- The call `PendingData.Remove(Key)`: entries with an equal key are dropped. -/
def RemovePending (Pending : List (FMoviePipelineFrameOutputState × FPanoramicOutputFrame K))
    (Key : FMoviePipelineFrameOutputState) :
    List (FMoviePipelineFrameOutputState × FPanoramicOutputFrame K) :=
  Pending.filter (fun KVP => decide (KVP.1 ≠ Key))

/-- Pending map after the lookup of lines 170-202: unchanged when the frame number was found,
otherwise with a new entry keyed by the sample's output state. -/
def ResolvePending (Blender : FPanoramicBlender K) (InData : FImagePixelData K) :
    List (FMoviePipelineFrameOutputState × FPanoramicOutputFrame K) :=
  match FindPendingFrame Blender.PendingData InData.Payload.SampleState.OutputState.OutputFrameNumber with
  | some _ => Blender.PendingData
  | none => Blender.PendingData ++ [(InData.Payload.SampleState.OutputState,
      NewOutputFrame Blender.OutputEquirectangularMapSize InData.Payload.Pane)]

/-- Local `OutputFrame` after the lookup of lines 170-202. -/
def ResolveOutputFrame (Blender : FPanoramicBlender K) (InData : FImagePixelData K) :
    FPanoramicOutputFrame K :=
  match FindPendingFrame Blender.PendingData InData.Payload.SampleState.OutputState.OutputFrameNumber with
  | some KVP => KVP.2
  | none => NewOutputFrame Blender.OutputEquirectangularMapSize InData.Payload.Pane

/-- The blend data record of a sample before its work is done (lines 211-228). -/
def NewBlendData (E : FEngine K) (MapSize : FIntPoint) (Pane : FPanoPane K) : FPanoramicBlendData where
  bFinished := false
  OutputBoundsMin := OutputBoundsMin E MapSize Pane
  OutputBoundsMax := OutputBoundsMax E MapSize Pane
  PixelWidth := PixelWidth E MapSize Pane
  PixelHeight := PixelHeight E MapSize Pane
  EyeIndex := Pane.EyeIndex

/-- The statements `FindOrAdd(EyeIndex)` and `EyeArray.Add(BlendDataTarget)`. -/
def AddBlendData : List (Int × List FPanoramicBlendData) → Int → FPanoramicBlendData →
    List (Int × List FPanoramicBlendData)
  | [], EyeIndex, Target => [(EyeIndex, [Target])]
  | KVP :: Rest, EyeIndex, Target =>
    if KVP.1 = EyeIndex then (KVP.1, KVP.2 ++ [Target]) :: Rest
    else KVP :: AddBlendData Rest EyeIndex Target

/-- The statement `BlendDataTarget->bFinished = true`, the target being the record added last
to the array of its eye. -/
def MarkFinished : List (Int × List FPanoramicBlendData) → Int →
    List (Int × List FPanoramicBlendData)
  | [], _ => []
  | KVP :: Rest, EyeIndex =>
    if KVP.1 = EyeIndex then
      (KVP.1, KVP.2.modify (fun Target => { Target with bFinished := true }) (KVP.2.length - 1)) :: Rest
    else KVP :: MarkFinished Rest EyeIndex

/-- Count of finished records in one eye's array (inner loop of lines 418-421). -/
def NumFinishedInEye (EyeArray : List FPanoramicBlendData) : Int :=
  EyeArray.foldl (fun Num Target => Num + (if Target.bFinished then 1 else 0)) 0

/-- Local `NumFinishedSamples` (lines 412-422). -/
def NumFinishedSamples (BlendedData : List (Int × List FPanoramicBlendData)) : Int :=
  BlendedData.foldl (fun Num KVP => Num + NumFinishedInEye KVP.2) 0

/-! ## Normalization and emission (PanoramicBlender.cpp, lines 427-461) -/

/-- Body of the normalization loop for one pixel with its entry of the weight array. -/
def NormalizePixel (bIncludeAlpha : Bool) (Pixel : FLinearColor K) (AlphaNum : K) :
    FLinearColor (Option K) :=
  if bIncludeAlpha then
    ⟨FloatDiv Pixel.R AlphaNum, FloatDiv Pixel.G AlphaNum, FloatDiv Pixel.B AlphaNum,
      FloatDiv Pixel.A AlphaNum⟩
  else
    ⟨FloatDiv Pixel.R Pixel.A, FloatDiv Pixel.G Pixel.A, FloatDiv Pixel.B Pixel.A, some 1⟩

/-- The normalization loop over `PixelIndex < OutputEquirectangularMap.Num()`. -/
def NormalizeMap (bIncludeAlpha : Bool) (Map : List (FLinearColor K)) (AlphaArray : List K) :
    List (FLinearColor (Option K)) :=
  (List.range Map.length).map (fun (PixelIndex : Nat) =>
    NormalizePixel bIncludeAlpha (ReadAt Map (PixelIndex : Int)) (ReadAt AlphaArray (PixelIndex : Int)))

/-- Size declared for the emitted panorama (locals `OutputSizeX`, `OutputSizeY`). -/
def OutputSize (MapSize : FIntPoint) (Pane : FPanoPane K) : FIntPoint :=
  ⟨MapSize.X, if Pane.EyeIndex ≥ 0 then MapSize.Y * 2 else MapSize.Y⟩

/-! ## The callback -/

/-- Shared buffers of the sample's frame after the merge step, `Target` being the sample's
intermediate buffers. -/
def SharedAfterMerge (E : FEngine K) (Blender : FPanoramicBlender K) (InData : FImagePixelData K)
    (Target : FBlendBuffers K) : FBlendBuffers K :=
  MergeSample E Blender.OutputEquirectangularMapSize InData.Payload.Pane Target
    ⟨(ResolveOutputFrame Blender InData).OutputEquirectangularMap,
      (ResolveOutputFrame Blender InData).AlphaArray⟩

/-- Calls made when per-sample debugging is requested (lines 367-389). -/
def DebugCalls (E : FEngine K) (Blender : FPanoramicBlender K) (InData : FImagePixelData K)
    (Target : FBlendBuffers K) : List (FMergerCall K) :=
  if InData.Payload.SampleState.bWriteSampleToDisk then
    [FMergerCall.OnSingleSampleDataAvailable
      ⟨PixelWidth E Blender.OutputEquirectangularMapSize InData.Payload.Pane,
        PixelHeight E Blender.OutputEquirectangularMapSize InData.Payload.Pane⟩
      Target.Data InData.Payload]
  else []

/-- Field `BlendedData` of the sample's frame once the sample's record was added and marked
finished. -/
def FinishedBlendedData (E : FEngine K) (Blender : FPanoramicBlender K)
    (InData : FImagePixelData K) : List (Int × List FPanoramicBlendData) :=
  MarkFinished
    (AddBlendData (ResolveOutputFrame Blender InData).BlendedData InData.Payload.Pane.EyeIndex
      (NewBlendData E Blender.OutputEquirectangularMapSize InData.Payload.Pane))
    InData.Payload.Pane.EyeIndex

/-- Local `bIsLastSample` (line 423). -/
def bIsLastSample (E : FEngine K) (Blender : FPanoramicBlender K) (InData : FImagePixelData K) :
    Bool :=
  decide (NumFinishedSamples (FinishedBlendedData E Blender InData) =
    (ResolveOutputFrame Blender InData).NumSamplesTotal)

/-- The panorama handed to the output merger by the last sample (lines 431-458). -/
def FinalPixelData (E : FEngine K) (Blender : FPanoramicBlender K) (InData : FImagePixelData K)
    (Target : FBlendBuffers K) : FMergerCall K :=
  FMergerCall.OnCompleteRenderPassDataAvailable
    (OutputSize Blender.OutputEquirectangularMapSize InData.Payload.Pane)
    (NormalizeMap InData.Payload.Pane.bIncludeAlpha (SharedAfterMerge E Blender InData Target).Data
      (SharedAfterMerge E Blender InData Target).AlphaArray)
    InData.Payload

/-- The sample's frame as left by a sample that is not the last one. -/
def UpdatedOutputFrame (E : FEngine K) (Blender : FPanoramicBlender K) (InData : FImagePixelData K)
    (Target : FBlendBuffers K) : FPanoramicOutputFrame K where
  BlendedData := FinishedBlendedData E Blender InData
  NumSamplesTotal := (ResolveOutputFrame Blender InData).NumSamplesTotal
  OutputEquirectangularMap := (SharedAfterMerge E Blender InData Target).Data
  AlphaArray := (SharedAfterMerge E Blender InData Target).AlphaArray

/-- The sample's frame as left by the last sample: its colour array was moved into the emitted
panorama. -/
def MovedOutputFrame (E : FEngine K) (Blender : FPanoramicBlender K) (InData : FImagePixelData K)
    (Target : FBlendBuffers K) : FPanoramicOutputFrame K where
  BlendedData := FinishedBlendedData E Blender InData
  NumSamplesTotal := (ResolveOutputFrame Blender InData).NumSamplesTotal
  OutputEquirectangularMap := []
  AlphaArray := (SharedAfterMerge E Blender InData Target).AlphaArray

/-- Translation of `FPanoramicBlender::OnCompleteRenderPassDataAvailable_AnyThread`: the blender
after the call and the calls made on the output merger, in order; `none` when a `check` fails. -/
def OnCompleteRenderPassDataAvailable_AnyThread (E : FEngine K) (Blender : FPanoramicBlender K)
    (InData : FImagePixelData K) : Option (FPanoramicBlender K × List (FMergerCall K)) :=
  let OutputState := InData.Payload.SampleState.OutputState
  match BlendSample E Blender.OutputEquirectangularMapSize InData with
  | none => none
  | some Target =>
    if bIsLastSample E Blender InData then
      some (⟨RemovePending
          (StorePendingFrame (ResolvePending Blender InData) OutputState.OutputFrameNumber
            (MovedOutputFrame E Blender InData Target)) OutputState,
          Blender.OutputEquirectangularMapSize⟩,
        DebugCalls E Blender InData Target ++ [FinalPixelData E Blender InData Target])
    else
      some (⟨StorePendingFrame (ResolvePending Blender InData) OutputState.OutputFrameNumber
          (UpdatedOutputFrame E Blender InData Target), Blender.OutputEquirectangularMapSize⟩,
        DebugCalls E Blender InData Target)

/-- Accessor `GetNumOutstandingFrames`. -/
def GetNumOutstandingFrames (Blender : FPanoramicBlender K) : Int := Blender.PendingData.length

/-- A blender right after construction: no pending frame. -/
def NewBlender (InOutputResolution : FIntPoint) : FPanoramicBlender K := ⟨[], InOutputResolution⟩

/-- Samples delivered one after another, each call ending before the next begins; the calls made
on the output merger are concatenated. -/
def DeliverSamples (E : FEngine K) :
    FPanoramicBlender K → List (FImagePixelData K) →
    Option (FPanoramicBlender K × List (FMergerCall K))
  | Blender, [] => some (Blender, [])
  | Blender, InData :: Rest =>
    match OnCompleteRenderPassDataAvailable_AnyThread E Blender InData with
    | none => none
    | some (Next, Calls) =>
      match DeliverSamples E Next Rest with
      | none => none
      | some (Last, MoreCalls) => some (Last, Calls ++ MoreCalls)

/-! ## Predicates used in the statements -/

/-- A tile whose pixels all equal `c`, stored densely. -/
def UniformTile (InData : FImagePixelData K) (c : FLinearColor K) : Prop :=
  (InData.RawData.length : Int) = InData.Size.X * InData.Size.Y ∧ ∀ p ∈ InData.RawData, p = c

/-- The entries of the pending map whose key carries the given frame number. -/
def PendingOfFrame (Pending : List (FMoviePipelineFrameOutputState × FPanoramicOutputFrame K))
    (OutputFrameNumber : Int) : List (FMoviePipelineFrameOutputState × FPanoramicOutputFrame K) :=
  Pending.filter (fun KVP => decide (KVP.1.OutputFrameNumber = OutputFrameNumber))

/-- The panoramas among the calls received by the output merger. -/
def PanoramaCalls (Calls : List (FMergerCall K)) : List (FMergerCall K) :=
  Calls.filter (fun Call =>
    match Call with
    | FMergerCall.OnCompleteRenderPassDataAvailable _ _ _ => true
    | FMergerCall.OnSingleSampleDataAvailable _ _ _ => false)

/-- The panoramas among the calls that were emitted for the given frame number. -/
def PanoramaCallsOfFrame (Calls : List (FMergerCall K)) (OutputFrameNumber : Int) :
    List (FMergerCall K) :=
  Calls.filter (fun Call =>
    match Call with
    | FMergerCall.OnCompleteRenderPassDataAvailable _ _ Payload =>
        decide (Payload.SampleState.OutputState.OutputFrameNumber = OutputFrameNumber)
    | FMergerCall.OnSingleSampleDataAvailable _ _ _ => false)

/-- Progress of the frame with identifier `Key` in a blender: no state yet and `k = 0`, or exactly
one pending state under that identifier, expecting `N` samples, of which `k > 0` are finished. -/
def FrameProgress (Blender : FPanoramicBlender K) (Key : FMoviePipelineFrameOutputState)
    (N k : Int) : Prop :=
  (k = 0 ∧ PendingOfFrame Blender.PendingData Key.OutputFrameNumber = []) ∨
  (0 < k ∧ ∃ Frame, PendingOfFrame Blender.PendingData Key.OutputFrameNumber = [(Key, Frame)] ∧
    Frame.NumSamplesTotal = N ∧ NumFinishedSamples Frame.BlendedData = k)

/-- Number of samples of a list that carry the given frame number. -/
def CountOfFrame (Samples : List (FImagePixelData K)) (OutputFrameNumber : Int) : Int :=
  ((Samples.filter (fun InData =>
    decide (InData.Payload.SampleState.OutputState.OutputFrameNumber = OutputFrameNumber))).length : Int)

/-- The first sample of a list that carries the given frame number. -/
def FirstOfFrame (Samples : List (FImagePixelData K)) (OutputFrameNumber : Int) :
    Option (FImagePixelData K) :=
  Samples.find? (fun InData =>
    decide (InData.Payload.SampleState.OutputState.OutputFrameNumber = OutputFrameNumber))

/-! ## Abandoning (PanoramicBlender.cpp, lines 481-484) -/

/-- The macro `check(Condition)`: the code after it runs only when the condition holds. -/
def Check (Condition : Bool) : Option Unit := if Condition then some () else none

/-- Translation of `FPanoramicBlender::AbandonOutstandingWork`, whose body is the single statement
`check(0)`: the blender after the call and the calls made on the output merger. -/
def AbandonOutstandingWork (Blender : FPanoramicBlender K) :
    Option (FPanoramicBlender K × List (FMergerCall K)) :=
  match Check false with
  | none => none
  | some _ => some (Blender, [])

/-! ## The render pass: settings and field of view (PanoramicPass.h, PanoramicPass.cpp) -/

/-- The settings of the pass (`UPanoramicPass`). -/
structure UPanoramicPass (K : Type) where
  bAccumulatorIncludesAlpha : Bool
  bStereo : Bool
  NumHorizontalSteps : Int
  NumVerticalSteps : Int
  OverlapPercentage : Int
  HorzFieldOfView : K
  VertFieldOfView : K
  EyeSeparation : K
  bEyeConvergenceDistance : Bool
  EyeConvergenceDistance : K
  bAllocateHistoryPerPane : Bool

/-- Translation of `UPanoramicPass::GetFieldOfView` (lines 257-262): the pair of `OutHorizontal`
and `OutVertical`. The horizontal quotient `360.0 / NumHorizontalSteps` is a floating-point
division; the vertical quotient `180 / (NumVerticalSteps)` divides two integers and truncates. -/
def GetFieldOfView (Pass : UPanoramicPass K) : K × K :=
  (if Pass.HorzFieldOfView > 0 then Pass.HorzFieldOfView
    else min (360 / (Pass.NumHorizontalSteps : K) * (1 + (Pass.OverlapPercentage : K) * (1 / 100))) 179,
   if Pass.VertFieldOfView > 0 then Pass.VertFieldOfView
    else min (((Int.tdiv 180 Pass.NumVerticalSteps : Int) : K) *
      (1 + (Pass.OverlapPercentage : K) * (1 / 100))) 179)

/-! ## The render pass: tile layout (PanoramicPass.cpp, lines 51-101) -/

/-- The loop shared by both distribution functions: `N` times, the current value is appended to
the results and then increased by `Delta`. -/
def DistributeLoop (Delta : K) (InNumDivisions : Int) (CurrentValue : K) : List K :=
  ((LoopRange 0 InNumDivisions).foldl
    (fun (State : List K × K) _ => (State.1 ++ [State.2], State.2 + Delta))
    ([], CurrentValue)).1

/-- Translation of `HorizontalDistributeValuesInInterval`. -/
def HorizontalDistributeValuesInInterval (InMin InMax : K) (InNumDivisions : Int) : List K :=
  let Delta := (InMax - InMin) / ((max InNumDivisions 1 : Int) : K)
  DistributeLoop Delta InNumDivisions InMin

/-- Translation of `VerticalDistributeValuesInInterval`. -/
def VerticalDistributeValuesInInterval (InMin InMax : K) (InNumDivisions : Int) : List K :=
  let Delta := (InMax - InMin) / ((max InNumDivisions 1 : Int) : K)
  DistributeLoop Delta InNumDivisions (-InMin + Delta / 2)

/-- Engine routines used by the render pass whose code is outside this repository. -/
structure FPoseEngine (K : Type) where
  /-- The constant `UE_PI`. -/
  PI : K
  /-- Arc tangent in radians (`FMath::Atan`). -/
  Atan : K → K
  /-- Rotation of a vector by the quaternion of a rotator (`FQuat::RotateVector`). -/
  RotateVector : FRotator K → FVector K → FVector K
  /-- The rotator of `FTransform(Rotation, ..).TransformRotation(Local.Quaternion())`, the rotation
  `Local` applied in the local frame of `Rotation`. -/
  TransformRotation : FRotator K → FRotator K → FRotator K
  /-- The rotator of `FQuat(SourceRot) * FQuat(UnitZ, Yaw) * FQuat(UnitY, Pitch)`, the two angles
  in radians. -/
  StepRotation : FRotator K → K → K → FRotator K

instance : Add (FVector K) := ⟨fun a b => ⟨a.X + b.X, a.Y + b.Y, a.Z + b.Z⟩⟩

instance : Sub (FVector K) := ⟨fun a b => ⟨a.X - b.X, a.Y - b.Y, a.Z - b.Z⟩⟩

/-- Vector times scalar (`FVector::operator*(float)`). -/
def FVector.Scale (v : FVector K) (s : K) : FVector K := ⟨v.X * s, v.Y * s, v.Z * s⟩

/-- Squared length of a vector (`FVector::SizeSquared`). -/
def FVector.SizeSquared (v : FVector K) : K := v.X * v.X + v.Y * v.Y + v.Z * v.Z

/-- The engine's `FTransform(Rotation, Translation, (1, 1, 1)).TransformPosition(V)`: the vector is
rotated, then translated. -/
def TransformPosition (P : FPoseEngine K) (Rotation : FRotator K) (Translation : FVector K)
    (V : FVector K) : FVector K :=
  P.RotateVector Rotation V + Translation

/-- Conversion `x * (180 / UE_PI)` from radians to degrees. -/
def RadiansToDegrees (P : FPoseEngine K) (x : K) : K := x * (180 / P.PI)

/-- Lookup `Values[Index]` in an array of step values; `none` outside the bounds. -/
def StepValue (Values : List K) (Index : Int) : Option K :=
  if 0 ≤ Index then Values[Index.toNat]? else none

/-- Translation of `GetCameraOrientationForStereo`: the pair of `OutLocation` and `OutRotation`;
`none` when a step index is outside its array of step values. -/
def GetCameraOrientationForStereo (P : FPoseEngine K) (InPane : FPanoPane K)
    (bInPrevPosition : Bool) : Option (FVector K × FRotator K) :=
  let PitchValues := VerticalDistributeValuesInInterval (-90) 90 InPane.NumVerticalSteps
  let YawValues := HorizontalDistributeValuesInInterval 0 360 InPane.NumHorizontalSteps
  match StepValue YawValues InPane.HorizontalStepIndex,
      StepValue PitchValues InPane.VerticalStepIndex with
  | some HorizontalRotationDeg, some VerticalRotationDeg =>
    let SourceRot :=
      if bInPrevPosition then InPane.PrevOriginalCameraRotation else InPane.OriginalCameraRotation
    let OutLocation :=
      if bInPrevPosition then InPane.PrevOriginalCameraLocation else InPane.OriginalCameraLocation
    some (OutLocation, P.StepRotation SourceRot (HorizontalRotationDeg * (P.PI / 180))
      (VerticalRotationDeg * (P.PI / 180)))
  | _, _ => none

/-! ## The render pass: pane set-up (PanoramicPass.cpp, lines 398-457) -/

/-- The camera of the sequence for the frame (`InSampleState.FrameInfo`). -/
structure FFrameInfo (K : Type) where
  CurrViewLocation : FVector K
  PrevViewLocation : FVector K
  CurrViewRotation : FRotator K
  PrevViewRotation : FRotator K

/-- Local `StereoIndex` of the pane loop. -/
def StereoIndex (Pass : UPanoramicPass K) (EyeLoopIndex : Int) : Int :=
  if Pass.bStereo then EyeLoopIndex else -1

/-- Local `EyeOffset` of the pane loop, for a stereo index of 0 or 1. -/
def StereoEyeOffset (Pass : UPanoramicPass K) (StereoIndex : Int) : K :=
  if StereoIndex = 0 then Pass.EyeSeparation / 2 else -Pass.EyeSeparation / 2

/-- Local `EyeAngle` of the pane loop, in degrees. -/
def StereoEyeAngle (P : FPoseEngine K) (Pass : UPanoramicPass K) (StereoIndex : Int) : K :=
  RadiansToDegrees P (P.Atan (StereoEyeOffset Pass StereoIndex / Pass.EyeConvergenceDistance))

/-- The four fields `OriginalCameraLocation`, `PrevOriginalCameraLocation`,
`OriginalCameraRotation`, `PrevOriginalCameraRotation` of the pane (lines 414-441); `none` when
the `check` on the stereo index fails. -/
def OriginalCameraPose (P : FPoseEngine K) (Pass : UPanoramicPass K) (FrameInfo : FFrameInfo K)
    (EyeLoopIndex : Int) : Option (FVector K × FVector K × FRotator K × FRotator K) :=
  let StereoIndex := StereoIndex Pass EyeLoopIndex
  if StereoIndex = -1 then
    some (FrameInfo.CurrViewLocation, FrameInfo.PrevViewLocation, FrameInfo.CurrViewRotation,
      FrameInfo.PrevViewRotation)
  else
    match Check (decide (StereoIndex = 0 ∨ StereoIndex = 1)) with
    | none => none
    | some _ =>
      let EyeOffset := StereoEyeOffset Pass StereoIndex
      let Location := TransformPosition P FrameInfo.CurrViewRotation FrameInfo.CurrViewLocation
        ⟨0, EyeOffset, 0⟩
      let PrevLocation := TransformPosition P FrameInfo.PrevViewRotation FrameInfo.PrevViewLocation
        ⟨0, EyeOffset, 0⟩
      if Pass.bEyeConvergenceDistance then
        let EyeAngle := StereoEyeAngle P Pass StereoIndex
        some (Location, PrevLocation,
          P.TransformRotation FrameInfo.CurrViewRotation ⟨0, EyeAngle, 0⟩,
          P.TransformRotation FrameInfo.PrevViewRotation ⟨0, EyeAngle, 0⟩)
      else
        some (Location, PrevLocation, FrameInfo.CurrViewRotation, FrameInfo.PrevViewRotation)

/-- The pane built by one iteration of the pane loop; `MinZ` is the near clipping plane written
into the pane later (line 308). `none` when a `check` or a step lookup fails. -/
def SetupPane (P : FPoseEngine K) (Pass : UPanoramicPass K) (FrameInfo : FFrameInfo K)
    (PaneResolution : FIntPoint) (MinZ : K)
    (EyeLoopIndex VerticalStepIndex HorizontalStepIndex : Int) : Option (FPanoPane K) :=
  match OriginalCameraPose P Pass FrameInfo EyeLoopIndex with
  | none => none
  | some (Location, PrevLocation, Rotation, PrevRotation) =>
    let Pane : FPanoPane K :=
      { OriginalCameraLocation := Location
        PrevOriginalCameraLocation := PrevLocation
        OriginalCameraRotation := Rotation
        PrevOriginalCameraRotation := PrevRotation
        NearClippingPlane := MinZ
        EyeSeparation := Pass.EyeSeparation
        EyeConvergenceDistance := Pass.EyeConvergenceDistance
        HorizontalFieldOfView := (GetFieldOfView Pass).1
        VerticalFieldOfView := (GetFieldOfView Pass).2
        Resolution := PaneResolution
        CameraLocation := Location
        PrevCameraLocation := PrevLocation
        CameraRotation := Rotation
        PrevCameraRotation := PrevRotation
        NumHorizontalSteps := Pass.NumHorizontalSteps
        NumVerticalSteps := Pass.NumVerticalSteps
        HorizontalStepIndex := HorizontalStepIndex
        VerticalStepIndex := VerticalStepIndex
        EyeIndex := StereoIndex Pass EyeLoopIndex
        bIncludeAlpha := Pass.bAccumulatorIncludesAlpha }
    match GetCameraOrientationForStereo P Pane true, GetCameraOrientationForStereo P Pane false with
    | some (PrevCameraLocation, PrevCameraRotation), some (CameraLocation, CameraRotation) =>
      some { Pane with
        CameraLocation := CameraLocation
        PrevCameraLocation := PrevCameraLocation
        CameraRotation := CameraRotation
        PrevCameraRotation := PrevCameraRotation }
    | _, _ => none

/-! ## Further predicates used in the statements -/

/-- The expected sample count of a frame number in a list of samples: the count declared by the
pane of the first sample carrying that number; 0 when no sample carries it. -/
def ExpectedOfFrame (Samples : List (FImagePixelData K)) (OutputFrameNumber : Int) : Int :=
  match FirstOfFrame Samples OutputFrameNumber with
  | some First => TotalSampleCount First.Payload.Pane
  | none => 0

/-- The distinct frame numbers of a list of samples that have received fewer samples than they
expect. -/
def IncompleteFrames (Samples : List (FImagePixelData K)) : List Int :=
  ((Samples.map (fun InData =>
      InData.Payload.SampleState.OutputState.OutputFrameNumber)).dedup).filter
    (fun n => decide (CountOfFrame Samples n < ExpectedOfFrame Samples n))

/-- A rigid rotation of vectors: a map that is additive, commutes with scaling and preserves the
squared length. -/
def IsRigidRotation (R : FVector K → FVector K) : Prop :=
  (∀ a b, R (a + b) = R a + R b) ∧
  (∀ v s, R (FVector.Scale v s) = FVector.Scale (R v) s) ∧
  ∀ v, FVector.SizeSquared (R v) = FVector.SizeSquared v

/-- The pending map of a blender agrees with the samples delivered so far: a frame number that
received no sample, or as many as it expects, has no pending state; a frame number that received
some but fewer than it expects has exactly one, under the identifier of its first sample, with
the expected count of that sample's pane and as many finished samples as were delivered. -/
def PendingMatches (Blender : FPanoramicBlender K) (Samples : List (FImagePixelData K)) : Prop :=
  ∀ n : Int,
    ((CountOfFrame Samples n = 0 ∨ CountOfFrame Samples n = ExpectedOfFrame Samples n) →
      PendingOfFrame Blender.PendingData n = []) ∧
    (0 < CountOfFrame Samples n → CountOfFrame Samples n < ExpectedOfFrame Samples n →
      ∃ First Frame, FirstOfFrame Samples n = some First ∧
        PendingOfFrame Blender.PendingData n = [(First.Payload.SampleState.OutputState, Frame)] ∧
        Frame.NumSamplesTotal = ExpectedOfFrame Samples n ∧
        NumFinishedSamples Frame.BlendedData = CountOfFrame Samples n)

/-! ## The render pass: view-state slots (PanoramicPass.h, lines 52-61; PanoramicPass.cpp, 134-146) -/

/-- Translation of `FPanoPane::GetAbsoluteIndex`. -/
def GetAbsoluteIndex (Pane : FPanoPane K) : Int :=
  let EyeOffset := if Pane.EyeIndex = -1 then 0 else Pane.EyeIndex
  if EyeOffset = 0 then Pane.VerticalStepIndex * Pane.NumHorizontalSteps + Pane.HorizontalStepIndex
  else (Pane.NumVerticalSteps + Pane.VerticalStepIndex) * Pane.NumHorizontalSteps +
    Pane.HorizontalStepIndex

/-- Local `NumPanoramicPanes` of `UPanoramicPass::SetupImpl`: the length given to the array
`OptionalPaneViewStates`. -/
def NumPanoramicPanes (Pass : UPanoramicPass K) : Int :=
  Pass.NumHorizontalSteps * Pass.NumVerticalSteps * (if Pass.bStereo then 2 else 1)

/-- The pane of the given eye and step indices in the grid of a pass, as the pane loop fills these
fields (lines 412, 443-447); the other fields are those of `Base`. -/
def GridPane (Pass : UPanoramicPass K) (Base : FPanoPane K)
    (EyeIndex VerticalStepIndex HorizontalStepIndex : Int) : FPanoPane K :=
  { Base with
    NumHorizontalSteps := Pass.NumHorizontalSteps
    NumVerticalSteps := Pass.NumVerticalSteps
    HorizontalStepIndex := HorizontalStepIndex
    VerticalStepIndex := VerticalStepIndex
    EyeIndex := EyeIndex }

/-- The eye and step indices that the pane loop of a pass runs through (lines 394-399): eye -1
in mono and eyes 0 and 1 in stereo, `VerticalStepIndex < NumVerticalSteps` and
`HorizontalStepIndex < NumHorizontalSteps`. -/
def InGrid (Pass : UPanoramicPass K) (EyeIndex VerticalStepIndex HorizontalStepIndex : Int) : Prop :=
  (if Pass.bStereo then EyeIndex = 0 ∨ EyeIndex = 1 else EyeIndex = -1) ∧
  (0 ≤ VerticalStepIndex ∧ VerticalStepIndex < Pass.NumVerticalSteps) ∧
  (0 ≤ HorizontalStepIndex ∧ HorizontalStepIndex < Pass.NumHorizontalSteps)

/-! ## Further notions of the bilinear sampler -/

/-- The four taps of `GetColorBilinearFiltered` before clamping (lines 19-22): the lower-left
index and its neighbours at `(1, 0)`, `(0, 1)` and `(1, 1)`. -/
def TapIndices (InSamplePixelCoords : FVector2D K) : List FIntPoint :=
  let LowerLeftPixelIndex : FIntPoint :=
    ⟨RoundToInt (InSamplePixelCoords.X - 1 / 2), RoundToInt (InSamplePixelCoords.Y - 1 / 2)⟩
  [LowerLeftPixelIndex, ⟨LowerLeftPixelIndex.X + 1, LowerLeftPixelIndex.Y + 0⟩,
    ⟨LowerLeftPixelIndex.X + 0, LowerLeftPixelIndex.Y + 1⟩,
    ⟨LowerLeftPixelIndex.X + 1, LowerLeftPixelIndex.Y + 1⟩]

/-- The test of the lambda `ClampPixelCoords`: the index is outside an array of the given size. -/
def OutsideArray (InOutPixelCoords InArraySize : FIntPoint) : Prop :=
  InOutPixelCoords.X > InArraySize.X - 1 ∨ InOutPixelCoords.Y > InArraySize.Y - 1 ∨
    InOutPixelCoords.X < 0 ∨ InOutPixelCoords.Y < 0

/-- A pane of an unrotated camera at the origin that looks at the given yaw and pitch with the
given horizontal and vertical field of view; a single mono tile of 4 by 4 pixels. -/
def PaneLookingAt (Yaw Pitch HorizontalFieldOfView VerticalFieldOfView : K) : FPanoPane K where
  OriginalCameraLocation := ⟨0, 0, 0⟩
  PrevOriginalCameraLocation := ⟨0, 0, 0⟩
  OriginalCameraRotation := ⟨0, 0, 0⟩
  PrevOriginalCameraRotation := ⟨0, 0, 0⟩
  NearClippingPlane := 1
  EyeSeparation := 0
  EyeConvergenceDistance := 0
  HorizontalFieldOfView := HorizontalFieldOfView
  VerticalFieldOfView := VerticalFieldOfView
  Resolution := ⟨4, 4⟩
  CameraLocation := ⟨0, 0, 0⟩
  PrevCameraLocation := ⟨0, 0, 0⟩
  CameraRotation := ⟨Pitch, Yaw, 0⟩
  PrevCameraRotation := ⟨Pitch, Yaw, 0⟩
  NumHorizontalSteps := 1
  NumVerticalSteps := 1
  HorizontalStepIndex := 0
  VerticalStepIndex := 0
  EyeIndex := -1
  bIncludeAlpha := false

/-! ## The accumulated weight of a frame -/

/-- The same tile, submitted with alpha tracked separately (`bIncludeAlpha` set). -/
def TrackAlpha (InData : FImagePixelData K) : FImagePixelData K :=
  { InData with
    Payload := { InData.Payload with
      Pane := { InData.Payload.Pane with bIncludeAlpha := true } } }

/-- The shared buffers of a frame after one more sample: the sample is resampled into its
intermediate buffers, which the merge step adds to the shared buffers. -/
def AccumulateSample (E : FEngine K) (MapSize : FIntPoint) (Shared : FBlendBuffers K)
    (InData : FImagePixelData K) : Option (FBlendBuffers K) :=
  (BlendSample E MapSize InData).map
    (fun Target => MergeSample E MapSize InData.Payload.Pane Target Shared)

/-- The shared buffers of a frame after the samples of a list, one after another. -/
def AccumulateSamples (E : FEngine K) (MapSize : FIntPoint) (Shared : FBlendBuffers K)
    (Samples : List (FImagePixelData K)) : Option (FBlendBuffers K) :=
  Samples.foldlM (AccumulateSample E MapSize) Shared

/-- The shared buffers of a frame that received the samples of a non-empty list, starting from
the zeroed buffers allocated for the first sample. -/
def FrameBuffers (E : FEngine K) (MapSize : FIntPoint) :
    List (FImagePixelData K) → Option (FBlendBuffers K)
  | [] => none
  | First :: Rest =>
    AccumulateSamples E MapSize
      ⟨(NewOutputFrame MapSize First.Payload.Pane).OutputEquirectangularMap,
        (NewOutputFrame MapSize First.Payload.Pane).AlphaArray⟩ (First :: Rest)

/-- The accumulated weight of a frame, per index of the shared buffers: every contribution of a
sample adds its squared weight to the sample's intermediate weight buffer at the contribution's
index, and the merge step adds the intermediate weights to the shared weight buffer. This is the
array `AlphaArray` that the blender keeps for the same tiles when alpha is tracked separately
(lines 320-323 and 358-361). -/
def AccumulatedWeight (E : FEngine K) (MapSize : FIntPoint) (Samples : List (FImagePixelData K)) :
    Option (List K) :=
  (FrameBuffers E MapSize (Samples.map TrackAlpha)).map (fun Shared => Shared.AlphaArray)

/-- The alpha channel of every entry of a colour buffer equals the entry of a weight buffer. -/
def AlphaIsWeight (Colour Weight : FBlendBuffers K) : Prop :=
  Colour.Data.map (fun Pixel => Pixel.A) = Weight.AlphaArray

/-! ## Ranges of the operations of one call -/

/-- No operation of one call of the callback for the first sample of its frame leaves its range:
the integer remainders have a divisor other than zero (lines 251, 315, 354), the arrays are
allocated with a length that is not negative (lines 195-198, 234-237), and every array access
stays inside its array at its allocated length, no array changing its length between its
allocation and the end of the call. The accesses are the four taps of the bilinear sampler in
the tile's raw data, whatever coordinate is sampled (lines 58-70); the writes at `FinalIndex`
into the intermediate buffers for every pixel of the rectangle (lines 320-323); the reads at
`SourceIndex` and the writes at `DestIndex + EyeOffset` for every position of the merge loops
(lines 359-362); and the reads of the weight array for every entry of the colour array in the
normalization loop (lines 433-436). -/
def OperationsInRange (E : FEngine K) (Blender : FPanoramicBlender K)
    (InData : FImagePixelData K) : Prop :=
  let MapSize := Blender.OutputEquirectangularMapSize
  let Pane := InData.Payload.Pane
  let Width := PixelWidth E MapSize Pane
  let Height := PixelHeight E MapSize Pane
  let Target := NewBlendBuffers E MapSize Pane
  let OutputFrame := NewOutputFrame MapSize Pane
  MapSize.X ≠ 0 ∧
  0 ≤ MapSize.X * MapSize.Y * EyeMultiplier Pane ∧
  0 ≤ Width * Height ∧
  (∀ (Index : FIntPoint) (OutClipped : Bool),
    0 ≤ (ClampPixelCoords Index InData.Size OutClipped).1.X +
      (ClampPixelCoords Index InData.Size OutClipped).1.Y * InData.Size.X ∧
    (ClampPixelCoords Index InData.Size OutClipped).1.X +
      (ClampPixelCoords Index InData.Size OutClipped).1.Y * InData.Size.X <
      (InData.RawData.length : Int)) ∧
  (∀ Y ∈ LoopRange (PixelIndexVertMinBound E MapSize Pane) (PixelIndexVertMaxBound E MapSize Pane),
    ∀ X ∈ LoopRange (PixelIndexHorzMinBound E MapSize Pane) (PixelIndexHorzMaxBound E MapSize Pane),
      Width ≠ 0 ∧
      0 ≤ FinalIndex MapSize.X (OutputBoundsMin E MapSize Pane) Width X Y ∧
      FinalIndex MapSize.X (OutputBoundsMin E MapSize Pane) Width X Y < (Target.Data.length : Int) ∧
      (Pane.bIncludeAlpha = true →
        FinalIndex MapSize.X (OutputBoundsMin E MapSize Pane) Width X Y <
          (Target.AlphaArray.length : Int))) ∧
  (∀ SampleY ∈ LoopRange 0 Height, ∀ SampleX ∈ LoopRange 0 Width,
    0 ≤ SampleX + SampleY * Width ∧
    SampleX + SampleY * Width < (Target.Data.length : Int) ∧
    (Pane.bIncludeAlpha = true → SampleX + SampleY * Width < (Target.AlphaArray.length : Int)) ∧
    0 ≤ DestIndex MapSize (OutputBoundsMin E MapSize Pane) SampleX SampleY + EyeOffset MapSize Pane ∧
    DestIndex MapSize (OutputBoundsMin E MapSize Pane) SampleX SampleY + EyeOffset MapSize Pane <
      (OutputFrame.OutputEquirectangularMap.length : Int) ∧
    (Pane.bIncludeAlpha = true →
      DestIndex MapSize (OutputBoundsMin E MapSize Pane) SampleX SampleY + EyeOffset MapSize Pane <
        (OutputFrame.AlphaArray.length : Int))) ∧
  (Pane.bIncludeAlpha = true →
    OutputFrame.OutputEquirectangularMap.length ≤ OutputFrame.AlphaArray.length)

end Scalars

/-! ## Concrete inputs -/

/-- Rational stand-in for the engine's cosine: the Taylor polynomial of degree ten. -/
def RationalCos (x : ℚ) : ℚ :=
  1 - x ^ 2 / 2 + x ^ 4 / 24 - x ^ 6 / 720 + x ^ 8 / 40320 - x ^ 10 / 3628800

/-- Rational stand-in for the engine's sine: the Taylor polynomial of degree eleven. -/
def RationalSin (x : ℚ) : ℚ :=
  x - x ^ 3 / 6 + x ^ 5 / 120 - x ^ 7 / 5040 + x ^ 9 / 362880 - x ^ 11 / 39916800

/-- Row vector times matrix, the engine's convention for `TransformFVector4`. -/
def RationalTransformFVector4 (M : FMatrix ℚ) (v : FVector4 ℚ) : FVector4 ℚ :=
  ⟨v.X * M.XPlane.X + v.Y * M.YPlane.X + v.Z * M.ZPlane.X + v.W * M.WPlane.X,
    v.X * M.XPlane.Y + v.Y * M.YPlane.Y + v.Z * M.ZPlane.Y + v.W * M.WPlane.Y,
    v.X * M.XPlane.Z + v.Y * M.YPlane.Z + v.Z * M.ZPlane.Z + v.W * M.WPlane.Z,
    v.X * M.XPlane.W + v.Y * M.YPlane.W + v.Z * M.ZPlane.W + v.W * M.WPlane.W⟩

/-- The engine's routines over the rationals, for a camera that is only yawed and pitched. -/
def RationalEngine : FEngine ℚ where
  PI := 355 / 113
  Cos := RationalCos
  Sin := RationalSin
  InverseTransformRotation := fun Actor Camera =>
    ⟨Camera.Pitch - Actor.Pitch, Camera.Yaw - Actor.Yaw, Camera.Roll - Actor.Roll⟩
  UnrotateVector := fun Rotation v =>
    let Yaw := Rotation.Yaw * (355 / 113 / 180)
    let Pitch := Rotation.Pitch * (355 / 113 / 180)
    let X1 := RationalCos Yaw * v.X + RationalSin Yaw * v.Y
    let Y1 := RationalCos Yaw * v.Y - RationalSin Yaw * v.X
    ⟨RationalCos Pitch * X1 + RationalSin Pitch * v.Z, Y1,
      RationalCos Pitch * v.Z - RationalSin Pitch * X1⟩
  FReversedZPerspectiveMatrix := fun HalfFOV Width Height MinZ =>
    let Tan := RationalSin HalfFOV / RationalCos HalfFOV
    ⟨⟨1 / Tan, 0, 0, 0⟩, ⟨0, Width / Tan / Height, 0, 0⟩, ⟨0, 0, 0, 1⟩, ⟨0, 0, MinZ, 0⟩⟩
  TransformFVector4 := RationalTransformFVector4

/-- A pane of an unrotated camera at the origin, looking at the given yaw and pitch with a field
of view of 135 degrees in both directions and a tile of 4 by 4 pixels. -/
def ExamplePane (Yaw Pitch : ℚ) (NumHorizontalSteps NumVerticalSteps : Int)
    (HorizontalStepIndex VerticalStepIndex EyeIndex : Int) (bIncludeAlpha : Bool) : FPanoPane ℚ where
  OriginalCameraLocation := ⟨0, 0, 0⟩
  PrevOriginalCameraLocation := ⟨0, 0, 0⟩
  OriginalCameraRotation := ⟨0, 0, 0⟩
  PrevOriginalCameraRotation := ⟨0, 0, 0⟩
  NearClippingPlane := 1
  EyeSeparation := 0
  EyeConvergenceDistance := 0
  HorizontalFieldOfView := 135
  VerticalFieldOfView := 135
  Resolution := ⟨4, 4⟩
  CameraLocation := ⟨0, 0, 0⟩
  PrevCameraLocation := ⟨0, 0, 0⟩
  CameraRotation := ⟨Pitch, Yaw, 0⟩
  PrevCameraRotation := ⟨Pitch, Yaw, 0⟩
  NumHorizontalSteps := NumHorizontalSteps
  NumVerticalSteps := NumVerticalSteps
  HorizontalStepIndex := HorizontalStepIndex
  VerticalStepIndex := VerticalStepIndex
  EyeIndex := EyeIndex
  bIncludeAlpha := bIncludeAlpha

/-- A half-precision tile of 4 by 4 pixels, uniformly of colour `c`, for the given frame number. -/
def ExampleSample (OutputFrameNumber : Int) (c : FLinearColor ℚ) (Pane : FPanoPane ℚ) :
    FImagePixelData ℚ where
  Size := ⟨4, 4⟩
  PixelType := EImagePixelType.Float16
  RawData := List.replicate 16 c
  Payload := ⟨⟨⟨OutputFrameNumber, 0⟩, false⟩, Pane⟩

/-- The `i`-th of the 36 samples of frame 7 of a stereo panorama with 6 horizontal and 3 vertical
steps: eye `i / 18`, vertical step `(i % 18) / 6`, horizontal step `i % 6`. -/
def StereoSample (i : Nat) : FImagePixelData ℚ :=
  ExampleSample 7 ⟨1 / 2, 1 / 2, 1 / 2, 1⟩
    (ExamplePane (if i % 6 ≤ 3 then 60 * (i % 6 : Nat) else 60 * (i % 6 : Nat) - 360)
      (60 * ((i % 18 / 6 : Nat) : ℚ) - 60) 6 3 (i % 6 : Nat) (i % 18 / 6 : Nat) (i / 18 : Nat) false)

/-- A mono sample of frame 7 whose pane declares a grid of 9 by 9 steps. -/
def OtherGridSample : FImagePixelData ℚ :=
  ExampleSample 7 ⟨1 / 2, 1 / 2, 1 / 2, 1⟩ (ExamplePane 0 0 9 9 0 0 (-1) false)

/-- The `i`-th of the 8 samples of frame 7 of a mono panorama with 4 horizontal and 2 vertical
steps, every tile uniformly gray. -/
def MonoSample (i : Nat) : FImagePixelData ℚ :=
  ExampleSample 7 ⟨1 / 2, 1 / 2, 1 / 2, 1⟩
    (ExamplePane (if i % 4 ≤ 2 then 90 * (i % 4 : Nat) else -90) (90 * ((i / 4 : Nat) : ℚ) - 45)
      4 2 (i % 4 : Nat) (i / 4 : Nat) (-1) false)

/-- A single-tile mono frame whose tile looks at yaw 180 degrees, across the seam of the map. -/
def SeamPane : FPanoPane ℚ := ExamplePane 180 45 1 1 0 0 (-1) false

/-- The sample of the single-tile frame 7 looking across the seam. -/
def SeamSample : FImagePixelData ℚ := ExampleSample 7 ⟨1 / 2, 1 / 2, 1 / 2, 1⟩ SeamPane

/-- The pixels at the given indices of an emitted panorama; nothing for a debug image. -/
def PanoramaPixels (Indices : List Nat) : FMergerCall ℚ → List (Option (FLinearColor (Option ℚ)))
  | FMergerCall.OnCompleteRenderPassDataAvailable _ Data _ => Indices.map (fun i => Data[i]?)
  | FMergerCall.OnSingleSampleDataAvailable _ _ _ => []

/-- A sample of frame 7 of a mono panorama with 2 horizontal steps and 1 vertical step. -/
def TwoTileSample : FImagePixelData ℚ :=
  ExampleSample 7 ⟨1 / 2, 1 / 2, 1 / 2, 1⟩ (ExamplePane 0 0 2 1 0 0 (-1) false)

/-- Summary of a blender and the calls of a run: for every pending frame its identifier, expected
sample count and number of finished samples, and the number of panoramas emitted. -/
def RunSummary (Result : FPanoramicBlender ℚ × List (FMergerCall ℚ)) :
    List (FMoviePipelineFrameOutputState × Int × Int) × Nat :=
  (Result.1.PendingData.map (fun KVP =>
      (KVP.1, KVP.2.NumSamplesTotal, NumFinishedSamples KVP.2.BlendedData)),
    (PanoramaCalls Result.2).length)

/-- A sample of frame 7 whose pane declares no horizontal and no vertical steps. -/
def MalformedSample : FImagePixelData ℚ :=
  ExampleSample 7 ⟨1 / 2, 1 / 2, 1 / 2, 1⟩ (ExamplePane 0 0 0 0 0 0 (-1) false)

/-- Rational stand-in for the engine's arc tangent: the Taylor polynomial of degree five. -/
def RationalAtan (x : ℚ) : ℚ := x - x ^ 3 / 3 + x ^ 5 / 5

/-- An exactly rigid rotation about the vertical axis with rational entries: the rotation whose
half angle has the tangent `t`. -/
def RationalYawRotation (t : ℚ) (v : FVector ℚ) : FVector ℚ :=
  ⟨(1 - t ^ 2) / (1 + t ^ 2) * v.X - 2 * t / (1 + t ^ 2) * v.Y,
    2 * t / (1 + t ^ 2) * v.X + (1 - t ^ 2) / (1 + t ^ 2) * v.Y, v.Z⟩

/-- The engine's pose routines over the rationals, for cameras that are only yawed: a rotator is
applied as the rigid rotation whose half angle has the tangent `Yaw / 360`. -/
def RationalPoseEngine : FPoseEngine ℚ where
  PI := 355 / 113
  Atan := RationalAtan
  RotateVector := fun Rotation v => RationalYawRotation (Rotation.Yaw / 360) v
  TransformRotation := fun Rotation Local =>
    ⟨Rotation.Pitch + Local.Pitch, Rotation.Yaw + Local.Yaw, Rotation.Roll + Local.Roll⟩
  StepRotation := fun SourceRot Yaw Pitch =>
    ⟨SourceRot.Pitch + Pitch * (180 / (355 / 113)), SourceRot.Yaw + Yaw * (180 / (355 / 113)),
      SourceRot.Roll⟩

/-- Settings of a pass with the given step counts and overlap, no field-of-view override, and
the constructor's eye separation of 6.5 with a convergence distance of 30 eye separations. -/
def ExamplePass (bStereo : Bool) (NumHorizontalSteps NumVerticalSteps OverlapPercentage : Int) :
    UPanoramicPass ℚ where
  bAccumulatorIncludesAlpha := false
  bStereo := bStereo
  NumHorizontalSteps := NumHorizontalSteps
  NumVerticalSteps := NumVerticalSteps
  OverlapPercentage := OverlapPercentage
  HorzFieldOfView := 0
  VertFieldOfView := 0
  EyeSeparation := 13 / 2
  bEyeConvergenceDistance := true
  EyeConvergenceDistance := 195
  bAllocateHistoryPerPane := true

/-- A sequence camera at the position (100, 20, 50), yawed by 90 degrees, at rest. -/
def ExampleFrameInfo : FFrameInfo ℚ where
  CurrViewLocation := ⟨100, 20, 50⟩
  PrevViewLocation := ⟨100, 20, 50⟩
  CurrViewRotation := ⟨0, 90, 0⟩
  PrevViewRotation := ⟨0, 90, 0⟩

/-- Four samples of three frames on a map of 8 by 4 pixels: two of the 8 samples of frame 7, the
single sample of the one-tile frame 8 and one of the 2 samples of frame 9. -/
def DrainSamples : List (FImagePixelData ℚ) :=
  [MonoSample 0, ExampleSample 8 ⟨1 / 2, 1 / 2, 1 / 2, 1⟩ (ExamplePane 0 0 1 1 0 0 (-1) false),
    MonoSample 1, ExampleSample 9 ⟨1 / 2, 1 / 2, 1 / 2, 1⟩ (ExamplePane 0 0 2 1 0 0 (-1) false)]

/-- A mono pane of a grid of 4 by 2 steps looking at yaw 22 degrees and pitch 0, with a field of
view of 135 degrees in both directions. -/
def OffCentrePane : FPanoPane ℚ := ExamplePane 22 0 4 2 0 0 (-1) false

/-- The sample of frame 7 rendered for the pane looking at yaw 22 degrees. -/
def OffCentreSample : FImagePixelData ℚ := ExampleSample 7 ⟨1 / 2, 1 / 2, 1 / 2, 1⟩ OffCentrePane

/-! # Properties -/

section Proofs

variable {K : Type} [LinearOrderedField K] [FloorRing K]

/-! ## Arrays -/

theorem AddAt_length {α : Type} [Add α] (arr : List α) (i : Int) (v : α) :
    (AddAt arr i v).length = arr.length := by
  unfold AddAt
  split <;> simp

theorem AddAt_forall {α : Type} [Add α] (P : α → Prop) (arr : List α) (i : Int) (v : α)
    (hv : ∀ x, P x → P (x + v)) (h : ∀ x ∈ arr, P x) : ∀ x ∈ AddAt arr i v, P x := by
  unfold AddAt
  split
  · intro x hx
    obtain ⟨n, hn⟩ := List.getElem?_of_mem hx
    rw [List.getElem?_modify] at hn
    cases hl : arr[n]? with
    | none => simp [hl] at hn
    | some y =>
      have hy : y ∈ arr := List.getElem?_mem hl
      simp only [hl, Option.map_eq_map, Option.map_some', Option.some.injEq] at hn
      subst hn
      split
      · exact hv y (h y hy)
      · exact h y hy
  · exact h

theorem AddAt_comm {α : Type} [Add α] (arr : List α) (i j : Int) (v w : α)
    (hc : ∀ x : α, x + v + w = x + w + v) :
    AddAt (AddAt arr i v) j w = AddAt (AddAt arr j w) i v := by
  unfold AddAt
  by_cases hi : 0 ≤ i <;> by_cases hj : 0 ≤ j <;> simp only [hi, hj, if_true, if_false]
  apply List.ext_getElem?
  intro n
  simp only [List.getElem?_modify]
  cases arr[n]? with
  | none => rfl
  | some y =>
    simp only [Option.map_eq_map, Option.map_some', Option.some.injEq]
    by_cases h1 : i.toNat = n <;> by_cases h2 : j.toNat = n <;> simp [h1, h2, hc]

theorem ReadAt_mem_or_zero {α : Type} [Zero α] (arr : List α) (i : Int) :
    ReadAt arr i ∈ arr ∨ ReadAt arr i = 0 := by
  unfold ReadAt
  split
  · by_cases h : i.toNat < arr.length
    · left
      rw [List.getD_eq_getElem _ _ h]
      exact List.getElem_mem h
    · right
      exact List.getD_eq_default _ _ (not_lt.mp h)
  · right; rfl

theorem ReadAt_mem {α : Type} [Zero α] (arr : List α) (i : Int) (h0 : 0 ≤ i)
    (h1 : i < (arr.length : Int)) : ReadAt arr i ∈ arr := by
  unfold ReadAt
  have h : i.toNat < arr.length := by omega
  rw [if_pos h0, List.getD_eq_getElem _ _ h]
  exact List.getElem_mem h

theorem foldl_forall {σ α : Type} (f : σ → α → σ) (P : σ → Prop) (h : ∀ s a, P s → P (f s a)) :
    ∀ (l : List α) (s : σ), P s → P (l.foldl f s) := by
  intro l
  induction l with
  | nil => intro s hs; exact hs
  | cons a l ih => intro s hs; exact ih _ (h s a hs)

theorem foldl_comm {σ α β : Type} (f : σ → α → σ) (g : σ → β → σ)
    (h : ∀ s a b, g (f s a) b = f (g s b) a) :
    ∀ (la : List α) (lb : List β) (s : σ), lb.foldl g (la.foldl f s) = la.foldl f (lb.foldl g s) := by
  intro la
  induction la with
  | nil => intro lb s; rfl
  | cons a la ih =>
    intro lb s
    have hone : ∀ (lb : List β) (s : σ), lb.foldl g (f s a) = f (lb.foldl g s) a := by
      intro lb
      induction lb with
      | nil => intro s; rfl
      | cons b lb ihb => intro s; simp only [List.foldl_cons]; rw [h, ihb]
    simp only [List.foldl_cons]
    rw [ih, hone]

theorem foldlM_option_inv {σ α : Type} (f : σ → α → Option σ) (P : σ → Prop)
    (h : ∀ s a, P s → ∃ t, f s a = some t ∧ P t) :
    ∀ (l : List α) (s : σ), P s → ∃ r, l.foldlM f s = some r ∧ P r := by
  intro l
  induction l with
  | nil => intro s hs; exact ⟨s, rfl, hs⟩
  | cons a l ih =>
    intro s hs
    obtain ⟨t, ht, hPt⟩ := h s a hs
    obtain ⟨r, hr, hPr⟩ := ih t hPt
    refine ⟨r, ?_, hPr⟩
    simp [List.foldlM_cons, ht, hr]

/-! ## Colour arithmetic -/

@[simp] theorem FLinearColor.add_R (a b : FLinearColor K) : (a + b).R = a.R + b.R := rfl
@[simp] theorem FLinearColor.add_G (a b : FLinearColor K) : (a + b).G = a.G + b.G := rfl
@[simp] theorem FLinearColor.add_B (a b : FLinearColor K) : (a + b).B = a.B + b.B := rfl
@[simp] theorem FLinearColor.add_A (a b : FLinearColor K) : (a + b).A = a.A + b.A := rfl
@[simp] theorem FLinearColor.sub_R (a b : FLinearColor K) : (a - b).R = a.R - b.R := rfl
@[simp] theorem FLinearColor.sub_G (a b : FLinearColor K) : (a - b).G = a.G - b.G := rfl
@[simp] theorem FLinearColor.sub_B (a b : FLinearColor K) : (a - b).B = a.B - b.B := rfl
@[simp] theorem FLinearColor.sub_A (a b : FLinearColor K) : (a - b).A = a.A - b.A := rfl
@[simp] theorem FLinearColor.zero_R : (0 : FLinearColor K).R = 0 := rfl
@[simp] theorem FLinearColor.zero_G : (0 : FLinearColor K).G = 0 := rfl
@[simp] theorem FLinearColor.zero_B : (0 : FLinearColor K).B = 0 := rfl
@[simp] theorem FLinearColor.zero_A : (0 : FLinearColor K).A = 0 := rfl
@[simp] theorem FLinearColor.Scale_R (a : FLinearColor K) (s : K) : (a.Scale s).R = a.R * s := rfl
@[simp] theorem FLinearColor.Scale_G (a : FLinearColor K) (s : K) : (a.Scale s).G = a.G * s := rfl
@[simp] theorem FLinearColor.Scale_B (a : FLinearColor K) (s : K) : (a.Scale s).B = a.B * s := rfl
@[simp] theorem FLinearColor.Scale_A (a : FLinearColor K) (s : K) : (a.Scale s).A = a.A * s := rfl

theorem FLinearColor.add_right_comm (x v w : FLinearColor K) : x + v + w = x + w + v := by
  ext <;> simp <;> ring

/-! ## Bilinear sampler -/

theorem FetchPixel_supported (InData : FImagePixelData K)
    (h : InData.PixelType ≠ EImagePixelType.Color) (Index : FIntPoint) :
    FetchPixel InData Index = some (ReadAt InData.RawData (Index.X + Index.Y * InData.Size.X)) := by
  unfold FetchPixel
  cases hT : InData.PixelType with
  | Color => exact absurd hT h
  | Float16 => rfl
  | Float32 => rfl

theorem GetColorBilinearFiltered_supported (InData : FImagePixelData K)
    (h : InData.PixelType ≠ EImagePixelType.Color) (Coords : FVector2D K) (c a : Bool) :
    ∃ r, GetColorBilinearFiltered InData Coords c a = some r := by
  unfold GetColorBilinearFiltered
  simp only [FetchPixel_supported InData h]
  exact ⟨_, rfl⟩

theorem ClampPixelCoords_not_clipped (p size : FIntPoint) (b : Bool)
    (h : (ClampPixelCoords p size b).2 = false) :
    b = false ∧ (ClampPixelCoords p size b).1 = p ∧ 0 ≤ p.X ∧ p.X ≤ size.X - 1 ∧ 0 ≤ p.Y ∧
      p.Y ≤ size.Y - 1 := by
  unfold ClampPixelCoords at h ⊢
  simp only at h ⊢
  split at h
  · exact absurd h (by simp)
  · rename_i hn
    simp only [not_or, not_lt] at hn
    obtain ⟨h1, h2, h3, h4⟩ := hn
    refine ⟨h, ?_, h3, h1, h4, h2⟩
    cases p with
    | mk x y =>
      simp only [Clamp] at *
      congr 1
      · omega
      · omega

theorem Lerp_same (c : FLinearColor K) (t : K) : Lerp c c t = c := by
  unfold Lerp
  ext <;> simp

theorem FetchPixel_uniform (InData : FImagePixelData K) (c : FLinearColor K)
    (h : InData.PixelType ≠ EImagePixelType.Color) (hu : UniformTile InData c) (p : FIntPoint)
    (hx0 : 0 ≤ p.X) (hx1 : p.X ≤ InData.Size.X - 1) (hy0 : 0 ≤ p.Y) (hy1 : p.Y ≤ InData.Size.Y - 1) :
    FetchPixel InData p = some c := by
  rw [FetchPixel_supported InData h]
  congr 1
  apply hu.2
  apply ReadAt_mem
  · nlinarith
  · rw [hu.1]; nlinarith

theorem GetColorBilinearFiltered_uniform (InData : FImagePixelData K) (c : FLinearColor K)
    (h : InData.PixelType ≠ EImagePixelType.Color) (hu : UniformTile InData c)
    (Coords : FVector2D K) (col : FLinearColor K)
    (hr : GetColorBilinearFiltered InData Coords false false = some (col, false)) :
    col = ⟨c.R, c.G, c.B, 1⟩ := by
  unfold GetColorBilinearFiltered at hr
  simp only [FetchPixel_supported InData h, Option.some.injEq, Prod.mk.injEq] at hr
  obtain ⟨hcol, hclip⟩ := hr
  obtain ⟨h3, e4, a4, b4, c4, d4⟩ := ClampPixelCoords_not_clipped _ _ _ hclip
  obtain ⟨h2, e3, a3, b3, c3, d3⟩ := ClampPixelCoords_not_clipped _ _ _ h3
  obtain ⟨h1, e2, a2, b2, c2, d2⟩ := ClampPixelCoords_not_clipped _ _ _ h2
  obtain ⟨_, e1, a1, b1, c1, d1⟩ := ClampPixelCoords_not_clipped _ _ _ h1
  have f1 := FetchPixel_uniform InData c h hu _ a1 b1 c1 d1
  have f2 := FetchPixel_uniform InData c h hu _ a2 b2 c2 d2
  have f3 := FetchPixel_uniform InData c h hu _ a3 b3 c3 d3
  have f4 := FetchPixel_uniform InData c h hu _ a4 b4 c4 d4
  rw [FetchPixel_supported InData h] at f1 f2 f3 f4
  simp only [Option.some.injEq] at f1 f2 f3 f4
  rw [← hcol]
  simp only [e1, e2, e3, e4, f1, f2, f3, f4, Lerp_same]
  simp

/-! ## Resampling and merging preserve pixel-wise properties -/

theorem BlendPixel_inv (E : FEngine K) (MapSize : FIntPoint) (InData : FImagePixelData K)
    (P : FLinearColor K → Prop) (hsup : InData.PixelType ≠ EImagePixelType.Color)
    (hadd : ∀ a b, P a → P b → P (a + b))
    (hcontrib : ∀ X Y col,
      GetColorBilinearFiltered InData (DirectionInSampleScreenSpace E MapSize InData.Payload.Pane X Y)
        false InData.Payload.Pane.bIncludeAlpha = some (col, false) →
      P (col.Scale (SampleWeightSquared E MapSize InData.Payload.Pane X Y)))
    (X Y : Int) (Target : FBlendBuffers K) (hT : ∀ p ∈ Target.Data, P p) :
    ∃ T, BlendPixel E MapSize InData X Y Target = some T ∧ ∀ p ∈ T.Data, P p := by
  unfold BlendPixel
  simp only
  split
  · obtain ⟨r, hr⟩ := GetColorBilinearFiltered_supported InData hsup
      (DirectionInSampleScreenSpace E MapSize InData.Payload.Pane X Y) false
      InData.Payload.Pane.bIncludeAlpha
    obtain ⟨col, clipped⟩ := r
    rw [hr]
    cases clipped with
    | true => exact ⟨Target, rfl, hT⟩
    | false =>
      refine ⟨_, rfl, ?_⟩
      apply AddAt_forall P _ _ _ _ hT
      intro x hx
      exact hadd _ _ hx (hcontrib X Y col hr)
  · exact ⟨Target, rfl, hT⟩

theorem BlendSample_inv (E : FEngine K) (MapSize : FIntPoint) (InData : FImagePixelData K)
    (P : FLinearColor K → Prop) (hsup : InData.PixelType ≠ EImagePixelType.Color)
    (hzero : P 0) (hadd : ∀ a b, P a → P b → P (a + b))
    (hcontrib : ∀ X Y col,
      GetColorBilinearFiltered InData (DirectionInSampleScreenSpace E MapSize InData.Payload.Pane X Y)
        false InData.Payload.Pane.bIncludeAlpha = some (col, false) →
      P (col.Scale (SampleWeightSquared E MapSize InData.Payload.Pane X Y))) :
    ∃ T, BlendSample E MapSize InData = some T ∧ ∀ p ∈ T.Data, P p := by
  unfold BlendSample
  apply foldlM_option_inv _ (fun T : FBlendBuffers K => ∀ p ∈ T.Data, P p)
  · intro T Y hT
    unfold BlendRow
    apply foldlM_option_inv _ (fun T : FBlendBuffers K => ∀ p ∈ T.Data, P p) _ _ _ hT
    intro T X hT
    exact BlendPixel_inv E MapSize InData P hsup hadd hcontrib X Y T hT
  · intro p hp
    simp only [NewBlendBuffers, SetNumZeroed] at hp
    rw [List.eq_of_mem_replicate hp]
    exact hzero

theorem BlendSample_supported (E : FEngine K) (MapSize : FIntPoint) (InData : FImagePixelData K)
    (hsup : InData.PixelType ≠ EImagePixelType.Color) :
    ∃ T, BlendSample E MapSize InData = some T := by
  obtain ⟨T, hT, _⟩ := BlendSample_inv E MapSize InData (fun _ => True) hsup trivial
    (fun _ _ _ _ => trivial) (fun _ _ _ _ => trivial)
  exact ⟨T, hT⟩

theorem MergeBuffers_forall (MapSize : FIntPoint) (Pane : FPanoPane K) (BoundsMin : FIntPoint)
    (Width Height : Int) (Source Shared : FBlendBuffers K) (P : FLinearColor K → Prop)
    (hzero : P 0) (hadd : ∀ a b, P a → P b → P (a + b))
    (hSource : ∀ p ∈ Source.Data, P p) (hShared : ∀ p ∈ Shared.Data, P p) :
    ∀ p ∈ (MergeBuffers MapSize Pane BoundsMin Width Height Source Shared).Data, P p := by
  unfold MergeBuffers
  apply foldl_forall _ (fun S : FBlendBuffers K => ∀ p ∈ S.Data, P p) _ _ _ hShared
  intro S SampleY hS
  unfold MergeRow
  apply foldl_forall _ (fun S : FBlendBuffers K => ∀ p ∈ S.Data, P p) _ _ _ hS
  intro S SampleX hS
  unfold MergePixel
  simp only
  apply AddAt_forall P _ _ _ _ hS
  intro x hx
  apply hadd _ _ hx
  rcases ReadAt_mem_or_zero Source.Data (SampleX + SampleY * Width) with h | h
  · exact hSource _ h
  · rw [h]; exact hzero

theorem MergeBuffers_length (MapSize : FIntPoint) (Pane : FPanoPane K) (BoundsMin : FIntPoint)
    (Width Height : Int) (Source Shared : FBlendBuffers K) :
    (MergeBuffers MapSize Pane BoundsMin Width Height Source Shared).Data.length =
      Shared.Data.length := by
  unfold MergeBuffers
  apply foldl_forall _ (fun S : FBlendBuffers K => S.Data.length = Shared.Data.length) _ _ _ rfl
  intro S SampleY hS
  unfold MergeRow
  apply foldl_forall _ (fun S : FBlendBuffers K => S.Data.length = Shared.Data.length) _ _ _ hS
  intro S SampleX hS
  unfold MergePixel
  simp only [AddAt_length]
  exact hS

theorem MergePixel_comm (MapSize : FIntPoint) (PaneA PaneB : FPanoPane K)
    (MinA MinB : FIntPoint) (WidthA WidthB : Int) (SourceA SourceB : FBlendBuffers K)
    (S : FBlendBuffers K) (XA YA XB YB : Int) :
    MergePixel MapSize PaneB MinB WidthB SourceB XB YB
        (MergePixel MapSize PaneA MinA WidthA SourceA XA YA S) =
      MergePixel MapSize PaneA MinA WidthA SourceA XA YA
        (MergePixel MapSize PaneB MinB WidthB SourceB XB YB S) := by
  unfold MergePixel
  simp only
  congr 1
  · exact AddAt_comm _ _ _ _ _ (fun x => FLinearColor.add_right_comm x _ _)
  · cases PaneA.bIncludeAlpha <;> cases PaneB.bIncludeAlpha <;> simp
    exact AddAt_comm _ _ _ _ _ (fun x => add_right_comm x _ _)

theorem MergeBuffers_comm (MapSize : FIntPoint) (PaneA PaneB : FPanoPane K)
    (MinA MinB : FIntPoint) (WidthA HeightA WidthB HeightB : Int)
    (SourceA SourceB : FBlendBuffers K) (S : FBlendBuffers K) :
    MergeBuffers MapSize PaneB MinB WidthB HeightB SourceB
        (MergeBuffers MapSize PaneA MinA WidthA HeightA SourceA S) =
      MergeBuffers MapSize PaneA MinA WidthA HeightA SourceA
        (MergeBuffers MapSize PaneB MinB WidthB HeightB SourceB S) := by
  unfold MergeBuffers
  apply foldl_comm
  intro s a b
  unfold MergeRow
  apply foldl_comm
  intro s xa xb
  exact MergePixel_comm MapSize PaneA PaneB MinA MinB WidthA WidthB SourceA SourceB s xa a xb b

/-! ## Sample bookkeeping -/

theorem foldl_add_init {α : Type} (g : α → Int) (l : List α) (a : Int) :
    l.foldl (fun n x => n + g x) a = a + l.foldl (fun n x => n + g x) 0 := by
  induction l generalizing a with
  | nil => simp
  | cons x l ih =>
    simp only [List.foldl_cons]
    rw [ih (a + g x), ih (0 + g x)]
    ring

theorem NumFinishedSamples_cons (KVP : Int × List FPanoramicBlendData)
    (Rest : List (Int × List FPanoramicBlendData)) :
    NumFinishedSamples (KVP :: Rest) = NumFinishedInEye KVP.2 + NumFinishedSamples Rest := by
  unfold NumFinishedSamples
  simp only [List.foldl_cons]
  rw [foldl_add_init]
  ring

theorem NumFinishedInEye_append_one (EyeArray : List FPanoramicBlendData)
    (Target : FPanoramicBlendData) :
    NumFinishedInEye (EyeArray ++ [Target]) =
      NumFinishedInEye EyeArray + (if Target.bFinished then 1 else 0) := by
  unfold NumFinishedInEye
  simp [List.foldl_append]

theorem modify_last_append_one {α : Type} (f : α → α) (l : List α) (a : α) :
    (l ++ [a]).modify f ((l ++ [a]).length - 1) = l ++ [f a] := by
  induction l with
  | nil => rfl
  | cons x l ih =>
    have e1 : (x :: l ++ [a]).length - 1 = l.length + 1 := by simp
    have e2 : (l ++ [a]).length - 1 = l.length := by simp
    rw [e1]
    rw [e2] at ih
    simp only [List.cons_append]
    rw [List.modify_succ_cons, ih]

theorem NumFinishedSamples_register_finish (BlendedData : List (Int × List FPanoramicBlendData))
    (EyeIndex : Int) (Target : FPanoramicBlendData) :
    NumFinishedSamples (MarkFinished (AddBlendData BlendedData EyeIndex Target) EyeIndex) =
      NumFinishedSamples BlendedData + 1 +
        (if Target.bFinished then 0 else 0) := by
  induction BlendedData with
  | nil =>
    simp [AddBlendData, MarkFinished, NumFinishedSamples, NumFinishedInEye, List.modify]
  | cons KVP Rest ih =>
    unfold AddBlendData
    by_cases h : KVP.1 = EyeIndex
    · simp only [h, if_true, MarkFinished]
      rw [modify_last_append_one, NumFinishedSamples_cons, NumFinishedSamples_cons,
        NumFinishedInEye_append_one]
      simp
      ring
    · simp only [h, if_false, MarkFinished]
      rw [NumFinishedSamples_cons, NumFinishedSamples_cons, ih]
      ring

theorem bIsLastSample_iff (E : FEngine K) (Blender : FPanoramicBlender K)
    (InData : FImagePixelData K) :
    bIsLastSample E Blender InData = true ↔
      NumFinishedSamples (ResolveOutputFrame Blender InData).BlendedData + 1 =
        (ResolveOutputFrame Blender InData).NumSamplesTotal := by
  unfold bIsLastSample FinishedBlendedData
  rw [NumFinishedSamples_register_finish]
  simp

theorem NumFinishedSamples_FinishedBlendedData (E : FEngine K) (Blender : FPanoramicBlender K)
    (InData : FImagePixelData K) :
    NumFinishedSamples (FinishedBlendedData E Blender InData) =
      NumFinishedSamples (ResolveOutputFrame Blender InData).BlendedData + 1 := by
  unfold FinishedBlendedData
  rw [NumFinishedSamples_register_finish]
  simp

/-! ## The pending map -/

theorem FindPendingFrame_eq_head (Pending : List (FMoviePipelineFrameOutputState × FPanoramicOutputFrame K))
    (n : Int) : FindPendingFrame Pending n = (PendingOfFrame Pending n).head? := by
  unfold FindPendingFrame PendingOfFrame
  induction Pending with
  | nil => rfl
  | cons KVP Rest ih =>
    by_cases h : KVP.1.OutputFrameNumber = n
    · simp only [List.find?_cons, List.filter_cons, h, decide_True, if_true, List.head?_cons]
    · simp only [List.find?_cons, List.filter_cons, h, decide_False, if_false]
      exact ih

theorem FindPendingFrame_none_iff (Pending : List (FMoviePipelineFrameOutputState × FPanoramicOutputFrame K))
    (n : Int) : FindPendingFrame Pending n = none ↔ PendingOfFrame Pending n = [] := by
  rw [FindPendingFrame_eq_head]
  cases PendingOfFrame Pending n <;> simp

theorem PendingOfFrame_Store_same (Pending : List (FMoviePipelineFrameOutputState × FPanoramicOutputFrame K))
    (n : Int) (Frame : FPanoramicOutputFrame K) :
    PendingOfFrame (StorePendingFrame Pending n Frame) n =
      match PendingOfFrame Pending n with
      | [] => []
      | KVP :: Rest => (KVP.1, Frame) :: Rest := by
  unfold PendingOfFrame
  induction Pending with
  | nil => rfl
  | cons KVP Rest ih =>
    by_cases h : KVP.1.OutputFrameNumber = n
    · simp only [StorePendingFrame, h, if_true, List.filter_cons, decide_True]
    · simp only [StorePendingFrame, h, if_false, List.filter_cons, decide_False]
      exact ih

theorem PendingOfFrame_Store_other (Pending : List (FMoviePipelineFrameOutputState × FPanoramicOutputFrame K))
    (n m : Int) (Frame : FPanoramicOutputFrame K) (hne : n ≠ m) :
    PendingOfFrame (StorePendingFrame Pending n Frame) m = PendingOfFrame Pending m := by
  unfold PendingOfFrame
  induction Pending with
  | nil => rfl
  | cons KVP Rest ih =>
    by_cases h : KVP.1.OutputFrameNumber = n
    · have h2 : ¬ KVP.1.OutputFrameNumber = m := by rw [h]; exact hne
      simp [StorePendingFrame, List.filter_cons, h, hne]
    · simp only [StorePendingFrame, h, if_false, List.filter_cons]
      rw [ih]

theorem PendingOfFrame_Remove (Pending : List (FMoviePipelineFrameOutputState × FPanoramicOutputFrame K))
    (Key : FMoviePipelineFrameOutputState) (m : Int) :
    PendingOfFrame (RemovePending Pending Key) m =
      (PendingOfFrame Pending m).filter (fun KVP => decide (KVP.1 ≠ Key)) := by
  unfold PendingOfFrame RemovePending
  simp only [List.filter_filter]
  congr 1
  funext KVP
  exact Bool.and_comm _ _

theorem PendingOfFrame_Remove_other (Pending : List (FMoviePipelineFrameOutputState × FPanoramicOutputFrame K))
    (Key : FMoviePipelineFrameOutputState) (m : Int) (hne : Key.OutputFrameNumber ≠ m) :
    PendingOfFrame (RemovePending Pending Key) m = PendingOfFrame Pending m := by
  rw [PendingOfFrame_Remove]
  apply List.filter_eq_self.mpr
  intro KVP hK
  unfold PendingOfFrame at hK
  simp only [List.mem_filter, decide_eq_true_eq] at hK
  simp only [ne_eq, decide_not, Bool.not_eq_true', decide_eq_false_iff_not]
  intro hk
  rw [hk] at hK
  exact hne hK.2

theorem PendingOfFrame_Resolve_same (Blender : FPanoramicBlender K) (InData : FImagePixelData K) :
    PendingOfFrame (ResolvePending Blender InData)
        InData.Payload.SampleState.OutputState.OutputFrameNumber =
      match PendingOfFrame Blender.PendingData
          InData.Payload.SampleState.OutputState.OutputFrameNumber with
      | [] => [(InData.Payload.SampleState.OutputState,
          NewOutputFrame Blender.OutputEquirectangularMapSize InData.Payload.Pane)]
      | KVP :: Rest => KVP :: Rest := by
  unfold ResolvePending
  cases hL : PendingOfFrame Blender.PendingData
      InData.Payload.SampleState.OutputState.OutputFrameNumber with
  | nil =>
    rw [(FindPendingFrame_none_iff _ _).mpr hL]
    simp only
    unfold PendingOfFrame at hL ⊢
    rw [List.filter_append, hL]
    simp
  | cons KVP Rest =>
    have : FindPendingFrame Blender.PendingData
        InData.Payload.SampleState.OutputState.OutputFrameNumber = some KVP := by
      rw [FindPendingFrame_eq_head, hL]; rfl
    rw [this]
    exact hL

theorem PendingOfFrame_Resolve_other (Blender : FPanoramicBlender K) (InData : FImagePixelData K)
    (m : Int) (hne : InData.Payload.SampleState.OutputState.OutputFrameNumber ≠ m) :
    PendingOfFrame (ResolvePending Blender InData) m = PendingOfFrame Blender.PendingData m := by
  unfold ResolvePending
  split
  · rfl
  · unfold PendingOfFrame
    rw [List.filter_append]
    simp [hne]

theorem ResolveOutputFrame_eq (Blender : FPanoramicBlender K) (InData : FImagePixelData K) :
    ResolveOutputFrame Blender InData =
      match PendingOfFrame Blender.PendingData
          InData.Payload.SampleState.OutputState.OutputFrameNumber with
      | [] => NewOutputFrame Blender.OutputEquirectangularMapSize InData.Payload.Pane
      | KVP :: _ => KVP.2 := by
  unfold ResolveOutputFrame
  rw [FindPendingFrame_eq_head]
  cases PendingOfFrame Blender.PendingData
      InData.Payload.SampleState.OutputState.OutputFrameNumber <;> rfl

/-! ## One call of the callback -/

theorem PanoramaCalls_DebugCalls (E : FEngine K) (Blender : FPanoramicBlender K)
    (InData : FImagePixelData K) (Target : FBlendBuffers K) :
    PanoramaCalls (DebugCalls E Blender InData Target) = [] := by
  unfold DebugCalls PanoramaCalls
  split <;> rfl

theorem PanoramaCallsOfFrame_DebugCalls (E : FEngine K) (Blender : FPanoramicBlender K)
    (InData : FImagePixelData K) (Target : FBlendBuffers K) (m : Int) :
    PanoramaCallsOfFrame (DebugCalls E Blender InData Target) m = [] := by
  unfold DebugCalls PanoramaCallsOfFrame
  split <;> rfl

theorem submit_total (E : FEngine K) (Blender : FPanoramicBlender K) (InData : FImagePixelData K)
    (hsup : InData.PixelType ≠ EImagePixelType.Color) :
    ∃ Next Calls, OnCompleteRenderPassDataAvailable_AnyThread E Blender InData = some (Next, Calls) := by
  obtain ⟨T, hT⟩ := BlendSample_supported E Blender.OutputEquirectangularMapSize InData hsup
  unfold OnCompleteRenderPassDataAvailable_AnyThread
  rw [hT]
  simp only
  split
  · exact ⟨_, _, rfl⟩
  · exact ⟨_, _, rfl⟩

theorem submit_cases (E : FEngine K) (Blender Next : FPanoramicBlender K)
    (InData : FImagePixelData K) (Calls : List (FMergerCall K))
    (h : OnCompleteRenderPassDataAvailable_AnyThread E Blender InData = some (Next, Calls)) :
    ∃ Target, BlendSample E Blender.OutputEquirectangularMapSize InData = some Target ∧
      Next.OutputEquirectangularMapSize = Blender.OutputEquirectangularMapSize ∧
      ((bIsLastSample E Blender InData = true ∧
          Next.PendingData = RemovePending
            (StorePendingFrame (ResolvePending Blender InData)
              InData.Payload.SampleState.OutputState.OutputFrameNumber
              (MovedOutputFrame E Blender InData Target)) InData.Payload.SampleState.OutputState ∧
          Calls = DebugCalls E Blender InData Target ++ [FinalPixelData E Blender InData Target]) ∨
        (bIsLastSample E Blender InData = false ∧
          Next.PendingData = StorePendingFrame (ResolvePending Blender InData)
              InData.Payload.SampleState.OutputState.OutputFrameNumber
              (UpdatedOutputFrame E Blender InData Target) ∧
          Calls = DebugCalls E Blender InData Target)) := by
  unfold OnCompleteRenderPassDataAvailable_AnyThread at h
  cases hT : BlendSample E Blender.OutputEquirectangularMapSize InData with
  | none => rw [hT] at h; exact absurd h (by simp)
  | some Target =>
    rw [hT] at h
    simp only at h
    refine ⟨Target, rfl, ?_⟩
    cases hl : bIsLastSample E Blender InData with
    | true =>
      rw [hl] at h
      simp only [if_true, Option.some.injEq, Prod.mk.injEq] at h
      obtain ⟨h1, h2⟩ := h
      subst h1
      exact ⟨rfl, Or.inl ⟨rfl, rfl, h2.symm⟩⟩
    | false =>
      rw [hl] at h
      simp only [Bool.false_eq_true, if_false, Option.some.injEq, Prod.mk.injEq] at h
      obtain ⟨h1, h2⟩ := h
      subst h1
      exact ⟨rfl, Or.inr ⟨rfl, rfl, h2.symm⟩⟩

theorem submit_other_frame (E : FEngine K) (Blender Next : FPanoramicBlender K)
    (InData : FImagePixelData K) (Calls : List (FMergerCall K)) (m : Int)
    (hne : InData.Payload.SampleState.OutputState.OutputFrameNumber ≠ m)
    (h : OnCompleteRenderPassDataAvailable_AnyThread E Blender InData = some (Next, Calls)) :
    PendingOfFrame Next.PendingData m = PendingOfFrame Blender.PendingData m ∧
      PanoramaCallsOfFrame Calls m = [] := by
  obtain ⟨T, _, _, hc⟩ := submit_cases E Blender Next InData Calls h
  rcases hc with ⟨_, hp, hcalls⟩ | ⟨_, hp, hcalls⟩
  · rw [hp, hcalls, PendingOfFrame_Remove_other _ _ _ hne, PendingOfFrame_Store_other _ _ _ _ hne,
      PendingOfFrame_Resolve_other _ _ _ hne]
    refine ⟨rfl, ?_⟩
    unfold PanoramaCallsOfFrame
    rw [List.filter_append]
    have := PanoramaCallsOfFrame_DebugCalls E Blender InData T m
    unfold PanoramaCallsOfFrame at this
    rw [this]
    simp [FinalPixelData, hne]
  · rw [hp, hcalls, PendingOfFrame_Store_other _ _ _ _ hne, PendingOfFrame_Resolve_other _ _ _ hne]
    exact ⟨rfl, PanoramaCallsOfFrame_DebugCalls E Blender InData T m⟩

theorem submit_same_frame (E : FEngine K) (Blender Next : FPanoramicBlender K)
    (InData : FImagePixelData K) (Calls : List (FMergerCall K)) (N k : Int)
    (hprog : FrameProgress Blender InData.Payload.SampleState.OutputState N k)
    (hN : k = 0 → TotalSampleCount InData.Payload.Pane = N)
    (h : OnCompleteRenderPassDataAvailable_AnyThread E Blender InData = some (Next, Calls)) :
    ∃ Target, BlendSample E Blender.OutputEquirectangularMapSize InData = some Target ∧
      ((k + 1 = N ∧
          PendingOfFrame Next.PendingData InData.Payload.SampleState.OutputState.OutputFrameNumber = [] ∧
          Calls = DebugCalls E Blender InData Target ++ [FinalPixelData E Blender InData Target]) ∨
        (k + 1 ≠ N ∧ FrameProgress Next InData.Payload.SampleState.OutputState N (k + 1) ∧
          PendingOfFrame Next.PendingData InData.Payload.SampleState.OutputState.OutputFrameNumber =
            [(InData.Payload.SampleState.OutputState, UpdatedOutputFrame E Blender InData Target)] ∧
          Calls = DebugCalls E Blender InData Target)) := by
  obtain ⟨T, hT, _, hc⟩ := submit_cases E Blender Next InData Calls h
  refine ⟨T, hT, ?_⟩
  have hF0 : NumFinishedSamples (ResolveOutputFrame Blender InData).BlendedData = k ∧
      (ResolveOutputFrame Blender InData).NumSamplesTotal = N ∧
      ∃ Frame, PendingOfFrame (ResolvePending Blender InData)
        InData.Payload.SampleState.OutputState.OutputFrameNumber =
          [(InData.Payload.SampleState.OutputState, Frame)] := by
    rw [ResolveOutputFrame_eq, PendingOfFrame_Resolve_same]
    rcases hprog with ⟨hk, hL⟩ | ⟨hk, F, hL, hFN, hFk⟩
    · rw [hL]
      exact ⟨by rw [hk]; rfl, hN hk, _, rfl⟩
    · rw [hL]
      exact ⟨hFk, hFN, _, rfl⟩
  obtain ⟨hk0, hN0, F1, hL1⟩ := hF0
  have hk_nonneg : 0 ≤ k := by
    rcases hprog with ⟨hk, _⟩ | ⟨hk, _⟩ <;> omega
  rcases hc with ⟨hl, hp, hcalls⟩ | ⟨hl, hp, hcalls⟩
  · left
    rw [bIsLastSample_iff, hk0, hN0] at hl
    refine ⟨hl, ?_, hcalls⟩
    rw [hp, PendingOfFrame_Remove, PendingOfFrame_Store_same, hL1]
    simp
  · right
    have hl2 : ¬ (k + 1 = N) := by
      intro hh
      have := (bIsLastSample_iff E Blender InData).mpr (by rw [hk0, hN0]; exact hh)
      rw [hl] at this
      exact absurd this (by simp)
    have hpend : PendingOfFrame Next.PendingData
        InData.Payload.SampleState.OutputState.OutputFrameNumber =
        [(InData.Payload.SampleState.OutputState, UpdatedOutputFrame E Blender InData T)] := by
      rw [hp, PendingOfFrame_Store_same, hL1]
    refine ⟨hl2, ?_, hpend, hcalls⟩
    right
    refine ⟨by omega, _, hpend, hN0, ?_⟩
    show NumFinishedSamples (FinishedBlendedData E Blender InData) = k + 1
    rw [NumFinishedSamples_FinishedBlendedData, hk0]

/-! ## Sequences of calls -/

theorem CountOfFrame_nonneg (Samples : List (FImagePixelData K)) (n : Int) :
    0 ≤ CountOfFrame Samples n := by
  unfold CountOfFrame
  exact Int.natCast_nonneg _

theorem CountOfFrame_cons_same (InData : FImagePixelData K) (Samples : List (FImagePixelData K))
    (n : Int) (h : InData.Payload.SampleState.OutputState.OutputFrameNumber = n) :
    CountOfFrame (InData :: Samples) n = CountOfFrame Samples n + 1 := by
  unfold CountOfFrame
  simp [List.filter_cons, h]

theorem CountOfFrame_cons_other (InData : FImagePixelData K) (Samples : List (FImagePixelData K))
    (n : Int) (h : InData.Payload.SampleState.OutputState.OutputFrameNumber ≠ n) :
    CountOfFrame (InData :: Samples) n = CountOfFrame Samples n := by
  unfold CountOfFrame
  simp [List.filter_cons, h]

theorem FirstOfFrame_cons_same (InData : FImagePixelData K) (Samples : List (FImagePixelData K))
    (n : Int) (h : InData.Payload.SampleState.OutputState.OutputFrameNumber = n) :
    FirstOfFrame (InData :: Samples) n = some InData := by
  unfold FirstOfFrame
  simp [List.find?_cons, h]

theorem FirstOfFrame_cons_other (InData : FImagePixelData K) (Samples : List (FImagePixelData K))
    (n : Int) (h : InData.Payload.SampleState.OutputState.OutputFrameNumber ≠ n) :
    FirstOfFrame (InData :: Samples) n = FirstOfFrame Samples n := by
  unfold FirstOfFrame
  simp [List.find?_cons, h]

theorem PanoramaCallsOfFrame_append (a b : List (FMergerCall K)) (n : Int) :
    PanoramaCallsOfFrame (a ++ b) n = PanoramaCallsOfFrame a n ++ PanoramaCallsOfFrame b n := by
  unfold PanoramaCallsOfFrame
  exact List.filter_append _ _

theorem DeliverSamples_cons (E : FEngine K) (Blender Next Last : FPanoramicBlender K)
    (InData : FImagePixelData K) (Rest : List (FImagePixelData K))
    (Calls MoreCalls : List (FMergerCall K))
    (h1 : OnCompleteRenderPassDataAvailable_AnyThread E Blender InData = some (Next, Calls))
    (h2 : DeliverSamples E Next Rest = some (Last, MoreCalls)) :
    DeliverSamples E Blender (InData :: Rest) = some (Last, Calls ++ MoreCalls) := by
  simp only [DeliverSamples, h1, h2]

theorem run_before_completion (E : FEngine K) (Key : FMoviePipelineFrameOutputState) (N : Int) :
    ∀ (Samples : List (FImagePixelData K)) (Blender : FPanoramicBlender K) (k : Int),
      (∀ InData ∈ Samples, InData.PixelType ≠ EImagePixelType.Color) →
      (∀ InData ∈ Samples,
        InData.Payload.SampleState.OutputState.OutputFrameNumber = Key.OutputFrameNumber →
        InData.Payload.SampleState.OutputState = Key) →
      FrameProgress Blender Key N k →
      (k = 0 → ∀ First, FirstOfFrame Samples Key.OutputFrameNumber = some First →
        TotalSampleCount First.Payload.Pane = N) →
      k + CountOfFrame Samples Key.OutputFrameNumber < N →
      ∃ Next Calls, DeliverSamples E Blender Samples = some (Next, Calls) ∧
        FrameProgress Next Key N (k + CountOfFrame Samples Key.OutputFrameNumber) ∧
        PanoramaCallsOfFrame Calls Key.OutputFrameNumber = [] := by
  intro Samples
  induction Samples with
  | nil =>
    intro Blender k _ _ hprog _ _
    refine ⟨Blender, [], rfl, ?_, rfl⟩
    simpa [CountOfFrame] using hprog
  | cons InData Rest ih =>
    intro Blender k hsup hkey hprog hN hcount
    obtain ⟨B1, C1, h1⟩ := submit_total E Blender InData (hsup InData (List.mem_cons_self _ _))
    have hsupR : ∀ x ∈ Rest, x.PixelType ≠ EImagePixelType.Color :=
      fun x hx => hsup x (List.mem_cons_of_mem _ hx)
    have hkeyR : ∀ x ∈ Rest,
        x.Payload.SampleState.OutputState.OutputFrameNumber = Key.OutputFrameNumber →
        x.Payload.SampleState.OutputState = Key :=
      fun x hx => hkey x (List.mem_cons_of_mem _ hx)
    by_cases hn : InData.Payload.SampleState.OutputState.OutputFrameNumber = Key.OutputFrameNumber
    · have hk : InData.Payload.SampleState.OutputState = Key := hkey InData (List.mem_cons_self _ _) hn
      rw [CountOfFrame_cons_same _ _ _ hn] at hcount ⊢
      have hR := CountOfFrame_nonneg Rest Key.OutputFrameNumber
      have hprog' : FrameProgress Blender InData.Payload.SampleState.OutputState N k := by
        rw [hk]; exact hprog
      have hN' : k = 0 → TotalSampleCount InData.Payload.Pane = N :=
        fun h0 => hN h0 InData (FirstOfFrame_cons_same _ _ _ hn)
      obtain ⟨T, _, hc⟩ := submit_same_frame E Blender B1 InData C1 N k hprog' hN' h1
      rcases hc with ⟨hlast, _, _⟩ | ⟨_, hprog1, _, hcalls⟩
      · omega
      · rw [hk] at hprog1
        obtain ⟨B2, C2, h2, hprog2, hcalls2⟩ := ih B1 (k + 1) hsupR hkeyR hprog1
          (fun h0 => by
            rcases hprog with ⟨hk0, _⟩ | ⟨hk0, _⟩ <;> omega)
          (by omega)
        refine ⟨B2, C1 ++ C2, DeliverSamples_cons E _ _ _ _ _ _ _ h1 h2, ?_, ?_⟩
        · have : k + (CountOfFrame Rest Key.OutputFrameNumber + 1) =
              k + 1 + CountOfFrame Rest Key.OutputFrameNumber := by ring
          rw [this]; exact hprog2
        · rw [PanoramaCallsOfFrame_append, hcalls2, hcalls, PanoramaCallsOfFrame_DebugCalls]
          rfl
    · rw [CountOfFrame_cons_other _ _ _ hn] at hcount ⊢
      obtain ⟨hp, hcalls⟩ := submit_other_frame E Blender B1 InData C1 Key.OutputFrameNumber hn h1
      have hprog1 : FrameProgress B1 Key N k := by
        unfold FrameProgress at hprog ⊢
        rw [hp]; exact hprog
      obtain ⟨B2, C2, h2, hprog2, hcalls2⟩ := ih B1 k hsupR hkeyR hprog1
        (fun h0 First hF => hN h0 First (by rw [FirstOfFrame_cons_other _ _ _ hn]; exact hF))
        hcount
      refine ⟨B2, C1 ++ C2, DeliverSamples_cons E _ _ _ _ _ _ _ h1 h2, hprog2, ?_⟩
      rw [PanoramaCallsOfFrame_append, hcalls2, hcalls]
      rfl

/-- C1: when the frame of identifier `Key` is not pending and the samples `Earlier` followed by
`Next` are delivered one after another (samples of other frames may be interleaved), `Next`
being the `m`-th sample of the frame with `m ≤ N`, where `N` is the product
`H × V × eyeMultiplier` of the frame's first pane: no panorama of the frame is emitted during
`Earlier`, the call for `Next` emits no panorama when `m < N`, and it emits exactly one, carrying
the payload of `Next`, when `m = N`. -/
theorem panorama_emitted_by_last_sample_only (E : FEngine K) (Blender : FPanoramicBlender K)
    (Key : FMoviePipelineFrameOutputState) (Earlier : List (FImagePixelData K))
    (Next First : FImagePixelData K)
    (hAbsent : FindPendingFrame Blender.PendingData Key.OutputFrameNumber = none)
    (hSupported : ∀ InData ∈ Earlier ++ [Next], InData.PixelType ≠ EImagePixelType.Color)
    (hKey : ∀ InData ∈ Earlier,
      InData.Payload.SampleState.OutputState.OutputFrameNumber = Key.OutputFrameNumber →
      InData.Payload.SampleState.OutputState = Key)
    (hNext : Next.Payload.SampleState.OutputState = Key)
    (hFirst : FirstOfFrame (Earlier ++ [Next]) Key.OutputFrameNumber = some First)
    (hCount : CountOfFrame Earlier Key.OutputFrameNumber + 1 ≤ TotalSampleCount First.Payload.Pane) :
    ∃ Before CallsBefore After Calls,
      DeliverSamples E Blender Earlier = some (Before, CallsBefore) ∧
      OnCompleteRenderPassDataAvailable_AnyThread E Before Next = some (After, Calls) ∧
      PanoramaCallsOfFrame CallsBefore Key.OutputFrameNumber = [] ∧
      (CountOfFrame Earlier Key.OutputFrameNumber + 1 < TotalSampleCount First.Payload.Pane →
        PanoramaCalls Calls = []) ∧
      (CountOfFrame Earlier Key.OutputFrameNumber + 1 = TotalSampleCount First.Payload.Pane →
        ∃ Size Data, PanoramaCalls Calls =
          [FMergerCall.OnCompleteRenderPassDataAvailable Size Data Next.Payload]) := by
  have hprog0 : FrameProgress Blender Key (TotalSampleCount First.Payload.Pane) 0 :=
    Or.inl ⟨rfl, (FindPendingFrame_none_iff _ _).mp hAbsent⟩
  have hFirstE : ∀ F, FirstOfFrame Earlier Key.OutputFrameNumber = some F → F = First := by
    intro F hF
    unfold FirstOfFrame at hF hFirst
    rw [List.find?_append, hF] at hFirst
    simpa using hFirst
  obtain ⟨B1, C1, h1, hprog1, hcalls1⟩ := run_before_completion E Key
    (TotalSampleCount First.Payload.Pane) Earlier Blender 0
    (fun x hx => hSupported x (List.mem_append_left _ hx)) hKey hprog0
    (fun _ F hF => by rw [hFirstE F hF]) (by omega)
  obtain ⟨B2, C2, h2⟩ := submit_total E B1 Next (hSupported Next (by simp))
  refine ⟨B1, C1, B2, C2, h1, h2, hcalls1, ?_⟩
  rw [zero_add] at hprog1
  have hprog1' : FrameProgress B1 Next.Payload.SampleState.OutputState
      (TotalSampleCount First.Payload.Pane) (CountOfFrame Earlier Key.OutputFrameNumber) := by
    rw [hNext]; exact hprog1
  have hN : CountOfFrame Earlier Key.OutputFrameNumber = 0 →
      TotalSampleCount Next.Payload.Pane = TotalSampleCount First.Payload.Pane := by
    intro h0
    have hnone : FirstOfFrame Earlier Key.OutputFrameNumber = none := by
      unfold CountOfFrame at h0
      unfold FirstOfFrame
      have h0' := List.length_eq_zero.mp (Int.natCast_eq_zero.mp h0)
      rw [List.find?_eq_none]
      intro x hx hp
      have : x ∈ ([] : List (FImagePixelData K)) := by
        rw [← h0']; exact List.mem_filter.mpr ⟨hx, hp⟩
      exact absurd this (List.not_mem_nil _)
    unfold FirstOfFrame at hnone hFirst
    rw [List.find?_append, hnone] at hFirst
    simp only [Option.or, List.find?_cons, hNext, decide_True] at hFirst
    rw [Option.some.injEq] at hFirst
    rw [hFirst]
  obtain ⟨T, _, hc⟩ := submit_same_frame E B1 B2 Next C2 _ _ hprog1' hN h2
  rcases hc with ⟨hlast, _, hcalls⟩ | ⟨hnot, _, _, hcalls⟩
  · refine ⟨fun hlt => by omega, fun _ =>
      ⟨OutputSize B1.OutputEquirectangularMapSize Next.Payload.Pane,
        NormalizeMap Next.Payload.Pane.bIncludeAlpha (SharedAfterMerge E B1 Next T).Data
          (SharedAfterMerge E B1 Next T).AlphaArray, ?_⟩⟩
    rw [hcalls]
    unfold PanoramaCalls
    rw [List.filter_append]
    have := PanoramaCalls_DebugCalls E B1 Next T
    unfold PanoramaCalls at this
    rw [this]
    rfl
  · refine ⟨fun _ => ?_, fun heq => absurd heq hnot⟩
    rw [hcalls]
    exact PanoramaCalls_DebugCalls E B1 Next T

theorem StereoSample_supported (i : Nat) : (StereoSample i).PixelType ≠ EImagePixelType.Color := by
  simp [StereoSample, ExampleSample]

theorem StereoSample_key (i : Nat) : (StereoSample i).Payload.SampleState.OutputState = ⟨7, 0⟩ := rfl

theorem panorama_emitted_by_last_sample_only_witness :
    ∃ Before CallsBefore After Calls,
      DeliverSamples RationalEngine (NewBlender ⟨8, 4⟩) ((List.range 35).map StereoSample) =
        some (Before, CallsBefore) ∧
      OnCompleteRenderPassDataAvailable_AnyThread RationalEngine Before (StereoSample 35) =
        some (After, Calls) ∧
      PanoramaCallsOfFrame CallsBefore 7 = [] ∧
      ∃ Size Data, PanoramaCalls Calls =
        [FMergerCall.OnCompleteRenderPassDataAvailable Size Data (StereoSample 35).Payload] := by
  obtain ⟨B, CB, A, C, h1, h2, h3, _, h5⟩ :=
    panorama_emitted_by_last_sample_only RationalEngine (NewBlender ⟨8, 4⟩) ⟨7, 0⟩
      ((List.range 35).map StereoSample) (StereoSample 35) (StereoSample 0) rfl
      (by
        intro x hx
        simp only [List.mem_append, List.mem_map, List.mem_singleton] at hx
        rcases hx with ⟨i, _, rfl⟩ | rfl <;> exact StereoSample_supported _)
      (by
        intro x hx _
        simp only [List.mem_map] at hx
        obtain ⟨i, _, rfl⟩ := hx
        rfl)
      rfl rfl (by decide)
  exact ⟨B, CB, A, C, h1, h2, h3, h5 (by decide)⟩

theorem PanoramaCallsOfFrame_FinalPixelData (E : FEngine K) (Blender : FPanoramicBlender K)
    (InData : FImagePixelData K) (Target : FBlendBuffers K) :
    PanoramaCallsOfFrame (DebugCalls E Blender InData Target ++ [FinalPixelData E Blender InData Target])
      InData.Payload.SampleState.OutputState.OutputFrameNumber ≠ [] := by
  rw [PanoramaCallsOfFrame_append, PanoramaCallsOfFrame_DebugCalls]
  simp [PanoramaCallsOfFrame, FinalPixelData]

theorem submit_keeps_total (E : FEngine K) (Blender Next : FPanoramicBlender K)
    (InData : FImagePixelData K) (Calls : List (FMergerCall K))
    (Key : FMoviePipelineFrameOutputState) (Frame : FPanoramicOutputFrame K)
    (hL : PendingOfFrame Blender.PendingData Key.OutputFrameNumber = [(Key, Frame)])
    (h : OnCompleteRenderPassDataAvailable_AnyThread E Blender InData = some (Next, Calls)) :
    PanoramaCallsOfFrame Calls Key.OutputFrameNumber ≠ [] ∨
      ∃ Frame', PendingOfFrame Next.PendingData Key.OutputFrameNumber = [(Key, Frame')] ∧
        Frame'.NumSamplesTotal = Frame.NumSamplesTotal := by
  by_cases hn : InData.Payload.SampleState.OutputState.OutputFrameNumber = Key.OutputFrameNumber
  · obtain ⟨T, _, _, hc⟩ := submit_cases E Blender Next InData Calls h
    rcases hc with ⟨_, _, hcalls⟩ | ⟨_, hp, _⟩
    · left
      rw [hcalls, ← hn]
      exact PanoramaCallsOfFrame_FinalPixelData E Blender InData T
    · right
      refine ⟨UpdatedOutputFrame E Blender InData T, ?_, ?_⟩
      · rw [hp, hn, PendingOfFrame_Store_same, ← hn, PendingOfFrame_Resolve_same, hn, hL]
      · show (ResolveOutputFrame Blender InData).NumSamplesTotal = Frame.NumSamplesTotal
        rw [ResolveOutputFrame_eq, hn, hL]
  · right
    obtain ⟨hp, _⟩ := submit_other_frame E Blender Next InData Calls Key.OutputFrameNumber hn h
    exact ⟨Frame, by rw [hp, hL], rfl⟩

theorem submit_creates_total (E : FEngine K) (Blender Next : FPanoramicBlender K)
    (InData : FImagePixelData K) (Calls : List (FMergerCall K))
    (hL : PendingOfFrame Blender.PendingData
      InData.Payload.SampleState.OutputState.OutputFrameNumber = [])
    (h : OnCompleteRenderPassDataAvailable_AnyThread E Blender InData = some (Next, Calls)) :
    PanoramaCallsOfFrame Calls InData.Payload.SampleState.OutputState.OutputFrameNumber ≠ [] ∨
      ∃ Frame', PendingOfFrame Next.PendingData
          InData.Payload.SampleState.OutputState.OutputFrameNumber =
          [(InData.Payload.SampleState.OutputState, Frame')] ∧
        Frame'.NumSamplesTotal = TotalSampleCount InData.Payload.Pane := by
  obtain ⟨T, _, _, hc⟩ := submit_cases E Blender Next InData Calls h
  rcases hc with ⟨_, _, hcalls⟩ | ⟨_, hp, _⟩
  · left
    rw [hcalls]
    exact PanoramaCallsOfFrame_FinalPixelData E Blender InData T
  · right
    refine ⟨UpdatedOutputFrame E Blender InData T, ?_, ?_⟩
    · rw [hp, PendingOfFrame_Store_same, PendingOfFrame_Resolve_same, hL]
    · show (ResolveOutputFrame Blender InData).NumSamplesTotal = _
      rw [ResolveOutputFrame_eq, hL]
      rfl

theorem DeliverSamples_total (E : FEngine K) :
    ∀ (Samples : List (FImagePixelData K)) (Blender : FPanoramicBlender K),
      (∀ InData ∈ Samples, InData.PixelType ≠ EImagePixelType.Color) →
      ∃ After Calls, DeliverSamples E Blender Samples = some (After, Calls) := by
  intro Samples
  induction Samples with
  | nil => intro B _; exact ⟨B, [], rfl⟩
  | cons y l ihl =>
    intro B hs
    obtain ⟨Ba, Ca, ha⟩ := submit_total E B y (hs y (List.mem_cons_self _ _))
    obtain ⟨Bb, Cb, hb⟩ := ihl Ba (fun x hx => hs x (List.mem_cons_of_mem _ hx))
    exact ⟨Bb, Ca ++ Cb, DeliverSamples_cons E _ _ _ _ _ _ _ ha hb⟩

theorem run_keeps_total (E : FEngine K) (Key : FMoviePipelineFrameOutputState) :
    ∀ (Samples : List (FImagePixelData K)) (Blender : FPanoramicBlender K)
      (Frame : FPanoramicOutputFrame K),
      (∀ InData ∈ Samples, InData.PixelType ≠ EImagePixelType.Color) →
      PendingOfFrame Blender.PendingData Key.OutputFrameNumber = [(Key, Frame)] →
      ∃ After Calls, DeliverSamples E Blender Samples = some (After, Calls) ∧
        (PanoramaCallsOfFrame Calls Key.OutputFrameNumber = [] →
          ∃ Frame', PendingOfFrame After.PendingData Key.OutputFrameNumber = [(Key, Frame')] ∧
            Frame'.NumSamplesTotal = Frame.NumSamplesTotal) := by
  intro Samples
  induction Samples with
  | nil =>
    intro Blender Frame _ hL
    exact ⟨Blender, [], rfl, fun _ => ⟨Frame, hL, rfl⟩⟩
  | cons InData Rest ih =>
    intro Blender Frame hsup hL
    obtain ⟨B1, C1, h1⟩ := submit_total E Blender InData (hsup InData (List.mem_cons_self _ _))
    have hsupR : ∀ x ∈ Rest, x.PixelType ≠ EImagePixelType.Color :=
      fun x hx => hsup x (List.mem_cons_of_mem _ hx)
    rcases submit_keeps_total E Blender B1 InData C1 Key Frame hL h1 with hcall | ⟨F1, hL1, hT1⟩
    · obtain ⟨B2, C2, h2⟩ := DeliverSamples_total E Rest B1 hsupR
      refine ⟨B2, C1 ++ C2, DeliverSamples_cons E _ _ _ _ _ _ _ h1 h2, fun hnil => ?_⟩
      rw [PanoramaCallsOfFrame_append] at hnil
      exact absurd (List.append_eq_nil.mp hnil).1 hcall
    · obtain ⟨B2, C2, h2, hkeep⟩ := ih B1 F1 hsupR hL1
      refine ⟨B2, C1 ++ C2, DeliverSamples_cons E _ _ _ _ _ _ _ h1 h2, fun hnil => ?_⟩
      rw [PanoramaCallsOfFrame_append] at hnil
      obtain ⟨F2, hL2, hT2⟩ := hkeep (List.append_eq_nil.mp hnil).2
      exact ⟨F2, hL2, by rw [hT2, hT1]⟩

/-- C2: a frame state is created by the first sample `First` delivered for a frame identifier
that is not pending; after any further samples `Later` (of any frame, with any panes), as long as
no panorama of the frame was emitted, the frame is pending under the identifier of `First` and
its `NumSamplesTotal` equals `NumHorizontalSteps × NumVerticalSteps × eyeMultiplier` of the pane
of `First`, the multiplier being 1 for eye index −1 and 2 otherwise. -/
theorem expected_sample_count_fixed_by_first_pane (E : FEngine K) (Blender : FPanoramicBlender K)
    (First : FImagePixelData K) (Later : List (FImagePixelData K))
    (hAbsent : FindPendingFrame Blender.PendingData
      First.Payload.SampleState.OutputState.OutputFrameNumber = none)
    (hSupported : ∀ InData ∈ First :: Later, InData.PixelType ≠ EImagePixelType.Color) :
    ∃ After Calls, DeliverSamples E Blender (First :: Later) = some (After, Calls) ∧
      (PanoramaCallsOfFrame Calls First.Payload.SampleState.OutputState.OutputFrameNumber = [] →
        ∃ Frame, FindPendingFrame After.PendingData
            First.Payload.SampleState.OutputState.OutputFrameNumber =
            some (First.Payload.SampleState.OutputState, Frame) ∧
          Frame.NumSamplesTotal =
            First.Payload.Pane.NumHorizontalSteps * First.Payload.Pane.NumVerticalSteps *
              (if First.Payload.Pane.EyeIndex = -1 then 1 else 2)) := by
  obtain ⟨B1, C1, h1⟩ := submit_total E Blender First (hSupported First (List.mem_cons_self _ _))
  have hsupR : ∀ x ∈ Later, x.PixelType ≠ EImagePixelType.Color :=
    fun x hx => hSupported x (List.mem_cons_of_mem _ hx)
  rcases submit_creates_total E Blender B1 First C1 ((FindPendingFrame_none_iff _ _).mp hAbsent) h1
    with hcall | ⟨F1, hL1, hT1⟩
  · obtain ⟨B2, C2, h2⟩ := DeliverSamples_total E Later B1 hsupR
    refine ⟨B2, C1 ++ C2, DeliverSamples_cons E _ _ _ _ _ _ _ h1 h2, fun hnil => ?_⟩
    rw [PanoramaCallsOfFrame_append] at hnil
    exact absurd (List.append_eq_nil.mp hnil).1 hcall
  · obtain ⟨B2, C2, h2, hkeep⟩ := run_keeps_total E First.Payload.SampleState.OutputState Later B1 F1
      hsupR hL1
    refine ⟨B2, C1 ++ C2, DeliverSamples_cons E _ _ _ _ _ _ _ h1 h2, fun hnil => ?_⟩
    rw [PanoramaCallsOfFrame_append] at hnil
    obtain ⟨F2, hL2, hT2⟩ := hkeep (List.append_eq_nil.mp hnil).2
    refine ⟨F2, ?_, ?_⟩
    · rw [FindPendingFrame_eq_head, hL2]; rfl
    · rw [hT2, hT1]; rfl

theorem expected_sample_count_fixed_by_first_pane_witness :
    ∃ After Calls,
      DeliverSamples RationalEngine (NewBlender ⟨8, 4⟩)
        [StereoSample 0, OtherGridSample, StereoSample 1] = some (After, Calls) ∧
      (PanoramaCallsOfFrame Calls 7 = [] →
        ∃ Frame, FindPendingFrame After.PendingData 7 = some (⟨7, 0⟩, Frame) ∧
          Frame.NumSamplesTotal = 36) :=
  expected_sample_count_fixed_by_first_pane RationalEngine (NewBlender ⟨8, 4⟩) (StereoSample 0)
    [OtherGridSample, StereoSample 1] rfl (by
      intro x hx
      simp only [List.mem_cons, List.mem_singleton, List.not_mem_nil, or_false] at hx
      rcases hx with rfl | rfl | rfl <;> simp [StereoSample, OtherGridSample, ExampleSample])

/-! ## Invariants of the pending frames -/

theorem mem_StorePendingFrame (Pending : List (FMoviePipelineFrameOutputState × FPanoramicOutputFrame K))
    (n : Int) (Frame : FPanoramicOutputFrame K)
    (KVP : FMoviePipelineFrameOutputState × FPanoramicOutputFrame K)
    (h : KVP ∈ StorePendingFrame Pending n Frame) :
    KVP ∈ Pending ∨ (KVP.1.OutputFrameNumber = n ∧ KVP.2 = Frame) := by
  induction Pending with
  | nil => simp [StorePendingFrame] at h
  | cons Head Rest ih =>
    unfold StorePendingFrame at h
    by_cases hn : Head.1.OutputFrameNumber = n
    · simp only [hn, if_true, List.mem_cons] at h
      rcases h with h | h
      · right; rw [h]; exact ⟨hn, rfl⟩
      · left; exact List.mem_cons_of_mem _ h
    · simp only [hn, if_false, List.mem_cons] at h
      rcases h with h | h
      · left; rw [h]; exact List.mem_cons_self _ _
      · rcases ih h with h' | h'
        · left; exact List.mem_cons_of_mem _ h'
        · right; exact h'

theorem mem_ResolvePending (Blender : FPanoramicBlender K) (InData : FImagePixelData K)
    (KVP : FMoviePipelineFrameOutputState × FPanoramicOutputFrame K)
    (h : KVP ∈ ResolvePending Blender InData) :
    KVP ∈ Blender.PendingData ∨ KVP = (InData.Payload.SampleState.OutputState,
      NewOutputFrame Blender.OutputEquirectangularMapSize InData.Payload.Pane) := by
  unfold ResolvePending at h
  split at h
  · left; exact h
  · simpa using h

theorem ResolveOutputFrame_forall (Blender : FPanoramicBlender K) (InData : FImagePixelData K)
    (Q : Int → FPanoramicOutputFrame K → Prop)
    (hold : ∀ KVP ∈ Blender.PendingData, Q KVP.1.OutputFrameNumber KVP.2)
    (hnew : Q InData.Payload.SampleState.OutputState.OutputFrameNumber
      (NewOutputFrame Blender.OutputEquirectangularMapSize InData.Payload.Pane)) :
    Q InData.Payload.SampleState.OutputState.OutputFrameNumber (ResolveOutputFrame Blender InData) := by
  unfold ResolveOutputFrame FindPendingFrame
  cases hf : List.find? (fun KVP => decide (KVP.1.OutputFrameNumber =
      InData.Payload.SampleState.OutputState.OutputFrameNumber)) Blender.PendingData with
  | none => exact hnew
  | some KVP =>
    have hm := List.mem_of_find?_eq_some hf
    have hp := List.find?_some hf
    simp only [decide_eq_true_eq] at hp
    rw [← hp]
    exact hold KVP hm

theorem submit_pending_forall (E : FEngine K) (Blender Next : FPanoramicBlender K)
    (InData : FImagePixelData K) (Calls : List (FMergerCall K))
    (Q : Int → FPanoramicOutputFrame K → Prop)
    (hold : ∀ KVP ∈ Blender.PendingData, Q KVP.1.OutputFrameNumber KVP.2)
    (hnew : Q InData.Payload.SampleState.OutputState.OutputFrameNumber
      (NewOutputFrame Blender.OutputEquirectangularMapSize InData.Payload.Pane))
    (hupd : ∀ Target, BlendSample E Blender.OutputEquirectangularMapSize InData = some Target →
      bIsLastSample E Blender InData = false →
      Q InData.Payload.SampleState.OutputState.OutputFrameNumber
        (UpdatedOutputFrame E Blender InData Target))
    (hmov : ∀ Target, BlendSample E Blender.OutputEquirectangularMapSize InData = some Target →
      bIsLastSample E Blender InData = true →
      Q InData.Payload.SampleState.OutputState.OutputFrameNumber
        (MovedOutputFrame E Blender InData Target))
    (h : OnCompleteRenderPassDataAvailable_AnyThread E Blender InData = some (Next, Calls)) :
    ∀ KVP ∈ Next.PendingData, Q KVP.1.OutputFrameNumber KVP.2 := by
  obtain ⟨T, hT, _, hc⟩ := submit_cases E Blender Next InData Calls h
  have hres : ∀ KVP ∈ ResolvePending Blender InData, Q KVP.1.OutputFrameNumber KVP.2 := by
    intro KVP hK
    rcases mem_ResolvePending Blender InData KVP hK with h1 | h1
    · exact hold KVP h1
    · rw [h1]; exact hnew
  intro KVP hK
  rcases hc with ⟨hl, hp, _⟩ | ⟨hl, hp, _⟩
  · rw [hp] at hK
    unfold RemovePending at hK
    rcases mem_StorePendingFrame _ _ _ _ (List.mem_filter.mp hK).1 with h1 | ⟨h1, h2⟩
    · exact hres KVP h1
    · rw [h1, h2]; exact hmov T hT hl
  · rw [hp] at hK
    rcases mem_StorePendingFrame _ _ _ _ hK with h1 | ⟨h1, h2⟩
    · exact hres KVP h1
    · rw [h1, h2]; exact hupd T hT hl

theorem submit_calls_forall (E : FEngine K) (Blender Next : FPanoramicBlender K)
    (InData : FImagePixelData K) (Calls : List (FMergerCall K)) (Post : FMergerCall K → Prop)
    (hdebug : ∀ Size Data Payload, Post (FMergerCall.OnSingleSampleDataAvailable Size Data Payload))
    (hfinal : ∀ Target, BlendSample E Blender.OutputEquirectangularMapSize InData = some Target →
      bIsLastSample E Blender InData = true → Post (FinalPixelData E Blender InData Target))
    (h : OnCompleteRenderPassDataAvailable_AnyThread E Blender InData = some (Next, Calls)) :
    ∀ Call ∈ Calls, Post Call := by
  obtain ⟨T, hT, _, hc⟩ := submit_cases E Blender Next InData Calls h
  have hd : ∀ Call ∈ DebugCalls E Blender InData T, Post Call := by
    intro Call hC
    unfold DebugCalls at hC
    split at hC
    · rw [List.mem_singleton.mp hC]; exact hdebug _ _ _
    · exact absurd hC (List.not_mem_nil _)
  intro Call hC
  rcases hc with ⟨hl, _, hcalls⟩ | ⟨_, _, hcalls⟩
  · rw [hcalls] at hC
    rcases List.mem_append.mp hC with h1 | h1
    · exact hd Call h1
    · rw [List.mem_singleton.mp h1]; exact hfinal T hT hl
  · rw [hcalls] at hC
    exact hd Call hC

theorem DeliverSamples_invariant (E : FEngine K) (Inv : FPanoramicBlender K → Prop)
    (Good : FImagePixelData K → Prop) (Post : FMergerCall K → Prop)
    (hstep : ∀ Blender InData, Inv Blender → Good InData →
      ∃ Next Calls, OnCompleteRenderPassDataAvailable_AnyThread E Blender InData = some (Next, Calls) ∧
        Inv Next ∧ ∀ Call ∈ Calls, Post Call) :
    ∀ (Samples : List (FImagePixelData K)) (Blender : FPanoramicBlender K),
      Inv Blender → (∀ InData ∈ Samples, Good InData) →
      ∃ After Calls, DeliverSamples E Blender Samples = some (After, Calls) ∧ Inv After ∧
        ∀ Call ∈ Calls, Post Call := by
  intro Samples
  induction Samples with
  | nil =>
    intro B hB _
    exact ⟨B, [], rfl, hB, fun _ h => absurd h (List.not_mem_nil _)⟩
  | cons x xs ih =>
    intro B hB hG
    obtain ⟨B1, C1, h1, hB1, hC1⟩ := hstep B x hB (hG x (List.mem_cons_self _ _))
    obtain ⟨B2, C2, h2, hB2, hC2⟩ := ih B1 hB1 (fun y hy => hG y (List.mem_cons_of_mem _ hy))
    refine ⟨B2, C1 ++ C2, DeliverSamples_cons E _ _ _ _ _ _ _ h1 h2, hB2, ?_⟩
    intro Call hC
    rcases List.mem_append.mp hC with h | h
    · exact hC1 Call h
    · exact hC2 Call h

theorem NormalizeMap_length (bIncludeAlpha : Bool) (Map : List (FLinearColor K))
    (AlphaArray : List K) : (NormalizeMap bIncludeAlpha Map AlphaArray).length = Map.length := by
  unfold NormalizeMap
  rw [List.length_map, List.length_range]

theorem SharedAfterMerge_length (E : FEngine K) (Blender : FPanoramicBlender K)
    (InData : FImagePixelData K) (Target : FBlendBuffers K) :
    (SharedAfterMerge E Blender InData Target).Data.length =
      (ResolveOutputFrame Blender InData).OutputEquirectangularMap.length := by
  unfold SharedAfterMerge MergeSample
  rw [MergeBuffers_length]

theorem EyeMultiplier_of_stereo (Pane : FPanoPane K) (bStereo : Bool)
    (h : if bStereo then Pane.EyeIndex = 0 ∨ Pane.EyeIndex = 1 else Pane.EyeIndex = -1) :
    EyeMultiplier Pane = (if bStereo then 2 else 1) := by
  unfold EyeMultiplier
  cases bStereo with
  | true =>
    simp only [if_true] at h
    have : Pane.EyeIndex ≠ -1 := by omega
    simp [this]
  | false =>
    simp only [Bool.false_eq_true, if_false] at h
    simp [h]

theorem NewOutputFrame_length (MapSize : FIntPoint) (Pane : FPanoPane K) (bStereo : Bool)
    (h : if bStereo then Pane.EyeIndex = 0 ∨ Pane.EyeIndex = 1 else Pane.EyeIndex = -1) :
    (NewOutputFrame MapSize Pane).OutputEquirectangularMap =
      List.replicate (MapSize.X * (if bStereo then 2 * MapSize.Y else MapSize.Y)).toNat 0 := by
  unfold NewOutputFrame SetNumZeroed
  simp only
  rw [EyeMultiplier_of_stereo Pane bStereo h]
  congr 2
  cases bStereo
  · simp
  · simp; ring

theorem OutputSize_of_stereo (MapSize : FIntPoint) (Pane : FPanoPane K) (bStereo : Bool)
    (h : if bStereo then Pane.EyeIndex = 0 ∨ Pane.EyeIndex = 1 else Pane.EyeIndex = -1) :
    OutputSize MapSize Pane = ⟨MapSize.X, if bStereo then 2 * MapSize.Y else MapSize.Y⟩ := by
  unfold OutputSize
  cases bStereo with
  | true =>
    simp only [if_true] at h
    have : Pane.EyeIndex ≥ 0 := by omega
    simp [this]; ring
  | false =>
    simp only [Bool.false_eq_true, if_false] at h
    simp [h]

/-- C3: for a map of `W × H` pixels (`W, H ≥ 0`) and a pass that is mono (every pane has eye
index −1) or stereo (every pane has eye index 0 or 1): the frame state created for a pane holds a
colour buffer of `W × H` (mono) or `W × 2H` (stereo) zero entries, and every panorama emitted
while any list of samples is delivered to a new blender declares the size `W × H` (mono) or
`W × 2H` (stereo), which is the number of entries of the buffer it carries. -/
theorem panorama_buffer_sized_to_map (E : FEngine K) (MapSize : FIntPoint) (bStereo : Bool)
    (Pane : FPanoPane K) (Samples : List (FImagePixelData K))
    (hW : 0 ≤ MapSize.X) (hH : 0 ≤ MapSize.Y)
    (hPane : if bStereo then Pane.EyeIndex = 0 ∨ Pane.EyeIndex = 1 else Pane.EyeIndex = -1)
    (hSupported : ∀ InData ∈ Samples, InData.PixelType ≠ EImagePixelType.Color)
    (hEye : ∀ InData ∈ Samples,
      if bStereo then InData.Payload.Pane.EyeIndex = 0 ∨ InData.Payload.Pane.EyeIndex = 1
      else InData.Payload.Pane.EyeIndex = -1) :
    (NewOutputFrame MapSize Pane).OutputEquirectangularMap =
        List.replicate (MapSize.X * (if bStereo then 2 * MapSize.Y else MapSize.Y)).toNat 0 ∧
      ∃ After Calls, DeliverSamples E (NewBlender MapSize) Samples = some (After, Calls) ∧
        ∀ Size Data Payload,
          FMergerCall.OnCompleteRenderPassDataAvailable Size Data Payload ∈ Calls →
          Size = ⟨MapSize.X, if bStereo then 2 * MapSize.Y else MapSize.Y⟩ ∧
            (Data.length : Int) = Size.X * Size.Y := by
  refine ⟨NewOutputFrame_length MapSize Pane bStereo hPane, ?_⟩
  let L : Nat := (MapSize.X * (if bStereo then 2 * MapSize.Y else MapSize.Y)).toNat
  have hL : (L : Int) = MapSize.X * (if bStereo then 2 * MapSize.Y else MapSize.Y) := by
    apply Int.toNat_of_nonneg
    cases bStereo <;> simp <;> positivity
  let Q : Int → FPanoramicOutputFrame K → Prop := fun _ Frame =>
    Frame.OutputEquirectangularMap.length = L ∨
      Frame.NumSamplesTotal ≤ NumFinishedSamples Frame.BlendedData
  let Inv : FPanoramicBlender K → Prop := fun B =>
    B.OutputEquirectangularMapSize = MapSize ∧ ∀ KVP ∈ B.PendingData, Q KVP.1.OutputFrameNumber KVP.2
  let Good : FImagePixelData K → Prop := fun x =>
    x.PixelType ≠ EImagePixelType.Color ∧
      (if bStereo then x.Payload.Pane.EyeIndex = 0 ∨ x.Payload.Pane.EyeIndex = 1
        else x.Payload.Pane.EyeIndex = -1)
  let Post : FMergerCall K → Prop := fun Call =>
    ∀ Size Data Payload, Call = FMergerCall.OnCompleteRenderPassDataAvailable Size Data Payload →
      Size = ⟨MapSize.X, if bStereo then 2 * MapSize.Y else MapSize.Y⟩ ∧
        (Data.length : Int) = Size.X * Size.Y
  have hstep : ∀ B x, Inv B → Good x →
      ∃ Next Calls, OnCompleteRenderPassDataAvailable_AnyThread E B x = some (Next, Calls) ∧
        Inv Next ∧ ∀ Call ∈ Calls, Post Call := by
    intro B x hB hG
    obtain ⟨hBsize, hBpend⟩ := hB
    obtain ⟨B1, C1, h1⟩ := submit_total E B x hG.1
    obtain ⟨T0, _, hsize1, _⟩ := submit_cases E B B1 x C1 h1
    have hnew : Q x.Payload.SampleState.OutputState.OutputFrameNumber
        (NewOutputFrame B.OutputEquirectangularMapSize x.Payload.Pane) := by
      left
      rw [hBsize, NewOutputFrame_length MapSize x.Payload.Pane bStereo hG.2, List.length_replicate]
    have hF0 := ResolveOutputFrame_forall B x Q hBpend hnew
    refine ⟨B1, C1, h1, ⟨hsize1.trans hBsize, ?_⟩, ?_⟩
    · apply submit_pending_forall E B B1 x C1 Q hBpend hnew _ _ h1
      · intro T _ _
        rcases hF0 with h | h
        · left
          show (SharedAfterMerge E B x T).Data.length = L
          rw [SharedAfterMerge_length, h]
        · right
          show (ResolveOutputFrame B x).NumSamplesTotal ≤
            NumFinishedSamples (FinishedBlendedData E B x)
          rw [NumFinishedSamples_FinishedBlendedData]
          omega
      · intro T _ hl
        right
        show (ResolveOutputFrame B x).NumSamplesTotal ≤
          NumFinishedSamples (FinishedBlendedData E B x)
        rw [NumFinishedSamples_FinishedBlendedData]
        rw [bIsLastSample_iff] at hl
        omega
    · apply submit_calls_forall E B B1 x C1 Post _ _ h1
      · intro Size Data Payload Size' Data' Payload' hEq
        exact absurd hEq (by simp)
      · intro T _ hl Size Data Payload hEq
        unfold FinalPixelData at hEq
        simp only [FMergerCall.OnCompleteRenderPassDataAvailable.injEq] at hEq
        obtain ⟨hS, hD, _⟩ := hEq
        rw [bIsLastSample_iff] at hl
        have hlen : (ResolveOutputFrame B x).OutputEquirectangularMap.length = L := by
          rcases hF0 with h | h
          · exact h
          · omega
        rw [← hS, ← hD, hBsize, OutputSize_of_stereo MapSize x.Payload.Pane bStereo hG.2]
        refine ⟨rfl, ?_⟩
        rw [NormalizeMap_length, SharedAfterMerge_length, hlen, hL]
  obtain ⟨After, Calls, hrun, _, hpost⟩ := DeliverSamples_invariant E Inv Good Post hstep Samples
    (NewBlender MapSize) ⟨rfl, fun _ h => absurd h (List.not_mem_nil _)⟩
    (fun x hx => ⟨hSupported x hx, hEye x hx⟩)
  exact ⟨After, Calls, hrun, fun Size Data Payload hmem => hpost _ hmem Size Data Payload rfl⟩

theorem StereoSample_eye (i : Nat) (h : i < 36) :
    (StereoSample i).Payload.Pane.EyeIndex = 0 ∨ (StereoSample i).Payload.Pane.EyeIndex = 1 := by
  show ((i / 18 : Nat) : Int) = 0 ∨ ((i / 18 : Nat) : Int) = 1
  omega

theorem panorama_buffer_sized_to_map_witness :
    (NewOutputFrame ⟨8, 4⟩ (StereoSample 0).Payload.Pane).OutputEquirectangularMap =
        List.replicate 64 0 ∧
      ∃ After Calls, DeliverSamples RationalEngine (NewBlender ⟨8, 4⟩)
          ((List.range 36).map StereoSample) = some (After, Calls) ∧
        ∀ Size Data Payload,
          FMergerCall.OnCompleteRenderPassDataAvailable Size Data Payload ∈ Calls →
          Size = ⟨8, 8⟩ ∧ (Data.length : Int) = Size.X * Size.Y :=
  panorama_buffer_sized_to_map RationalEngine ⟨8, 4⟩ true (StereoSample 0).Payload.Pane
    ((List.range 36).map StereoSample) (by decide) (by decide) (StereoSample_eye 0 (by decide))
    (by
      intro x hx
      simp only [List.mem_map] at hx
      obtain ⟨i, _, rfl⟩ := hx
      exact StereoSample_supported i)
    (by
      intro x hx
      simp only [List.mem_map, List.mem_range] at hx
      obtain ⟨i, hi, rfl⟩ := hx
      exact StereoSample_eye i hi)

theorem NormalizeMap_getElem? (bIncludeAlpha : Bool) (Map : List (FLinearColor K))
    (AlphaArray : List K) (i : Nat) (p : FLinearColor K) (h : Map[i]? = some p) :
    (NormalizeMap bIncludeAlpha Map AlphaArray)[i]? =
      some (NormalizePixel bIncludeAlpha p (ReadAt AlphaArray (i : Int))) := by
  have hi : i < Map.length := (List.getElem?_eq_some.mp h).1
  have hp : Map[i] = p := (List.getElem?_eq_some.mp h).2
  unfold NormalizeMap
  rw [List.getElem?_map, List.getElem?_range hi]
  simp only [Option.map_some', Option.some.injEq]
  congr 1
  unfold ReadAt
  rw [if_pos (Int.natCast_nonneg i), Int.toNat_natCast, List.getD_eq_getElem _ _ hi, hp]

theorem FloatDiv_mul_self (a w : K) (hw : w ≠ 0) : FloatDiv (a * w) w = some a := by
  unfold FloatDiv
  rw [if_neg hw, mul_div_assoc, div_self hw, mul_one]

/-- C5: when samples are delivered to a new blender and every sample of frame `n` has alpha
accumulation off and a tile that is uniformly the colour `c`, every panorama emitted for frame
`n` is the normalization of accumulated buffers in which each pixel with non-zero accumulated
weight (its alpha channel) comes out with R, G, B equal to those of `c` and alpha 1. -/
theorem uniform_tiles_give_uniform_panorama (E : FEngine K) (MapSize : FIntPoint) (n : Int)
    (c : FLinearColor K) (Samples : List (FImagePixelData K))
    (hSupported : ∀ InData ∈ Samples, InData.PixelType ≠ EImagePixelType.Color)
    (hUniform : ∀ InData ∈ Samples,
      InData.Payload.SampleState.OutputState.OutputFrameNumber = n →
      InData.Payload.Pane.bIncludeAlpha = false ∧ UniformTile InData c) :
    ∃ After Calls, DeliverSamples E (NewBlender MapSize) Samples = some (After, Calls) ∧
      ∀ Size Data Payload,
        FMergerCall.OnCompleteRenderPassDataAvailable Size Data Payload ∈ Calls →
        Payload.SampleState.OutputState.OutputFrameNumber = n →
        ∃ Accumulated AlphaArray, Data = NormalizeMap false Accumulated AlphaArray ∧
          ∀ (i : Nat) (p : FLinearColor K), Accumulated[i]? = some p → p.A ≠ 0 →
            Data[i]? = some ⟨some c.R, some c.G, some c.B, some 1⟩ := by
  let Uni : FLinearColor K → Prop := fun p => p.R = c.R * p.A ∧ p.G = c.G * p.A ∧ p.B = c.B * p.A
  have hUni0 : Uni 0 := by simp [Uni]
  have hUniAdd : ∀ a b, Uni a → Uni b → Uni (a + b) := by
    intro a b ha hb
    obtain ⟨a1, a2, a3⟩ := ha
    obtain ⟨b1, b2, b3⟩ := hb
    simp only [Uni, FLinearColor.add_R, FLinearColor.add_G, FLinearColor.add_B,
      FLinearColor.add_A, a1, a2, a3, b1, b2, b3]
    exact ⟨by ring, by ring, by ring⟩
  let Q : Int → FPanoramicOutputFrame K → Prop := fun m Frame =>
    m = n → ∀ p ∈ Frame.OutputEquirectangularMap, Uni p
  let Inv : FPanoramicBlender K → Prop := fun B =>
    ∀ KVP ∈ B.PendingData, Q KVP.1.OutputFrameNumber KVP.2
  let Good : FImagePixelData K → Prop := fun x =>
    x.PixelType ≠ EImagePixelType.Color ∧
      (x.Payload.SampleState.OutputState.OutputFrameNumber = n →
        x.Payload.Pane.bIncludeAlpha = false ∧ UniformTile x c)
  let Post : FMergerCall K → Prop := fun Call =>
    ∀ Size Data Payload, Call = FMergerCall.OnCompleteRenderPassDataAvailable Size Data Payload →
      Payload.SampleState.OutputState.OutputFrameNumber = n →
      ∃ Accumulated AlphaArray, Data = NormalizeMap false Accumulated AlphaArray ∧
        ∀ (i : Nat) (p : FLinearColor K), Accumulated[i]? = some p → p.A ≠ 0 →
          Data[i]? = some ⟨some c.R, some c.G, some c.B, some 1⟩
  have hstep : ∀ B x, Inv B → Good x →
      ∃ Next Calls, OnCompleteRenderPassDataAvailable_AnyThread E B x = some (Next, Calls) ∧
        Inv Next ∧ ∀ Call ∈ Calls, Post Call := by
    intro B x hB hG
    obtain ⟨B1, C1, h1⟩ := submit_total E B x hG.1
    have hnew : Q x.Payload.SampleState.OutputState.OutputFrameNumber
        (NewOutputFrame B.OutputEquirectangularMapSize x.Payload.Pane) := by
      intro _ p hp
      simp only [NewOutputFrame, SetNumZeroed] at hp
      rw [List.eq_of_mem_replicate hp]
      exact hUni0
    have hF0 := ResolveOutputFrame_forall B x Q hB hnew
    have hShared : ∀ T, BlendSample E B.OutputEquirectangularMapSize x = some T →
        x.Payload.SampleState.OutputState.OutputFrameNumber = n →
        ∀ p ∈ (SharedAfterMerge E B x T).Data, Uni p := by
      intro T hT hn
      obtain ⟨hna, hu⟩ := hG.2 hn
      obtain ⟨T', hT', hTinv⟩ := BlendSample_inv E B.OutputEquirectangularMapSize x Uni hG.1
        hUni0 hUniAdd (by
          intro X Y col hcol
          rw [hna] at hcol
          rw [GetColorBilinearFiltered_uniform x c hG.1 hu _ col hcol]
          simp [Uni])
      rw [hT] at hT'
      rw [Option.some.injEq] at hT'
      subst hT'
      unfold SharedAfterMerge MergeSample
      exact MergeBuffers_forall _ _ _ _ _ _ _ Uni hUni0 hUniAdd hTinv (hF0 hn)
    refine ⟨B1, C1, h1, ?_, ?_⟩
    · apply submit_pending_forall E B B1 x C1 Q hB hnew _ _ h1
      · intro T hT _ hn
        exact hShared T hT hn
      · intro T _ _ _ p hp
        exact absurd hp (List.not_mem_nil _)
    · apply submit_calls_forall E B B1 x C1 Post _ _ h1
      · intro Size Data Payload Size' Data' Payload' hEq
        exact absurd hEq (by simp)
      · intro T hT _ Size Data Payload hEq hn
        unfold FinalPixelData at hEq
        simp only [FMergerCall.OnCompleteRenderPassDataAvailable.injEq] at hEq
        obtain ⟨_, hD, hP⟩ := hEq
        rw [← hP] at hn
        obtain ⟨hna, _⟩ := hG.2 hn
        refine ⟨(SharedAfterMerge E B x T).Data, (SharedAfterMerge E B x T).AlphaArray, ?_, ?_⟩
        · rw [← hD, hna]
        · intro i p hp hA
          rw [← hD, NormalizeMap_getElem? _ _ _ i p hp, hna]
          obtain ⟨u1, u2, u3⟩ := hShared T hT hn p (List.getElem?_mem hp)
          simp only [NormalizePixel, Bool.false_eq_true, if_false]
          rw [u1, u2, u3, FloatDiv_mul_self _ _ hA, FloatDiv_mul_self _ _ hA,
            FloatDiv_mul_self _ _ hA]
  obtain ⟨After, Calls, hrun, _, hpost⟩ := DeliverSamples_invariant E Inv Good Post hstep Samples
    (NewBlender MapSize) (fun _ h => absurd h (List.not_mem_nil _))
    (fun x hx => ⟨hSupported x hx, hUniform x hx⟩)
  exact ⟨After, Calls, hrun, fun Size Data Payload hmem hn =>
    hpost _ hmem Size Data Payload rfl hn⟩

theorem MonoSample_uniform (i : Nat) : UniformTile (MonoSample i) ⟨1 / 2, 1 / 2, 1 / 2, 1⟩ := by
  refine ⟨by simp [MonoSample, ExampleSample], ?_⟩
  intro p hp
  simp only [MonoSample, ExampleSample] at hp
  exact List.eq_of_mem_replicate hp

theorem uniform_tiles_give_uniform_panorama_witness :
    ∃ After Calls, DeliverSamples RationalEngine (NewBlender ⟨8, 4⟩)
        ((List.range 8).map MonoSample) = some (After, Calls) ∧
      ∀ Size Data Payload,
        FMergerCall.OnCompleteRenderPassDataAvailable Size Data Payload ∈ Calls →
        Payload.SampleState.OutputState.OutputFrameNumber = 7 →
        ∃ Accumulated AlphaArray, Data = NormalizeMap false Accumulated AlphaArray ∧
          ∀ (i : Nat) (p : FLinearColor ℚ), Accumulated[i]? = some p → p.A ≠ 0 →
            Data[i]? = some ⟨some (1 / 2), some (1 / 2), some (1 / 2), some 1⟩ :=
  uniform_tiles_give_uniform_panorama RationalEngine ⟨8, 4⟩ 7 ⟨1 / 2, 1 / 2, 1 / 2, 1⟩
    ((List.range 8).map MonoSample)
    (by
      intro x hx
      simp only [List.mem_map] at hx
      obtain ⟨i, _, rfl⟩ := hx
      simp [MonoSample, ExampleSample])
    (by
      intro x hx _
      simp only [List.mem_map] at hx
      obtain ⟨i, _, rfl⟩ := hx
      exact ⟨rfl, MonoSample_uniform i⟩)

/-! ## Normalization -/

theorem ReadAt_of_getElem? {α : Type} [Zero α] (arr : List α) (i : Nat) (a : α)
    (h : arr[i]? = some a) : ReadAt arr (i : Int) = a := by
  have hi : i < arr.length := (List.getElem?_eq_some.mp h).1
  have hp : arr[i] = a := (List.getElem?_eq_some.mp h).2
  unfold ReadAt
  rw [if_pos (Int.natCast_nonneg i), Int.toNat_natCast, List.getD_eq_getElem _ _ hi, hp]

theorem submit_panorama_data (E : FEngine K) (Blender After : FPanoramicBlender K)
    (InData : FImagePixelData K) (Calls : List (FMergerCall K)) (Size : FIntPoint)
    (Data : List (FLinearColor (Option K))) (Payload : FPanoramicImagePixelDataPayload K)
    (h : OnCompleteRenderPassDataAvailable_AnyThread E Blender InData = some (After, Calls))
    (hmem : FMergerCall.OnCompleteRenderPassDataAvailable Size Data Payload ∈ Calls) :
    ∃ Target, BlendSample E Blender.OutputEquirectangularMapSize InData = some Target ∧
      Data = NormalizeMap InData.Payload.Pane.bIncludeAlpha
        (SharedAfterMerge E Blender InData Target).Data
        (SharedAfterMerge E Blender InData Target).AlphaArray := by
  obtain ⟨T, hT, _, hc⟩ := submit_cases E Blender After InData Calls h
  refine ⟨T, hT, ?_⟩
  have hdebug : FMergerCall.OnCompleteRenderPassDataAvailable Size Data Payload ∉
      DebugCalls E Blender InData T := by
    unfold DebugCalls
    split <;> simp
  rcases hc with ⟨_, _, hcalls⟩ | ⟨_, _, hcalls⟩
  · rw [hcalls] at hmem
    rcases List.mem_append.mp hmem with h1 | h1
    · exact absurd h1 hdebug
    · rw [List.mem_singleton] at h1
      unfold FinalPixelData at h1
      simp only [FMergerCall.OnCompleteRenderPassDataAvailable.injEq] at h1
      exact h1.2.1
  · rw [hcalls] at hmem
    exact absurd hmem hdebug

/-- C6: the panorama emitted by a completing call is the pixel-wise normalization of the shared
buffers as they are after the call's merge: with alpha tracked separately a pixel whose weight
entry `AlphaNum` is non-zero gets each of R, G, B, A divided by `AlphaNum`; otherwise a pixel
whose accumulated alpha channel is non-zero gets R, G, B divided by that channel and alpha 1. -/
theorem normalization_divides_by_accumulated_weight (E : FEngine K)
    (Blender : FPanoramicBlender K) (InData : FImagePixelData K)
    (hSupported : InData.PixelType ≠ EImagePixelType.Color) :
    ∃ After Calls Target,
      OnCompleteRenderPassDataAvailable_AnyThread E Blender InData = some (After, Calls) ∧
      BlendSample E Blender.OutputEquirectangularMapSize InData = some Target ∧
      ∀ Size Data Payload,
        FMergerCall.OnCompleteRenderPassDataAvailable Size Data Payload ∈ Calls →
        Data.length = (SharedAfterMerge E Blender InData Target).Data.length ∧
        ∀ (i : Nat) (Pixel : FLinearColor K),
          (SharedAfterMerge E Blender InData Target).Data[i]? = some Pixel →
          (InData.Payload.Pane.bIncludeAlpha = true → ∀ AlphaNum : K,
            (SharedAfterMerge E Blender InData Target).AlphaArray[i]? = some AlphaNum →
            AlphaNum ≠ 0 →
            Data[i]? = some ⟨some (Pixel.R / AlphaNum), some (Pixel.G / AlphaNum),
              some (Pixel.B / AlphaNum), some (Pixel.A / AlphaNum)⟩) ∧
          (InData.Payload.Pane.bIncludeAlpha = false → Pixel.A ≠ 0 →
            Data[i]? = some ⟨some (Pixel.R / Pixel.A), some (Pixel.G / Pixel.A),
              some (Pixel.B / Pixel.A), some 1⟩) := by
  obtain ⟨After, Calls, h⟩ := submit_total E Blender InData hSupported
  obtain ⟨T, hT, _, _⟩ := submit_cases E Blender After InData Calls h
  refine ⟨After, Calls, T, h, hT, ?_⟩
  intro Size Data Payload hmem
  obtain ⟨T', hT', hD⟩ := submit_panorama_data E Blender After InData Calls Size Data Payload h hmem
  rw [hT, Option.some.injEq] at hT'
  subst hT'
  refine ⟨by rw [hD, NormalizeMap_length], ?_⟩
  intro i Pixel hP
  rw [hD, NormalizeMap_getElem? _ _ _ i Pixel hP]
  constructor
  · intro ha AlphaNum hA hne
    rw [ha, ReadAt_of_getElem? _ i AlphaNum hA]
    simp [NormalizePixel, FloatDiv, hne]
  · intro ha hne
    rw [ha]
    simp [NormalizePixel, FloatDiv, hne]

theorem normalization_divides_by_accumulated_weight_witness :
    ∃ After Calls Target,
      OnCompleteRenderPassDataAvailable_AnyThread RationalEngine (NewBlender ⟨8, 4⟩) SeamSample =
        some (After, Calls) ∧
      BlendSample RationalEngine ⟨8, 4⟩ SeamSample = some Target ∧
      ∀ Size Data Payload,
        FMergerCall.OnCompleteRenderPassDataAvailable Size Data Payload ∈ Calls →
        Data.length =
          (SharedAfterMerge RationalEngine (NewBlender ⟨8, 4⟩) SeamSample Target).Data.length ∧
        ∀ (i : Nat) (Pixel : FLinearColor ℚ),
          (SharedAfterMerge RationalEngine (NewBlender ⟨8, 4⟩) SeamSample Target).Data[i]? =
            some Pixel →
          (SeamSample.Payload.Pane.bIncludeAlpha = true → ∀ AlphaNum : ℚ,
            (SharedAfterMerge RationalEngine (NewBlender ⟨8, 4⟩) SeamSample Target).AlphaArray[i]? =
              some AlphaNum →
            AlphaNum ≠ 0 →
            Data[i]? = some ⟨some (Pixel.R / AlphaNum), some (Pixel.G / AlphaNum),
              some (Pixel.B / AlphaNum), some (Pixel.A / AlphaNum)⟩) ∧
          (SeamSample.Payload.Pane.bIncludeAlpha = false → Pixel.A ≠ 0 →
            Data[i]? = some ⟨some (Pixel.R / Pixel.A), some (Pixel.G / Pixel.A),
              some (Pixel.B / Pixel.A), some 1⟩) :=
  normalization_divides_by_accumulated_weight RationalEngine (NewBlender ⟨8, 4⟩) SeamSample
    (by simp [SeamSample, ExampleSample])

/-- C7, as the code behaves: the panorama emitted by a completing call holds, for a pixel whose
accumulated weight is zero, the non-finite quotients of the division by that zero: with alpha
tracked separately all four channels are non-finite; otherwise R, G, B are non-finite and alpha
is 1. -/
theorem zero_weight_pixel_is_divided_by_zero (E : FEngine K)
    (Blender : FPanoramicBlender K) (InData : FImagePixelData K)
    (hSupported : InData.PixelType ≠ EImagePixelType.Color) :
    ∃ After Calls Target,
      OnCompleteRenderPassDataAvailable_AnyThread E Blender InData = some (After, Calls) ∧
      BlendSample E Blender.OutputEquirectangularMapSize InData = some Target ∧
      ∀ Size Data Payload,
        FMergerCall.OnCompleteRenderPassDataAvailable Size Data Payload ∈ Calls →
        ∀ (i : Nat) (Pixel : FLinearColor K),
          (SharedAfterMerge E Blender InData Target).Data[i]? = some Pixel →
          (InData.Payload.Pane.bIncludeAlpha = true →
            (SharedAfterMerge E Blender InData Target).AlphaArray[i]? = some 0 →
            Data[i]? = some ⟨none, none, none, none⟩) ∧
          (InData.Payload.Pane.bIncludeAlpha = false → Pixel.A = 0 →
            Data[i]? = some ⟨none, none, none, some 1⟩) := by
  obtain ⟨After, Calls, h⟩ := submit_total E Blender InData hSupported
  obtain ⟨T, hT, _, _⟩ := submit_cases E Blender After InData Calls h
  refine ⟨After, Calls, T, h, hT, ?_⟩
  intro Size Data Payload hmem
  obtain ⟨T', hT', hD⟩ := submit_panorama_data E Blender After InData Calls Size Data Payload h hmem
  rw [hT, Option.some.injEq] at hT'
  subst hT'
  intro i Pixel hP
  rw [hD, NormalizeMap_getElem? _ _ _ i Pixel hP]
  constructor
  · intro ha hA
    rw [ha, ReadAt_of_getElem? _ i 0 hA]
    simp [NormalizePixel, FloatDiv]
  · intro ha hz
    rw [ha]
    simp [NormalizePixel, FloatDiv, hz]

theorem zero_weight_pixel_is_divided_by_zero_witness :
    ∃ After Calls Target,
      OnCompleteRenderPassDataAvailable_AnyThread RationalEngine (NewBlender ⟨8, 4⟩) SeamSample =
        some (After, Calls) ∧
      BlendSample RationalEngine ⟨8, 4⟩ SeamSample = some Target ∧
      ∀ Size Data Payload,
        FMergerCall.OnCompleteRenderPassDataAvailable Size Data Payload ∈ Calls →
        ∀ (i : Nat) (Pixel : FLinearColor ℚ),
          (SharedAfterMerge RationalEngine (NewBlender ⟨8, 4⟩) SeamSample Target).Data[i]? =
            some Pixel →
          (SeamSample.Payload.Pane.bIncludeAlpha = true →
            (SharedAfterMerge RationalEngine (NewBlender ⟨8, 4⟩) SeamSample Target).AlphaArray[i]? =
              some 0 →
            Data[i]? = some ⟨none, none, none, none⟩) ∧
          (SeamSample.Payload.Pane.bIncludeAlpha = false → Pixel.A = 0 →
            Data[i]? = some ⟨none, none, none, some 1⟩) :=
  zero_weight_pixel_is_divided_by_zero RationalEngine (NewBlender ⟨8, 4⟩) SeamSample
    (by simp [SeamSample, ExampleSample])

/-- C7, counterexample: the single tile of frame 7 looks at yaw 180 and pitch 45 degrees on an
8 by 4 map and covers rows 0 to 2 only; the pixel of row 3, column 2 (index 26) has accumulated
colour and weight zero after the merge, and the emitted panorama holds non-finite R, G, B and
alpha 1 there, not transparent black. -/
theorem zero_weight_pixel_not_transparent_black :
    (OutputBoundsMin RationalEngine ⟨8, 4⟩ SeamPane, OutputBoundsMax RationalEngine ⟨8, 4⟩ SeamPane) =
      (⟨6, 0⟩, ⟨9, 3⟩) ∧
    (BlendSample RationalEngine ⟨8, 4⟩ SeamSample).map
        (fun Target =>
          (SharedAfterMerge RationalEngine (NewBlender ⟨8, 4⟩) SeamSample Target).Data[26]?) =
      some (some ⟨0, 0, 0, 0⟩) ∧
    (OnCompleteRenderPassDataAvailable_AnyThread RationalEngine (NewBlender ⟨8, 4⟩)
        SeamSample).map (fun Result => Result.2.map (PanoramaPixels [26])) =
      some [[some ⟨none, none, none, some 1⟩]] ∧
    (⟨none, none, none, some 1⟩ : FLinearColor (Option ℚ)) ≠ ⟨some 0, some 0, some 0, some 0⟩ := by
  decide!

/-- C8: for any two samples `A` and `B` with intermediate buffers `SourceA` and `SourceB`,
merging `A` and then `B` into shared colour and weight buffers gives the same buffers as merging
`B` and then `A`. -/
theorem merge_order_independent (E : FEngine K) (MapSize : FIntPoint) (PaneA PaneB : FPanoPane K)
    (SourceA SourceB Shared : FBlendBuffers K) :
    MergeSample E MapSize PaneB SourceB (MergeSample E MapSize PaneA SourceA Shared) =
      MergeSample E MapSize PaneA SourceA (MergeSample E MapSize PaneB SourceB Shared) := by
  unfold MergeSample
  exact MergeBuffers_comm MapSize PaneA PaneB _ _ _ _ _ _ SourceA SourceB Shared

/-! ## Samples after completion and malformed panes -/

theorem DeliverSamples_snoc (E : FEngine K) :
    ∀ (Samples : List (FImagePixelData K)) (Blender Before After : FPanoramicBlender K)
      (InData : FImagePixelData K) (CallsBefore Calls : List (FMergerCall K)),
      DeliverSamples E Blender Samples = some (Before, CallsBefore) →
      OnCompleteRenderPassDataAvailable_AnyThread E Before InData = some (After, Calls) →
      DeliverSamples E Blender (Samples ++ [InData]) = some (After, CallsBefore ++ Calls) := by
  intro Samples
  induction Samples with
  | nil =>
    intro B Before After x CB C h1 h2
    simp only [DeliverSamples, Option.some.injEq, Prod.mk.injEq] at h1
    obtain ⟨rfl, rfl⟩ := h1
    simp [DeliverSamples, h2]
  | cons y ys ih =>
    intro B Before After x CB C h1 h2
    simp only [DeliverSamples] at h1
    cases hy : OnCompleteRenderPassDataAvailable_AnyThread E B y with
    | none => rw [hy] at h1; exact absurd h1 (by simp)
    | some r =>
      obtain ⟨By, Cy⟩ := r
      rw [hy] at h1
      simp only at h1
      cases hys : DeliverSamples E By ys with
      | none => rw [hys] at h1; exact absurd h1 (by simp)
      | some r2 =>
        obtain ⟨B2, C2⟩ := r2
        rw [hys] at h1
        simp only [Option.some.injEq, Prod.mk.injEq] at h1
        obtain ⟨rfl, rfl⟩ := h1
        have := ih By B2 After x C2 C hys h2
        rw [List.cons_append, DeliverSamples_cons E B By After y (ys ++ [x]) Cy (C2 ++ C) hy this,
          List.append_assoc]

/-- C9, counterexample: frame 7 expects 2 samples; after two samples its panorama is emitted and
no frame is pending; a third sample for frame 7 is not rejected: it creates a new pending state
for frame 7 with one finished sample of two expected. -/
theorem completed_frame_is_created_again :
    (DeliverSamples RationalEngine (NewBlender ⟨8, 4⟩) [TwoTileSample, TwoTileSample]).map
        RunSummary = some ([], 1) ∧
    (DeliverSamples RationalEngine (NewBlender ⟨8, 4⟩)
        [TwoTileSample, TwoTileSample, TwoTileSample]).map RunSummary =
      some ([(⟨7, 0⟩, 2, 1)], 1) := by
  decide!

/-- C9, as the code behaves: when the last sample `Last` of a frame has completed it (the frame's
state is removed), a further sample `Further` with the same identifier is processed like the
first sample of a never-seen frame: the call succeeds, and either a new state for the identifier
is pending, expecting the sample count of the pane of `Further` with one sample finished, or, if
that count is 1, a panorama is emitted again at once. -/
theorem sample_after_completion_starts_new_frame (E : FEngine K) (Blender : FPanoramicBlender K)
    (Key : FMoviePipelineFrameOutputState) (Earlier : List (FImagePixelData K))
    (Last First Further : FImagePixelData K)
    (hAbsent : FindPendingFrame Blender.PendingData Key.OutputFrameNumber = none)
    (hSupported : ∀ InData ∈ Earlier ++ [Last, Further], InData.PixelType ≠ EImagePixelType.Color)
    (hKey : ∀ InData ∈ Earlier,
      InData.Payload.SampleState.OutputState.OutputFrameNumber = Key.OutputFrameNumber →
      InData.Payload.SampleState.OutputState = Key)
    (hLast : Last.Payload.SampleState.OutputState = Key)
    (hFurther : Further.Payload.SampleState.OutputState = Key)
    (hFirst : FirstOfFrame (Earlier ++ [Last]) Key.OutputFrameNumber = some First)
    (hCount : CountOfFrame Earlier Key.OutputFrameNumber + 1 = TotalSampleCount First.Payload.Pane) :
    ∃ Completed CallsBefore After Calls,
      DeliverSamples E Blender (Earlier ++ [Last]) = some (Completed, CallsBefore) ∧
      FindPendingFrame Completed.PendingData Key.OutputFrameNumber = none ∧
      OnCompleteRenderPassDataAvailable_AnyThread E Completed Further = some (After, Calls) ∧
      (TotalSampleCount Further.Payload.Pane ≠ 1 →
        PanoramaCalls Calls = [] ∧
        ∃ Frame, FindPendingFrame After.PendingData Key.OutputFrameNumber = some (Key, Frame) ∧
          Frame.NumSamplesTotal = TotalSampleCount Further.Payload.Pane ∧
          NumFinishedSamples Frame.BlendedData = 1) ∧
      (TotalSampleCount Further.Payload.Pane = 1 →
        ∃ Size Data, PanoramaCalls Calls =
          [FMergerCall.OnCompleteRenderPassDataAvailable Size Data Further.Payload]) := by
  have hprog0 : FrameProgress Blender Key (TotalSampleCount First.Payload.Pane) 0 :=
    Or.inl ⟨rfl, (FindPendingFrame_none_iff _ _).mp hAbsent⟩
  have hFirstE : ∀ F, FirstOfFrame Earlier Key.OutputFrameNumber = some F → F = First := by
    intro F hF
    unfold FirstOfFrame at hF hFirst
    rw [List.find?_append, hF] at hFirst
    simpa using hFirst
  obtain ⟨B1, C1, h1, hprog1, _⟩ := run_before_completion E Key
    (TotalSampleCount First.Payload.Pane) Earlier Blender 0
    (fun x hx => hSupported x (List.mem_append_left _ hx)) hKey hprog0
    (fun _ F hF => by rw [hFirstE F hF]) (by omega)
  obtain ⟨B2, C2, h2⟩ := submit_total E B1 Last (hSupported Last (by simp))
  rw [zero_add] at hprog1
  have hprog1' : FrameProgress B1 Last.Payload.SampleState.OutputState
      (TotalSampleCount First.Payload.Pane) (CountOfFrame Earlier Key.OutputFrameNumber) := by
    rw [hLast]; exact hprog1
  have hN : CountOfFrame Earlier Key.OutputFrameNumber = 0 →
      TotalSampleCount Last.Payload.Pane = TotalSampleCount First.Payload.Pane := by
    intro h0
    have hnone : FirstOfFrame Earlier Key.OutputFrameNumber = none := by
      unfold CountOfFrame at h0
      unfold FirstOfFrame
      have h0' := List.length_eq_zero.mp (Int.natCast_eq_zero.mp h0)
      rw [List.find?_eq_none]
      intro x hx hp
      have : x ∈ ([] : List (FImagePixelData K)) := by
        rw [← h0']; exact List.mem_filter.mpr ⟨hx, hp⟩
      exact absurd this (List.not_mem_nil _)
    unfold FirstOfFrame at hnone hFirst
    rw [List.find?_append, hnone] at hFirst
    simp only [Option.or, List.find?_cons, hLast, decide_True] at hFirst
    rw [Option.some.injEq] at hFirst
    rw [hFirst]
  obtain ⟨T, _, hc⟩ := submit_same_frame E B1 B2 Last C2 _ _ hprog1' hN h2
  have hgone : PendingOfFrame B2.PendingData Key.OutputFrameNumber = [] := by
    rcases hc with ⟨_, hp, _⟩ | ⟨hnot, _, _, _⟩
    · rw [hLast] at hp; exact hp
    · exact absurd hCount hnot
  obtain ⟨B3, C3, h3⟩ := submit_total E B2 Further (hSupported Further (by simp))
  refine ⟨B2, C1 ++ C2, B3, C3, DeliverSamples_snoc E Earlier Blender B1 B2 Last C1 C2 h1 h2,
    (FindPendingFrame_none_iff _ _).mpr hgone, h3, ?_⟩
  have hprog2 : FrameProgress B2 Further.Payload.SampleState.OutputState
      (TotalSampleCount Further.Payload.Pane) 0 := by
    rw [hFurther]; exact Or.inl ⟨rfl, hgone⟩
  obtain ⟨T3, _, hc3⟩ := submit_same_frame E B2 B3 Further C3 _ _ hprog2 (fun _ => rfl) h3
  rcases hc3 with ⟨hone, _, hcalls⟩ | ⟨hnot, hprog3, hpend, hcalls⟩
  · refine ⟨fun hne => absurd (by omega) hne, fun _ =>
      ⟨OutputSize B2.OutputEquirectangularMapSize Further.Payload.Pane,
        NormalizeMap Further.Payload.Pane.bIncludeAlpha (SharedAfterMerge E B2 Further T3).Data
          (SharedAfterMerge E B2 Further T3).AlphaArray, ?_⟩⟩
    rw [hcalls]
    unfold PanoramaCalls
    rw [List.filter_append]
    have := PanoramaCalls_DebugCalls E B2 Further T3
    unfold PanoramaCalls at this
    rw [this]
    rfl
  · refine ⟨fun _ => ⟨?_, ?_⟩, fun h1 => absurd (by omega) hnot⟩
    · rw [hcalls]; exact PanoramaCalls_DebugCalls E B2 Further T3
    · rw [hFurther] at hpend
      refine ⟨UpdatedOutputFrame E B2 Further T3, ?_, ?_, ?_⟩
      · rw [FindPendingFrame_eq_head, hpend]; rfl
      · show (ResolveOutputFrame B2 Further).NumSamplesTotal = _
        rw [ResolveOutputFrame_eq, hFurther, hgone]; rfl
      · show NumFinishedSamples (FinishedBlendedData E B2 Further) = 1
        rw [NumFinishedSamples_FinishedBlendedData, ResolveOutputFrame_eq, hFurther, hgone]
        rfl

theorem sample_after_completion_starts_new_frame_witness :
    ∃ Completed CallsBefore After Calls,
      DeliverSamples RationalEngine (NewBlender ⟨8, 4⟩) ([TwoTileSample] ++ [TwoTileSample]) =
        some (Completed, CallsBefore) ∧
      FindPendingFrame Completed.PendingData 7 = none ∧
      OnCompleteRenderPassDataAvailable_AnyThread RationalEngine Completed TwoTileSample =
        some (After, Calls) ∧
      PanoramaCalls Calls = [] ∧
      ∃ Frame, FindPendingFrame After.PendingData 7 = some (⟨7, 0⟩, Frame) ∧
        Frame.NumSamplesTotal = 2 ∧ NumFinishedSamples Frame.BlendedData = 1 := by
  obtain ⟨B, CB, A, C, h1, h2, h3, h4, _⟩ :=
    sample_after_completion_starts_new_frame RationalEngine (NewBlender ⟨8, 4⟩) ⟨7, 0⟩
      [TwoTileSample] TwoTileSample TwoTileSample TwoTileSample rfl
      (by
        intro x hx
        simp only [List.mem_append, List.mem_cons, List.mem_singleton, List.not_mem_nil,
          or_false, or_self] at hx
        rw [hx]
        simp [TwoTileSample, ExampleSample])
      (by
        intro x hx _
        rw [List.mem_singleton.mp hx]
        rfl)
      rfl rfl rfl (by decide)
  obtain ⟨h5, h6⟩ := h4 (by decide)
  exact ⟨B, CB, A, C, h1, h2, h3, h5, h6⟩

theorem foldlM_none_of_mem {σ α : Type} (f : σ → α → Option σ) (a : α)
    (ha : ∀ s, f s a = none) : ∀ (l : List α), a ∈ l → ∀ s, l.foldlM f s = none := by
  intro l
  induction l with
  | nil => intro h; exact absurd h (List.not_mem_nil _)
  | cons b l ih =>
    intro h s
    rw [List.foldlM_cons]
    cases hb : f s b with
    | none => rfl
    | some t =>
      rcases List.mem_cons.mp h with rfl | h'
      · rw [ha s] at hb; exact absurd hb (by simp)
      · exact ih h' t

theorem foldlM_some_of_forall {σ α : Type} (f : σ → α → Option σ) (s : σ) :
    ∀ (l : List α), (∀ a ∈ l, f s a = some s) → l.foldlM f s = some s := by
  intro l
  induction l with
  | nil => intro _; rfl
  | cons b l ih =>
    intro h
    rw [List.foldlM_cons, h b (List.mem_cons_self _ _)]
    exact ih (fun a ha => h a (List.mem_cons_of_mem _ ha))

theorem BlendPixel_unsupported (E : FEngine K) (MapSize : FIntPoint) (InData : FImagePixelData K)
    (X Y : Int) (Target : FBlendBuffers K) (hT : InData.PixelType = EImagePixelType.Color)
    (hw : SampleWeightSquared E MapSize InData.Payload.Pane X Y > KINDA_SMALL_NUMBER) :
    BlendPixel E MapSize InData X Y Target = none := by
  unfold BlendPixel
  simp only [hw, if_true]
  have : GetColorBilinearFiltered InData
      (DirectionInSampleScreenSpace E MapSize InData.Payload.Pane X Y) false
      InData.Payload.Pane.bIncludeAlpha = none := by
    unfold GetColorBilinearFiltered FetchPixel
    simp only [hT]
  rw [this]

theorem BlendPixel_below_threshold (E : FEngine K) (MapSize : FIntPoint)
    (InData : FImagePixelData K) (X Y : Int) (Target : FBlendBuffers K)
    (hw : ¬ SampleWeightSquared E MapSize InData.Payload.Pane X Y > KINDA_SMALL_NUMBER) :
    BlendPixel E MapSize InData X Y Target = some Target := by
  unfold BlendPixel
  simp only [hw, if_false]

theorem BlendSample_eq_none_iff (E : FEngine K) (MapSize : FIntPoint) (InData : FImagePixelData K) :
    BlendSample E MapSize InData = none ↔
      InData.PixelType = EImagePixelType.Color ∧
        ∃ Y ∈ LoopRange (PixelIndexVertMinBound E MapSize InData.Payload.Pane)
            (PixelIndexVertMaxBound E MapSize InData.Payload.Pane),
          ∃ X ∈ LoopRange (PixelIndexHorzMinBound E MapSize InData.Payload.Pane)
              (PixelIndexHorzMaxBound E MapSize InData.Payload.Pane),
            SampleWeightSquared E MapSize InData.Payload.Pane X Y > KINDA_SMALL_NUMBER := by
  constructor
  · intro hnone
    by_cases hT : InData.PixelType = EImagePixelType.Color
    · refine ⟨hT, ?_⟩
      by_contra hno
      simp only [not_exists, not_and] at hno
      have : BlendSample E MapSize InData = some (NewBlendBuffers E MapSize InData.Payload.Pane) := by
        unfold BlendSample
        apply foldlM_some_of_forall
        intro Y hY
        unfold BlendRow
        apply foldlM_some_of_forall
        intro X hX
        exact BlendPixel_below_threshold E MapSize InData X Y _ (hno Y hY X hX)
      rw [this] at hnone
      exact absurd hnone (by simp)
    · obtain ⟨T, hT'⟩ := BlendSample_supported E MapSize InData hT
      rw [hT'] at hnone
      exact absurd hnone (by simp)
  · rintro ⟨hT, Y, hY, X, hX, hw⟩
    unfold BlendSample
    apply foldlM_none_of_mem _ Y _ _ hY
    intro s
    unfold BlendRow
    apply foldlM_none_of_mem _ X _ _ hX
    intro s'
    exact BlendPixel_unsupported E MapSize InData X Y s' hT hw

/-- C10, counterexample: a sample whose pane has an expected sample count of 0 is not rejected;
the call succeeds and creates a pending frame state (expecting 0 samples, 1 finished). -/
theorem malformed_pane_is_accepted :
    TotalSampleCount MalformedSample.Payload.Pane = 0 ∧
    (OnCompleteRenderPassDataAvailable_AnyThread RationalEngine (NewBlender ⟨8, 4⟩)
        MalformedSample).map RunSummary = some ([(⟨7, 0⟩, 0, 1)], 0) := by
  decide!

/-! ## The seam of the map -/

/-- C4, the code at a failing input: on an 8 by 4 map the tile at yaw 180 and pitch 45 degrees
with a field of view of 135 degrees has the rectangle columns 6, 7, 8. Loop column 8 is output
column 0 and its weight passes the threshold, but its contribution is written to intermediate
column 0, which the merge adds to output column 6 (index 14 in row 1), the column of loop
column 6, whose own weight is below the threshold. In the emitted panorama the pixel of row 1,
column 0 (index 8) has no weight and the pixel of row 1, column 6 has. -/
theorem seam_contribution_merged_into_wrong_column :
    (PixelIndexHorzMinBound RationalEngine ⟨8, 4⟩ SeamPane,
        PixelIndexHorzMaxBound RationalEngine ⟨8, 4⟩ SeamPane) = (6, 9) ∧
    PositiveMod 8 8 = 0 ∧
    SampleWeightSquared RationalEngine ⟨8, 4⟩ SeamPane 8 1 > KINDA_SMALL_NUMBER ∧
    ¬ SampleWeightSquared RationalEngine ⟨8, 4⟩ SeamPane 6 1 > KINDA_SMALL_NUMBER ∧
    SampleOutputX 8 6 3 8 = 0 ∧
    DestIndex ⟨8, 4⟩ ⟨6, 0⟩ (SampleOutputX 8 6 3 8) 1 = 14 ∧
    (OnCompleteRenderPassDataAvailable_AnyThread RationalEngine (NewBlender ⟨8, 4⟩)
        SeamSample).map (fun Result => Result.2.map (PanoramaPixels [8, 14])) =
      some [[some ⟨none, none, none, some 1⟩,
        some ⟨some (1 / 2), some (1 / 2), some (1 / 2), some 1⟩]] := by
  decide!

/-! ## Abandoning -/

/-- C11, counterexample: a blender in which frame 7 is pending (one of two samples delivered)
is asked to abandon its work; the call does not return normally and in particular does not
produce a blender without pending frames. -/
theorem abandon_does_not_return :
    (DeliverSamples RationalEngine (NewBlender ⟨8, 4⟩) [TwoTileSample]).map RunSummary =
      some ([(⟨7, 0⟩, 2, 1)], 0) ∧
    ((DeliverSamples RationalEngine (NewBlender ⟨8, 4⟩) [TwoTileSample]).bind
        (fun Result => AbandonOutstandingWork Result.1)).map RunSummary = none := by
  decide!

/-- C11, as the code behaves: for every state of the blender, `AbandonOutstandingWork` fails its
unconditional `check(0)`: it does not return normally, so it neither discards a pending frame
nor makes a call on the output merger. -/
theorem abandon_always_fails_its_check (Blender : FPanoramicBlender K) :
    AbandonOutstandingWork Blender = none := by
  rfl

/-! ## Field of view -/

/-- C13: for `H ≥ 1` horizontal steps and an overlap of `p` percent, `GetFieldOfView` returns the
horizontal field of view `min(360 / H × (1 + p / 100), 179)` when `HorzFieldOfView` is 0, and
the override when it is positive. -/
theorem horizontal_field_of_view (Pass : UPanoramicPass K) (hH : 1 ≤ Pass.NumHorizontalSteps) :
    (Pass.HorzFieldOfView = 0 →
      (GetFieldOfView Pass).1 =
        min (360 / (Pass.NumHorizontalSteps : K) * (1 + (Pass.OverlapPercentage : K) / 100)) 179) ∧
    (0 < Pass.HorzFieldOfView → (GetFieldOfView Pass).1 = Pass.HorzFieldOfView) := by
  constructor
  · intro h0
    have hnot : ¬ Pass.HorzFieldOfView > 0 := by rw [h0]; exact lt_irrefl 0
    simp only [GetFieldOfView, hnot, if_false]
    rw [mul_one_div]
  · intro hpos
    simp only [GetFieldOfView, gt_iff_lt, hpos, if_true]

theorem horizontal_field_of_view_witness :
    ((ExamplePass false 4 2 50).HorzFieldOfView = 0 →
      (GetFieldOfView (ExamplePass false 4 2 50)).1 =
        min (360 / ((4 : Int) : ℚ) * (1 + ((50 : Int) : ℚ) / 100)) 179) ∧
    (0 < (ExamplePass false 4 2 50).HorzFieldOfView →
      (GetFieldOfView (ExamplePass false 4 2 50)).1 = (ExamplePass false 4 2 50).HorzFieldOfView) :=
  horizontal_field_of_view (ExamplePass false 4 2 50) (by decide)

/-- C14, the code at a failing input: with 7 vertical steps, an overlap of 50 percent and no
override, the quotient `180 / 7` of two integers is 25, and `GetFieldOfView` returns the vertical
field of view 25 × 1.5 = 37.5, not `min(180 / 7 × 1.5, 179) = 270 / 7`; with 8 steps it returns
22 × 1.5 = 33, not 33.75. -/
theorem vertical_field_of_view_truncates :
    (GetFieldOfView (ExamplePass false 4 7 50)).2 = 75 / 2 ∧
    min ((180 : ℚ) / 7 * (1 + 50 / 100)) 179 = 270 / 7 ∧
    (GetFieldOfView (ExamplePass false 4 8 50)).2 = 33 ∧
    min ((180 : ℚ) / 8 * (1 + 50 / 100)) 179 = 135 / 4 := by
  decide!

/-! ## Tile layout -/

theorem DistributeLoop_state (Delta Start : K) (n : Nat) :
    (List.map (fun (i : Nat) => (0 : Int) + (i : Int)) (List.range n)).foldl
        (fun (State : List K × K) _ => (State.1 ++ [State.2], State.2 + Delta)) ([], Start) =
      ((List.range n).map (fun (i : Nat) => Start + (i : K) * Delta), Start + (n : K) * Delta) := by
  induction n with
  | zero => simp
  | succ n ih =>
    rw [List.range_succ, List.map_append, List.foldl_append, ih]
    simp only [List.map_cons, List.map_nil, List.foldl_cons, List.foldl_nil, List.map_append,
      Prod.mk.injEq, true_and]
    push_cast
    ring

theorem DistributeLoop_eq (Delta Start : K) (N : Int) :
    DistributeLoop Delta N Start =
      (List.range N.toNat).map (fun (i : Nat) => Start + (i : K) * Delta) := by
  unfold DistributeLoop LoopRange
  rw [Int.sub_zero, DistributeLoop_state]

theorem DistributeLoop_nonpositive (Delta Start : K) (N : Int) (hN : N ≤ 0) :
    DistributeLoop Delta N Start = [] := by
  rw [DistributeLoop_eq, Int.toNat_of_nonpos hN]
  rfl

theorem HorizontalDistribute_eq (H : Int) (hH : 1 ≤ H) :
    HorizontalDistributeValuesInInterval (0 : K) 360 H =
      (List.range H.toNat).map (fun (i : Nat) => (i : K) * (360 / (H : K))) := by
  unfold HorizontalDistributeValuesInInterval
  simp only [DistributeLoop_eq, max_eq_left hH, sub_zero, zero_add]

/-- C15: for `H ≥ 1`, `HorizontalDistributeValuesInInterval(0, 360, H)` returns exactly `H`
values; the `i`-th (`0 ≤ i < H`) is `i × 360 / H` and lies in `[0, 360)`; the first is 0 and
consecutive values differ by `360 / H`. -/
theorem horizontal_steps_evenly_spaced (H : Int) (hH : 1 ≤ H) :
    ((HorizontalDistributeValuesInInterval (0 : K) 360 H).length : Int) = H ∧
    (HorizontalDistributeValuesInInterval (0 : K) 360 H)[0]? = some 0 ∧
    (∀ i : Nat, (i : Int) < H →
      (HorizontalDistributeValuesInInterval (0 : K) 360 H)[i]? = some ((i : K) * (360 / (H : K))) ∧
      (0 : K) ≤ (i : K) * (360 / (H : K)) ∧ (i : K) * (360 / (H : K)) < 360) ∧
    (∀ (i : Nat) (a b : K),
      (HorizontalDistributeValuesInInterval (0 : K) 360 H)[i]? = some a →
      (HorizontalDistributeValuesInInterval (0 : K) 360 H)[i + 1]? = some b →
      b - a = 360 / (H : K)) := by
  rw [HorizontalDistribute_eq H hH]
  have hHpos : (0 : K) < (H : K) := by exact_mod_cast (by omega : (0 : Int) < H)
  have hget : ∀ i : Nat, (i : Int) < H →
      ((List.range H.toNat).map (fun (i : Nat) => (i : K) * (360 / (H : K))))[i]? =
        some ((i : K) * (360 / (H : K))) := by
    intro i hi
    have : i < H.toNat := by omega
    rw [List.getElem?_map, List.getElem?_range this]
    rfl
  refine ⟨?_, ?_, ?_, ?_⟩
  · rw [List.length_map, List.length_range]
    exact Int.toNat_of_nonneg (by omega)
  · rw [hget 0 (by omega)]
    simp
  · intro i hi
    refine ⟨hget i hi, by positivity, ?_⟩
    have hiK : (i : K) < (H : K) := by exact_mod_cast hi
    rw [mul_div_assoc', div_lt_iff₀ hHpos]
    nlinarith
  · intro i a b ha hb
    have hi1 : i + 1 < H.toNat := by
      by_contra hcon
      rw [List.getElem?_map, List.getElem?_eq_none (by simpa using hcon)] at hb
      exact absurd hb (by simp)
    have hi : i < H.toNat := by omega
    rw [List.getElem?_map, List.getElem?_range hi] at ha
    rw [List.getElem?_map, List.getElem?_range hi1] at hb
    simp only [Option.map_some', Option.some.injEq] at ha hb
    rw [← ha, ← hb]
    push_cast
    ring

theorem horizontal_steps_evenly_spaced_witness :
    ((HorizontalDistributeValuesInInterval (0 : ℚ) 360 6).length : Int) = 6 ∧
    (HorizontalDistributeValuesInInterval (0 : ℚ) 360 6)[0]? = some 0 ∧
    (∀ i : Nat, (i : Int) < 6 →
      (HorizontalDistributeValuesInInterval (0 : ℚ) 360 6)[i]? =
        some ((i : ℚ) * (360 / ((6 : Int) : ℚ))) ∧
      (0 : ℚ) ≤ (i : ℚ) * (360 / ((6 : Int) : ℚ)) ∧ (i : ℚ) * (360 / ((6 : Int) : ℚ)) < 360) ∧
    (∀ (i : Nat) (a b : ℚ),
      (HorizontalDistributeValuesInInterval (0 : ℚ) 360 6)[i]? = some a →
      (HorizontalDistributeValuesInInterval (0 : ℚ) 360 6)[i + 1]? = some b →
      b - a = 360 / ((6 : Int) : ℚ)) :=
  horizontal_steps_evenly_spaced 6 (by decide)

/-- C16, counterexample: `VerticalDistributeValuesInInterval(-90, 90, V)` starts at
`-InMin + Delta / 2 = 90 + Delta / 2`; for 2 steps it returns 135 and 225 and for 3 steps 120,
180 and 240, not the band centres -45, 45 and -60, 0, 60 inside `[-90, 90]`. -/
theorem vertical_steps_start_at_minus_min :
    VerticalDistributeValuesInInterval (-90 : ℚ) 90 2 = [135, 225] ∧
    VerticalDistributeValuesInInterval (-90 : ℚ) 90 3 = [120, 180, 240] ∧
    ((List.range 2).map (fun (i : Nat) => (-90 : ℚ) + ((i : ℚ) + 1 / 2) * (180 / 2))) = [-45, 45] := by
  decide!

/-- C17, counterexample: for 0 divisions both functions return no value, while for 1 division
they return one; the pane set-up of a pass with 0 horizontal steps finds no yaw value for step
index 0. -/
theorem zero_steps_give_no_value :
    HorizontalDistributeValuesInInterval (0 : ℚ) 360 0 = [] ∧
    HorizontalDistributeValuesInInterval (0 : ℚ) 360 1 = [0] ∧
    VerticalDistributeValuesInInterval (-90 : ℚ) 90 0 = [] ∧
    VerticalDistributeValuesInInterval (-90 : ℚ) 90 1 = [180] ∧
    (GetCameraOrientationForStereo RationalPoseEngine
      (ExamplePane 0 0 0 1 0 0 (-1) false) false).isSome = false := by
  decide!

/-- C17, as the code behaves: `FMath::Max(InNumDivisions, 1)` clamps only the divisor of the step
width. For every step count `N ≤ 0` both layout functions return no value, and
`GetCameraOrientationForStereo` fails for every pane whose horizontal step count is `≤ 0`,
whatever its step indices: the lookup is outside the (empty) array. -/
theorem nonpositive_steps_give_no_value (P : FPoseEngine K) (InMin InMax : K) (N : Int)
    (InPane : FPanoPane K) (bInPrevPosition : Bool) (hN : N ≤ 0)
    (hPane : InPane.NumHorizontalSteps = N) :
    HorizontalDistributeValuesInInterval InMin InMax N = [] ∧
    VerticalDistributeValuesInInterval InMin InMax N = [] ∧
    GetCameraOrientationForStereo P InPane bInPrevPosition = none := by
  refine ⟨DistributeLoop_nonpositive _ _ N hN, DistributeLoop_nonpositive _ _ N hN, ?_⟩
  unfold GetCameraOrientationForStereo
  have hY : HorizontalDistributeValuesInInterval (0 : K) 360 InPane.NumHorizontalSteps = [] := by
    rw [hPane]; exact DistributeLoop_nonpositive _ _ N hN
  simp only [hY, StepValue]
  split <;> simp_all

theorem nonpositive_steps_give_no_value_witness :
    HorizontalDistributeValuesInInterval (0 : ℚ) 360 0 = [] ∧
    VerticalDistributeValuesInInterval (0 : ℚ) 360 0 = [] ∧
    GetCameraOrientationForStereo RationalPoseEngine (ExamplePane 0 0 0 1 0 0 (-1) false) true =
      none :=
  nonpositive_steps_give_no_value RationalPoseEngine 0 360 0 (ExamplePane 0 0 0 1 0 0 (-1) false)
    true (by decide) rfl

/-! ## Stereo eyes -/

theorem FVector.ext_components (a b : FVector K) (hX : a.X = b.X) (hY : a.Y = b.Y)
    (hZ : a.Z = b.Z) : a = b := by
  cases a; cases b; simp_all

theorem FVector.add_X (a b : FVector K) : (a + b).X = a.X + b.X := rfl

theorem FVector.add_Y (a b : FVector K) : (a + b).Y = a.Y + b.Y := rfl

theorem FVector.add_Z (a b : FVector K) : (a + b).Z = a.Z + b.Z := rfl

theorem FVector.sub_X (a b : FVector K) : (a - b).X = a.X - b.X := rfl

theorem FVector.sub_Y (a b : FVector K) : (a - b).Y = a.Y - b.Y := rfl

theorem FVector.sub_Z (a b : FVector K) : (a - b).Z = a.Z - b.Z := rfl

theorem TransformPosition_lateral (P : FPoseEngine K) (Rotation : FRotator K)
    (Translation : FVector K) (Offset : K) (hR : IsRigidRotation (P.RotateVector Rotation)) :
    TransformPosition P Rotation Translation ⟨0, Offset, 0⟩ =
      FVector.Scale (P.RotateVector Rotation ⟨0, 1, 0⟩) Offset + Translation := by
  unfold TransformPosition
  rw [← hR.2.1]
  simp [FVector.Scale]

theorem RationalYawRotation_rigid (t : ℚ) : IsRigidRotation (RationalYawRotation t) := by
  have ht : (1 + t ^ 2) ≠ 0 := by positivity
  refine ⟨?_, ?_, ?_⟩
  · intro a b
    apply FVector.ext_components
    · simp only [RationalYawRotation, FVector.add_X, FVector.add_Y]; ring
    · simp only [RationalYawRotation, FVector.add_X, FVector.add_Y]; ring
    · simp only [RationalYawRotation, FVector.add_Z]
  · intro v s
    apply FVector.ext_components
    · simp only [RationalYawRotation, FVector.Scale]; ring
    · simp only [RationalYawRotation, FVector.Scale]; ring
    · simp only [RationalYawRotation, FVector.Scale]
  · intro v
    simp only [RationalYawRotation, FVector.SizeSquared]
    field_simp
    ring

/-- C18: for a stereo pass with eye separation `s ≥ 0` and an engine whose rotations are rigid, the
pane set-up places eye 0 at the sequence camera position plus `s / 2` times the camera's rotated
Y axis and eye 1 at the position minus `s / 2` times that axis; the midpoint of the two eyes is the
camera position and their squared distance is `s * s`. The same holds for the previous-frame
pose. -/
theorem stereo_eyes_offset_along_right_axis (P : FPoseEngine K) (Pass : UPanoramicPass K)
    (FrameInfo : FFrameInfo K) (hRigid : ∀ Rotation, IsRigidRotation (P.RotateVector Rotation))
    (hStereo : Pass.bStereo = true) (hs : 0 ≤ Pass.EyeSeparation) :
    ∃ L0 PL0 R0 PR0 L1 PL1 R1 PR1,
      OriginalCameraPose P Pass FrameInfo 0 = some (L0, PL0, R0, PR0) ∧
      OriginalCameraPose P Pass FrameInfo 1 = some (L1, PL1, R1, PR1) ∧
      L0 = FrameInfo.CurrViewLocation +
        FVector.Scale (P.RotateVector FrameInfo.CurrViewRotation ⟨0, 1, 0⟩) (Pass.EyeSeparation / 2) ∧
      L1 = FrameInfo.CurrViewLocation -
        FVector.Scale (P.RotateVector FrameInfo.CurrViewRotation ⟨0, 1, 0⟩) (Pass.EyeSeparation / 2) ∧
      FVector.Scale (L0 + L1) (1 / 2) = FrameInfo.CurrViewLocation ∧
      FVector.SizeSquared (L0 - L1) = Pass.EyeSeparation * Pass.EyeSeparation ∧
      PL0 = FrameInfo.PrevViewLocation +
        FVector.Scale (P.RotateVector FrameInfo.PrevViewRotation ⟨0, 1, 0⟩) (Pass.EyeSeparation / 2) ∧
      PL1 = FrameInfo.PrevViewLocation -
        FVector.Scale (P.RotateVector FrameInfo.PrevViewRotation ⟨0, 1, 0⟩) (Pass.EyeSeparation / 2) ∧
      FVector.Scale (PL0 + PL1) (1 / 2) = FrameInfo.PrevViewLocation ∧
      FVector.SizeSquared (PL0 - PL1) = Pass.EyeSeparation * Pass.EyeSeparation := by
  have hpose : ∀ i : Int, i = 0 ∨ i = 1 → ∃ R PR,
      OriginalCameraPose P Pass FrameInfo i =
        some (TransformPosition P FrameInfo.CurrViewRotation FrameInfo.CurrViewLocation
            ⟨0, StereoEyeOffset Pass i, 0⟩,
          TransformPosition P FrameInfo.PrevViewRotation FrameInfo.PrevViewLocation
            ⟨0, StereoEyeOffset Pass i, 0⟩, R, PR) := by
    intro i hi
    have hne : i ≠ -1 := by omega
    unfold OriginalCameraPose
    simp only [StereoIndex, hStereo, if_true, hne, if_false, Check, hi, decide_True]
    by_cases hconv : Pass.bEyeConvergenceDistance = true
    · simp only [hconv, if_true]
      exact ⟨_, _, rfl⟩
    · simp only [hconv]
      exact ⟨_, _, rfl⟩
  have hunit : ∀ Rotation, FVector.SizeSquared (P.RotateVector Rotation ⟨0, 1, 0⟩) = 1 := by
    intro Rotation
    rw [(hRigid Rotation).2.2]
    simp [FVector.SizeSquared]
  have hgeom : ∀ (Loc A : FVector K) (s : K), FVector.SizeSquared A = 1 →
      FVector.Scale A (s / 2) + Loc = Loc + FVector.Scale A (s / 2) ∧
      FVector.Scale A (-s / 2) + Loc = Loc - FVector.Scale A (s / 2) ∧
      FVector.Scale ((FVector.Scale A (s / 2) + Loc) + (FVector.Scale A (-s / 2) + Loc)) (1 / 2) =
        Loc ∧
      FVector.SizeSquared ((FVector.Scale A (s / 2) + Loc) - (FVector.Scale A (-s / 2) + Loc)) =
        s * s := by
    intro Loc A s hA
    refine ⟨?_, ?_, ?_, ?_⟩
    · apply FVector.ext_components <;>
        simp only [FVector.add_X, FVector.add_Y, FVector.add_Z, FVector.Scale] <;> ring
    · apply FVector.ext_components <;>
        simp only [FVector.add_X, FVector.add_Y, FVector.add_Z, FVector.sub_X, FVector.sub_Y,
          FVector.sub_Z, FVector.Scale] <;> ring
    · apply FVector.ext_components <;>
        simp only [FVector.add_X, FVector.add_Y, FVector.add_Z, FVector.Scale] <;> ring
    · simp only [FVector.SizeSquared] at hA ⊢
      simp only [FVector.add_X, FVector.add_Y, FVector.add_Z, FVector.sub_X, FVector.sub_Y,
        FVector.sub_Z, FVector.Scale]
      linear_combination (s * s) * hA
  obtain ⟨R0, PR0, h0⟩ := hpose 0 (Or.inl rfl)
  obtain ⟨R1, PR1, h1⟩ := hpose 1 (Or.inr rfl)
  have e0 : StereoEyeOffset Pass 0 = Pass.EyeSeparation / 2 := by simp [StereoEyeOffset]
  have e1 : StereoEyeOffset Pass 1 = -Pass.EyeSeparation / 2 := by simp [StereoEyeOffset]
  rw [e0, TransformPosition_lateral P _ _ _ (hRigid _),
    TransformPosition_lateral P _ _ _ (hRigid _)] at h0
  rw [e1, TransformPosition_lateral P _ _ _ (hRigid _),
    TransformPosition_lateral P _ _ _ (hRigid _)] at h1
  obtain ⟨c1, c2, c3, c4⟩ := hgeom FrameInfo.CurrViewLocation _ Pass.EyeSeparation
    (hunit FrameInfo.CurrViewRotation)
  obtain ⟨p1, p2, p3, p4⟩ := hgeom FrameInfo.PrevViewLocation _ Pass.EyeSeparation
    (hunit FrameInfo.PrevViewRotation)
  exact ⟨_, _, R0, PR0, _, _, R1, PR1, h0, h1, c1, c2, c3, c4, p1, p2, p3, p4⟩

theorem stereo_eyes_offset_along_right_axis_witness :
    (∀ Rotation, IsRigidRotation (RationalPoseEngine.RotateVector Rotation)) ∧
    (ExamplePass true 4 2 50).bStereo = true ∧ 0 ≤ (ExamplePass true 4 2 50).EyeSeparation ∧
    ∃ L0 PL0 R0 PR0 L1 PL1 R1 PR1,
      OriginalCameraPose RationalPoseEngine (ExamplePass true 4 2 50) ExampleFrameInfo 0 =
        some (L0, PL0, R0, PR0) ∧
      OriginalCameraPose RationalPoseEngine (ExamplePass true 4 2 50) ExampleFrameInfo 1 =
        some (L1, PL1, R1, PR1) ∧
      L0 = ExampleFrameInfo.CurrViewLocation +
        FVector.Scale (RationalPoseEngine.RotateVector ExampleFrameInfo.CurrViewRotation ⟨0, 1, 0⟩)
          ((ExamplePass true 4 2 50).EyeSeparation / 2) ∧
      L1 = ExampleFrameInfo.CurrViewLocation -
        FVector.Scale (RationalPoseEngine.RotateVector ExampleFrameInfo.CurrViewRotation ⟨0, 1, 0⟩)
          ((ExamplePass true 4 2 50).EyeSeparation / 2) ∧
      FVector.Scale (L0 + L1) (1 / 2) = ExampleFrameInfo.CurrViewLocation ∧
      FVector.SizeSquared (L0 - L1) =
        (ExamplePass true 4 2 50).EyeSeparation * (ExamplePass true 4 2 50).EyeSeparation ∧
      PL0 = ExampleFrameInfo.PrevViewLocation +
        FVector.Scale (RationalPoseEngine.RotateVector ExampleFrameInfo.PrevViewRotation ⟨0, 1, 0⟩)
          ((ExamplePass true 4 2 50).EyeSeparation / 2) ∧
      PL1 = ExampleFrameInfo.PrevViewLocation -
        FVector.Scale (RationalPoseEngine.RotateVector ExampleFrameInfo.PrevViewRotation ⟨0, 1, 0⟩)
          ((ExamplePass true 4 2 50).EyeSeparation / 2) ∧
      FVector.Scale (PL0 + PL1) (1 / 2) = ExampleFrameInfo.PrevViewLocation ∧
      FVector.SizeSquared (PL0 - PL1) =
        (ExamplePass true 4 2 50).EyeSeparation * (ExamplePass true 4 2 50).EyeSeparation :=
  ⟨fun Rotation => RationalYawRotation_rigid _, rfl, by decide!,
    stereo_eyes_offset_along_right_axis RationalPoseEngine (ExamplePass true 4 2 50)
      ExampleFrameInfo (fun Rotation => RationalYawRotation_rigid _) rfl (by decide!)⟩

/-- C19, the code at a failing input: with an eye separation of 6.5 and a convergence distance of
195, eye 0 is displaced by +3.25 along the camera's Y axis and its yaw angle
`atan(EyeOffset / EyeConvergenceDistance)` is positive, eye 1 is displaced by -3.25 and its yaw
angle is negative; each eye's rotation is the camera's yawed by that angle, so the forward axis of
each eye has a positive component along the eye's own displacement from the camera: both eyes are
turned away from each other. -/
theorem convergence_yaw_turns_eyes_outward :
    StereoEyeOffset (ExamplePass true 4 2 50) 0 = 13 / 4 ∧
    StereoEyeOffset (ExamplePass true 4 2 50) 1 = -(13 / 4) ∧
    StereoEyeAngle RationalPoseEngine (ExamplePass true 4 2 50) 0 =
      RadiansToDegrees RationalPoseEngine (RationalAtan (13 / 4 / 195)) ∧
    0 < StereoEyeAngle RationalPoseEngine (ExamplePass true 4 2 50) 0 ∧
    StereoEyeAngle RationalPoseEngine (ExamplePass true 4 2 50) 1 =
      -StereoEyeAngle RationalPoseEngine (ExamplePass true 4 2 50) 0 ∧
    (OriginalCameraPose RationalPoseEngine (ExamplePass true 4 2 50) ExampleFrameInfo 0).map
        (fun Pose => (Pose.2.2.1.Yaw - ExampleFrameInfo.CurrViewRotation.Yaw,
          decide (0 < DotProduct (RationalPoseEngine.RotateVector Pose.2.2.1 ⟨1, 0, 0⟩)
            (Pose.1 - ExampleFrameInfo.CurrViewLocation)))) =
      some (StereoEyeAngle RationalPoseEngine (ExamplePass true 4 2 50) 0, true) ∧
    (OriginalCameraPose RationalPoseEngine (ExamplePass true 4 2 50) ExampleFrameInfo 1).map
        (fun Pose => (Pose.2.2.1.Yaw - ExampleFrameInfo.CurrViewRotation.Yaw,
          decide (0 < DotProduct (RationalPoseEngine.RotateVector Pose.2.2.1 ⟨1, 0, 0⟩)
            (Pose.1 - ExampleFrameInfo.CurrViewLocation)))) =
      some (StereoEyeAngle RationalPoseEngine (ExamplePass true 4 2 50) 1, true) := by
  decide!

/-! ## Fields of the panes set up by the pane loop -/

theorem SetupPane_VerticalFieldOfView (P : FPoseEngine K) (Pass : UPanoramicPass K)
    (FrameInfo : FFrameInfo K) (PaneResolution : FIntPoint) (MinZ : K)
    (EyeLoopIndex VerticalStepIndex HorizontalStepIndex : Int) (Pane : FPanoPane K)
    (h : SetupPane P Pass FrameInfo PaneResolution MinZ EyeLoopIndex VerticalStepIndex
      HorizontalStepIndex = some Pane) :
    Pane.VerticalFieldOfView = (GetFieldOfView Pass).2 := by
  unfold SetupPane at h
  split at h
  · exact absurd h (by simp)
  · dsimp only at h
    split at h
    · simp only [Option.some.injEq] at h
      rw [← h]
    · exact absurd h (by simp)

/-! ## Outstanding frames -/

theorem CountOfFrame_append (A B : List (FImagePixelData K)) (n : Int) :
    CountOfFrame (A ++ B) n = CountOfFrame A n + CountOfFrame B n := by
  simp [CountOfFrame, List.filter_append]

theorem CountOfFrame_eq_zero_iff (Samples : List (FImagePixelData K)) (n : Int) :
    CountOfFrame Samples n = 0 ↔
      ∀ InData ∈ Samples, InData.Payload.SampleState.OutputState.OutputFrameNumber ≠ n := by
  simp [CountOfFrame, List.filter_eq_nil_iff]

theorem FirstOfFrame_eq_none_iff (Samples : List (FImagePixelData K)) (n : Int) :
    FirstOfFrame Samples n = none ↔ CountOfFrame Samples n = 0 := by
  rw [CountOfFrame_eq_zero_iff]
  simp [FirstOfFrame, List.find?_eq_none]

theorem FirstOfFrame_some (Samples : List (FImagePixelData K)) (n : Int)
    (First : FImagePixelData K) (h : FirstOfFrame Samples n = some First) :
    First ∈ Samples ∧ First.Payload.SampleState.OutputState.OutputFrameNumber = n := by
  unfold FirstOfFrame at h
  exact ⟨List.mem_of_find?_eq_some h, by simpa using List.find?_some h⟩

theorem FirstOfFrame_append_of_some (A B : List (FImagePixelData K)) (n : Int)
    (First : FImagePixelData K) (h : FirstOfFrame A n = some First) :
    FirstOfFrame (A ++ B) n = some First := by
  unfold FirstOfFrame at h ⊢
  rw [List.find?_append, h]
  rfl

theorem FirstOfFrame_append_of_none (A B : List (FImagePixelData K)) (n : Int)
    (h : FirstOfFrame A n = none) : FirstOfFrame (A ++ B) n = FirstOfFrame B n := by
  unfold FirstOfFrame at h ⊢
  rw [List.find?_append, h]
  rfl

theorem ExpectedOfFrame_append_of_pos (A B : List (FImagePixelData K)) (n : Int)
    (h : 0 < CountOfFrame A n) : ExpectedOfFrame (A ++ B) n = ExpectedOfFrame A n := by
  cases hF : FirstOfFrame A n with
  | none => rw [FirstOfFrame_eq_none_iff] at hF; omega
  | some First => simp only [ExpectedOfFrame, FirstOfFrame_append_of_some A B n First hF, hF]

theorem ExpectedOfFrame_of_zero (A : List (FImagePixelData K)) (n : Int)
    (h : CountOfFrame A n = 0) : ExpectedOfFrame A n = 0 := by
  simp only [ExpectedOfFrame, (FirstOfFrame_eq_none_iff A n).mpr h]

theorem CountOfFrame_snoc_other (Samples : List (FImagePixelData K)) (InData : FImagePixelData K)
    (n : Int) (hne : InData.Payload.SampleState.OutputState.OutputFrameNumber ≠ n) :
    CountOfFrame (Samples ++ [InData]) n = CountOfFrame Samples n ∧
      FirstOfFrame (Samples ++ [InData]) n = FirstOfFrame Samples n ∧
      ExpectedOfFrame (Samples ++ [InData]) n = ExpectedOfFrame Samples n := by
  have hF : FirstOfFrame (Samples ++ [InData]) n = FirstOfFrame Samples n := by
    cases hS : FirstOfFrame Samples n with
    | none =>
      rw [FirstOfFrame_append_of_none Samples [InData] n hS, FirstOfFrame_cons_other InData [] n hne]
      rfl
    | some First => exact FirstOfFrame_append_of_some Samples [InData] n First hS
  refine ⟨?_, hF, ?_⟩
  · rw [CountOfFrame_append, CountOfFrame_cons_other InData [] n hne]
    simp [CountOfFrame]
  · simp only [ExpectedOfFrame, hF]

theorem CountOfFrame_snoc_same (Samples : List (FImagePixelData K)) (InData : FImagePixelData K) :
    CountOfFrame (Samples ++ [InData]) InData.Payload.SampleState.OutputState.OutputFrameNumber =
      CountOfFrame Samples InData.Payload.SampleState.OutputState.OutputFrameNumber + 1 := by
  rw [CountOfFrame_append, CountOfFrame_cons_same InData [] _ rfl]
  simp [CountOfFrame]

theorem PendingMatches_step (E : FEngine K) (Samples : List (FImagePixelData K))
    (Before After : FPanoramicBlender K) (InData : FImagePixelData K) (Calls : List (FMergerCall K))
    (hkey : ∀ First ∈ Samples,
      First.Payload.SampleState.OutputState.OutputFrameNumber =
        InData.Payload.SampleState.OutputState.OutputFrameNumber →
      First.Payload.SampleState.OutputState = InData.Payload.SampleState.OutputState)
    (hcount : CountOfFrame (Samples ++ [InData])
        InData.Payload.SampleState.OutputState.OutputFrameNumber ≤
      ExpectedOfFrame (Samples ++ [InData]) InData.Payload.SampleState.OutputState.OutputFrameNumber)
    (hinv : PendingMatches Before Samples)
    (h : OnCompleteRenderPassDataAvailable_AnyThread E Before InData = some (After, Calls)) :
    PendingMatches After (Samples ++ [InData]) := by
  intro n
  by_cases hn : InData.Payload.SampleState.OutputState.OutputFrameNumber = n
  · subst hn
    rw [CountOfFrame_snoc_same] at hcount ⊢
    have hc0 := CountOfFrame_nonneg Samples InData.Payload.SampleState.OutputState.OutputFrameNumber
    by_cases hc : CountOfFrame Samples InData.Payload.SampleState.OutputState.OutputFrameNumber = 0
    · have hnone := (FirstOfFrame_eq_none_iff Samples _).mpr hc
      have hFirst : FirstOfFrame (Samples ++ [InData])
          InData.Payload.SampleState.OutputState.OutputFrameNumber = some InData := by
        rw [FirstOfFrame_append_of_none Samples [InData] _ hnone]
        exact FirstOfFrame_cons_same InData [] _ rfl
      have hExp : ExpectedOfFrame (Samples ++ [InData])
          InData.Payload.SampleState.OutputState.OutputFrameNumber =
          TotalSampleCount InData.Payload.Pane := by
        simp only [ExpectedOfFrame, hFirst]
      rw [hExp] at hcount ⊢
      rw [hc] at hcount ⊢
      have hprog : FrameProgress Before InData.Payload.SampleState.OutputState
          (TotalSampleCount InData.Payload.Pane) 0 := Or.inl ⟨rfl, (hinv _).1 (Or.inl hc)⟩
      obtain ⟨Target, _, hcase⟩ := submit_same_frame E Before After InData Calls
        (TotalSampleCount InData.Payload.Pane) 0 hprog (fun _ => rfl) h
      rcases hcase with ⟨hlast, hP, _⟩ | ⟨hnot, hprog2, _, _⟩
      · exact ⟨fun _ => hP, fun _ hlt => absurd hlast (by omega)⟩
      · refine ⟨fun hor => ?_, fun _ _ => ?_⟩
        · rcases hor with h1 | h1
          · omega
          · exact absurd h1 hnot
        · rcases hprog2 with ⟨h1, _⟩ | ⟨_, Frame, hP, hT, hFin⟩
          · omega
          · exact ⟨InData, Frame, hFirst, hP, hT, hFin⟩
    · have hpos : 0 < CountOfFrame Samples
          InData.Payload.SampleState.OutputState.OutputFrameNumber := by omega
      rw [ExpectedOfFrame_append_of_pos Samples [InData] _ hpos] at hcount ⊢
      obtain ⟨First, Frame, hFirst, hP, hT, hFin⟩ := (hinv _).2 hpos (by omega)
      obtain ⟨hmem, hnum⟩ := FirstOfFrame_some Samples _ First hFirst
      have hk := hkey First hmem hnum
      rw [hk] at hP
      have hprog : FrameProgress Before InData.Payload.SampleState.OutputState
          (ExpectedOfFrame Samples InData.Payload.SampleState.OutputState.OutputFrameNumber)
          (CountOfFrame Samples InData.Payload.SampleState.OutputState.OutputFrameNumber) :=
        Or.inr ⟨hpos, Frame, hP, hT, hFin⟩
      obtain ⟨Target, _, hcase⟩ := submit_same_frame E Before After InData Calls _ _ hprog
        (fun h0 => absurd h0 hc) h
      rcases hcase with ⟨hlast, hP2, _⟩ | ⟨hnot, hprog2, _, _⟩
      · exact ⟨fun _ => hP2, fun _ hlt => absurd hlast (by omega)⟩
      · refine ⟨fun hor => ?_, fun _ _ => ?_⟩
        · rcases hor with h1 | h1
          · omega
          · exact absurd h1 hnot
        · rcases hprog2 with ⟨h1, _⟩ | ⟨_, Frame2, hP2, hT2, hFin2⟩
          · omega
          · refine ⟨First, Frame2, FirstOfFrame_append_of_some Samples [InData] _ First hFirst, ?_,
              hT2, hFin2⟩
            rw [hk]
            exact hP2
  · obtain ⟨e1, e2, e3⟩ := CountOfFrame_snoc_other Samples InData n hn
    rw [e1, e2, e3, (submit_other_frame E Before After InData Calls n hn h).1]
    exact hinv n

theorem DeliverSamples_PendingMatches (E : FEngine K) (MapSize : FIntPoint)
    (Samples : List (FImagePixelData K)) :
    (∀ InData ∈ Samples, InData.PixelType ≠ EImagePixelType.Color) →
    (∀ First ∈ Samples, ∀ InData ∈ Samples,
      First.Payload.SampleState.OutputState.OutputFrameNumber =
        InData.Payload.SampleState.OutputState.OutputFrameNumber →
      First.Payload.SampleState.OutputState = InData.Payload.SampleState.OutputState) →
    (∀ InData ∈ Samples,
      CountOfFrame Samples InData.Payload.SampleState.OutputState.OutputFrameNumber ≤
        ExpectedOfFrame Samples InData.Payload.SampleState.OutputState.OutputFrameNumber) →
    ∃ After Calls, DeliverSamples E (NewBlender MapSize) Samples = some (After, Calls) ∧
      PendingMatches After Samples := by
  induction Samples using List.reverseRecOn with
  | nil =>
    intro _ _ _
    refine ⟨NewBlender MapSize, [], rfl, fun n => ⟨fun _ => rfl, fun hpos _ => ?_⟩⟩
    simp [CountOfFrame] at hpos
  | append_singleton Samples InData ih =>
    intro hsup hkey hcount
    have hcount2 : ∀ First ∈ Samples,
        CountOfFrame Samples First.Payload.SampleState.OutputState.OutputFrameNumber ≤
          ExpectedOfFrame Samples First.Payload.SampleState.OutputState.OutputFrameNumber := by
      intro First hmem
      have hpos : 0 < CountOfFrame Samples
          First.Payload.SampleState.OutputState.OutputFrameNumber := by
        have hne : CountOfFrame Samples
            First.Payload.SampleState.OutputState.OutputFrameNumber ≠ 0 := by
          intro h0
          exact (CountOfFrame_eq_zero_iff Samples _).mp h0 First hmem rfl
        have := CountOfFrame_nonneg Samples First.Payload.SampleState.OutputState.OutputFrameNumber
        omega
      have h1 := hcount First (List.mem_append_left _ hmem)
      rw [ExpectedOfFrame_append_of_pos Samples [InData] _ hpos, CountOfFrame_append] at h1
      have := CountOfFrame_nonneg [InData] First.Payload.SampleState.OutputState.OutputFrameNumber
      omega
    obtain ⟨Before, CallsBefore, hrun, hinv⟩ := ih
      (fun a ha => hsup a (List.mem_append_left _ ha))
      (fun a ha b hb => hkey a (List.mem_append_left _ ha) b (List.mem_append_left _ hb)) hcount2
    obtain ⟨After, Calls, hsub⟩ := submit_total E Before InData
      (hsup InData (List.mem_append_right _ (List.mem_singleton_self _)))
    refine ⟨After, CallsBefore ++ Calls,
      DeliverSamples_snoc E Samples _ Before After InData CallsBefore Calls hrun hsub, ?_⟩
    exact PendingMatches_step E Samples Before After InData Calls
      (fun First hmem => hkey First (List.mem_append_left _ hmem) InData
        (List.mem_append_right _ (List.mem_singleton_self _)))
      (hcount InData (List.mem_append_right _ (List.mem_singleton_self _))) hinv hsub
theorem PendingOfFrame_ne_nil_iff
    (Pending : List (FMoviePipelineFrameOutputState × FPanoramicOutputFrame K)) (n : Int) :
    PendingOfFrame Pending n ≠ [] ↔ n ∈ Pending.map (fun KVP => KVP.1.OutputFrameNumber) := by
  simp [PendingOfFrame, List.filter_eq_nil_iff]

theorem count_frame_numbers
    (Pending : List (FMoviePipelineFrameOutputState × FPanoramicOutputFrame K)) (n : Int) :
    List.count n (Pending.map (fun KVP => KVP.1.OutputFrameNumber)) =
      (PendingOfFrame Pending n).length := by
  induction Pending with
  | nil => rfl
  | cons KVP Rest ih =>
    rw [List.map_cons, List.count_cons, ih]
    unfold PendingOfFrame
    rw [List.filter_cons]
    by_cases h : KVP.1.OutputFrameNumber = n
    · simp [h]
    · simp [h]

theorem mem_IncompleteFrames (Samples : List (FImagePixelData K)) (n : Int) :
    n ∈ IncompleteFrames Samples ↔
      0 < CountOfFrame Samples n ∧ CountOfFrame Samples n < ExpectedOfFrame Samples n := by
  have hc0 := CountOfFrame_nonneg Samples n
  have hmem : n ∈ Samples.map (fun InData =>
      InData.Payload.SampleState.OutputState.OutputFrameNumber) ↔ CountOfFrame Samples n ≠ 0 := by
    rw [Ne, CountOfFrame_eq_zero_iff]
    simp
  unfold IncompleteFrames
  rw [List.mem_filter, List.mem_dedup, hmem, decide_eq_true_iff]
  constructor
  · rintro ⟨h1, h2⟩
    exact ⟨by omega, h2⟩
  · rintro ⟨h1, h2⟩
    exact ⟨by omega, h2⟩

theorem PendingMatches_length (Blender : FPanoramicBlender K) (Samples : List (FImagePixelData K))
    (hcount : ∀ InData ∈ Samples,
      CountOfFrame Samples InData.Payload.SampleState.OutputState.OutputFrameNumber ≤
        ExpectedOfFrame Samples InData.Payload.SampleState.OutputState.OutputFrameNumber)
    (hinv : PendingMatches Blender Samples) :
    Blender.PendingData.length = (IncompleteFrames Samples).length := by
  have hle : ∀ n, CountOfFrame Samples n ≤ ExpectedOfFrame Samples n := by
    intro n
    by_cases h0 : CountOfFrame Samples n = 0
    · rw [h0, ExpectedOfFrame_of_zero Samples n h0]
    · obtain ⟨InData, hmem, hnum⟩ : ∃ InData ∈ Samples,
          InData.Payload.SampleState.OutputState.OutputFrameNumber = n := by
        by_contra hcon
        push_neg at hcon
        exact h0 ((CountOfFrame_eq_zero_iff Samples n).mpr hcon)
      rw [← hnum]
      exact hcount InData hmem
  have hiff : ∀ n, PendingOfFrame Blender.PendingData n ≠ [] ↔ n ∈ IncompleteFrames Samples := by
    intro n
    rw [mem_IncompleteFrames]
    have hc0 := CountOfFrame_nonneg Samples n
    have hn := hle n
    constructor
    · intro hne
      have h1 : CountOfFrame Samples n ≠ 0 := fun h => hne ((hinv n).1 (Or.inl h))
      have h2 : CountOfFrame Samples n ≠ ExpectedOfFrame Samples n :=
        fun h => hne ((hinv n).1 (Or.inr h))
      exact ⟨by omega, by omega⟩
    · rintro ⟨h1, h2⟩
      obtain ⟨First, Frame, _, hP, _, _⟩ := (hinv n).2 h1 h2
      rw [hP]
      exact List.cons_ne_nil _ _
  have hnodup : (Blender.PendingData.map (fun KVP => KVP.1.OutputFrameNumber)).Nodup := by
    rw [List.nodup_iff_count_le_one]
    intro n
    rw [count_frame_numbers]
    by_cases hmem : n ∈ IncompleteFrames Samples
    · obtain ⟨h1, h2⟩ := (mem_IncompleteFrames Samples n).mp hmem
      obtain ⟨First, Frame, _, hP, _, _⟩ := (hinv n).2 h1 h2
      rw [hP]
      rfl
    · have hnil : PendingOfFrame Blender.PendingData n = [] := by
        by_contra hne
        exact hmem ((hiff n).mp hne)
      rw [hnil]
      exact Nat.zero_le _
  have hnodup2 : (IncompleteFrames Samples).Nodup :=
    List.Nodup.filter _ (List.nodup_dedup _)
  have hperm : List.Perm (Blender.PendingData.map (fun KVP => KVP.1.OutputFrameNumber))
      (IncompleteFrames Samples) := by
    rw [List.perm_ext_iff_of_nodup hnodup hnodup2]
    intro n
    rw [← PendingOfFrame_ne_nil_iff, hiff]
  rw [← hperm.length_eq, List.length_map]

/-- C12: from a new blender, after any sequence of samples in a supported encoding in which all
samples of a frame number carry the same frame identifier and every frame number receives at most
the sample count expected by its first pane, every call returns, `GetNumOutstandingFrames` equals
the number of distinct frame numbers that received fewer samples than they expect, a frame number
has a pending state exactly when it is one of those, and a frame that received as many samples as
it expects has no pending state. -/
theorem outstanding_frames_are_the_incomplete_ones (E : FEngine K) (MapSize : FIntPoint)
    (Samples : List (FImagePixelData K))
    (hsup : ∀ InData ∈ Samples, InData.PixelType ≠ EImagePixelType.Color)
    (hkey : ∀ First ∈ Samples, ∀ InData ∈ Samples,
      First.Payload.SampleState.OutputState.OutputFrameNumber =
        InData.Payload.SampleState.OutputState.OutputFrameNumber →
      First.Payload.SampleState.OutputState = InData.Payload.SampleState.OutputState)
    (hcount : ∀ InData ∈ Samples,
      CountOfFrame Samples InData.Payload.SampleState.OutputState.OutputFrameNumber ≤
        ExpectedOfFrame Samples InData.Payload.SampleState.OutputState.OutputFrameNumber) :
    ∃ After Calls, DeliverSamples E (NewBlender MapSize) Samples = some (After, Calls) ∧
      GetNumOutstandingFrames After = ((IncompleteFrames Samples).length : Int) ∧
      (∀ n, (FindPendingFrame After.PendingData n).isSome = true ↔ n ∈ IncompleteFrames Samples) ∧
      (∀ n, CountOfFrame Samples n = ExpectedOfFrame Samples n →
        FindPendingFrame After.PendingData n = none) := by
  obtain ⟨After, Calls, hrun, hinv⟩ :=
    DeliverSamples_PendingMatches E MapSize Samples hsup hkey hcount
  refine ⟨After, Calls, hrun, ?_, ?_, ?_⟩
  · unfold GetNumOutstandingFrames
    rw [PendingMatches_length After Samples hcount hinv]
  · intro n
    rw [mem_IncompleteFrames]
    constructor
    · intro hsome
      have hne : PendingOfFrame After.PendingData n ≠ [] := by
        intro hnil
        rw [(FindPendingFrame_none_iff After.PendingData n).mpr hnil] at hsome
        exact absurd hsome (by simp)
      have hc0 := CountOfFrame_nonneg Samples n
      have h1 : CountOfFrame Samples n ≠ 0 := fun h => hne ((hinv n).1 (Or.inl h))
      have h2 : CountOfFrame Samples n ≠ ExpectedOfFrame Samples n :=
        fun h => hne ((hinv n).1 (Or.inr h))
      have h3 : CountOfFrame Samples n ≤ ExpectedOfFrame Samples n := by
        obtain ⟨InData, hmem, hnum⟩ : ∃ InData ∈ Samples,
            InData.Payload.SampleState.OutputState.OutputFrameNumber = n := by
          by_contra hcon
          push_neg at hcon
          exact h1 ((CountOfFrame_eq_zero_iff Samples n).mpr hcon)
        rw [← hnum]
        exact hcount InData hmem
      exact ⟨by omega, by omega⟩
    · rintro ⟨h1, h2⟩
      obtain ⟨First, Frame, _, hP, _, _⟩ := (hinv n).2 h1 h2
      rw [FindPendingFrame_eq_head, hP]
      rfl
  · intro n hn
    exact (FindPendingFrame_none_iff After.PendingData n).mpr ((hinv n).1 (Or.inr hn))

theorem outstanding_frames_are_the_incomplete_ones_witness :
    (∀ InData ∈ DrainSamples, InData.PixelType ≠ EImagePixelType.Color) ∧
    (∀ First ∈ DrainSamples, ∀ InData ∈ DrainSamples,
      First.Payload.SampleState.OutputState.OutputFrameNumber =
        InData.Payload.SampleState.OutputState.OutputFrameNumber →
      First.Payload.SampleState.OutputState = InData.Payload.SampleState.OutputState) ∧
    (∀ InData ∈ DrainSamples,
      CountOfFrame DrainSamples InData.Payload.SampleState.OutputState.OutputFrameNumber ≤
        ExpectedOfFrame DrainSamples InData.Payload.SampleState.OutputState.OutputFrameNumber) ∧
    IncompleteFrames DrainSamples = [7, 9] ∧
    ∃ After Calls, DeliverSamples RationalEngine (NewBlender ⟨8, 4⟩) DrainSamples =
        some (After, Calls) ∧
      GetNumOutstandingFrames After = ((IncompleteFrames DrainSamples).length : Int) ∧
      (∀ n, (FindPendingFrame After.PendingData n).isSome = true ↔
        n ∈ IncompleteFrames DrainSamples) ∧
      (∀ n, CountOfFrame DrainSamples n = ExpectedOfFrame DrainSamples n →
        FindPendingFrame After.PendingData n = none) :=
  ⟨by decide!, by decide!, by decide!, by decide!,
    outstanding_frames_are_the_incomplete_ones RationalEngine ⟨8, 4⟩ DrainSamples (by decide!)
      (by decide!) (by decide!)⟩

/-! ## Index arithmetic -/

theorem tmod_gt_neg (X W : Int) (hW : 0 < W) : -W < Int.tmod X W := by
  obtain ⟨n, rfl⟩ := Int.eq_ofNat_of_zero_le (le_of_lt hW)
  cases X with
  | ofNat m =>
    have : (0 : Int) ≤ Int.tmod (Int.ofNat m) n := Int.tmod_nonneg _ (Int.ofNat_nonneg m)
    omega
  | negSucc m =>
    have hn : 0 < n := by exact_mod_cast hW
    have h : Int.tmod (Int.negSucc m) (n : Int) = -(((m + 1) % n : Nat) : Int) := rfl
    rw [h]
    have := Nat.mod_lt (m + 1) hn
    omega

theorem PositiveMod_eq_emod (X W : Int) (hW : 0 < W) : PositiveMod X W = X % W := by
  unfold PositiveMod
  have h1 := tmod_gt_neg X W hW
  rw [Int.tmod_eq_emod (by omega) (le_of_lt hW), Int.tmod_def]
  have h2 : X - W * X.tdiv W + W = X + W * (1 - X.tdiv W) := by ring
  rw [h2, Int.add_mul_emod_self_left]

theorem PositiveMod_bounds (X W : Int) (hW : 0 < W) :
    0 ≤ PositiveMod X W ∧ PositiveMod X W < W := by
  rw [PositiveMod_eq_emod X W hW]
  exact ⟨Int.emod_nonneg X (ne_of_gt hW), Int.emod_lt_of_pos X hW⟩

/-- C21: for a width `0 < W < 2^30` and a 32-bit integer `X`, the remapped column
`((X % W) + W) % W` (truncating remainder) lies in `[0, W)`, differs from `X` by a multiple of `W`,
and equals `X` when `0 ≤ X < W`; the intermediate sum `(X % W) + W` stays within 32 bits. -/
theorem positive_modulo_wraps_column (X W : Int) (hW : 0 < W) (hW30 : W < 2 ^ 30)
    (hX : -2 ^ 31 ≤ X ∧ X < 2 ^ 31) :
    0 ≤ PositiveMod X W ∧ PositiveMod X W < W ∧ W ∣ PositiveMod X W - X ∧
    (0 ≤ X → X < W → PositiveMod X W = X) ∧
    -2 ^ 31 ≤ Int.tmod X W + W ∧ Int.tmod X W + W < 2 ^ 31 := by
  obtain ⟨h1, h2⟩ := PositiveMod_bounds X W hW
  refine ⟨h1, h2, ?_, ?_, ?_, ?_⟩
  · rw [PositiveMod_eq_emod X W hW]
    have := Int.emod_add_ediv X W
    exact ⟨-(X / W), by linarith⟩
  · intro h0 hlt
    rw [PositiveMod_eq_emod X W hW]
    exact Int.emod_eq_of_lt h0 hlt
  · have := tmod_gt_neg X W hW
    omega
  · have := Int.tmod_lt_of_pos X hW
    omega

theorem positive_modulo_wraps_column_witness :
    0 ≤ PositiveMod (-3) 8 ∧ PositiveMod (-3) 8 < 8 ∧ (8 : Int) ∣ PositiveMod (-3) 8 - (-3) ∧
    ((0 : Int) ≤ -3 → (-3 : Int) < 8 → PositiveMod (-3) 8 = -3) ∧
    -2 ^ 31 ≤ Int.tmod (-3) 8 + 8 ∧ Int.tmod (-3) 8 + 8 < 2 ^ 31 :=
  positive_modulo_wraps_column (-3) 8 (by decide) (by decide) (by decide)

theorem mem_LoopRange (lo hi x : Int) : x ∈ LoopRange lo hi ↔ lo ≤ x ∧ x < hi := by
  unfold LoopRange
  rw [List.mem_map]
  constructor
  · rintro ⟨i, hi1, rfl⟩
    rw [List.mem_range] at hi1
    omega
  · rintro ⟨h1, h2⟩
    refine ⟨(x - lo).toNat, ?_, ?_⟩
    · rw [List.mem_range]
      omega
    · omega

theorem FinalIndex_bounds (MapSizeX : Int) (BoundsMin : FIntPoint) (Width Height X Y : Int)
    (hW : 0 < Width) (hY : BoundsMin.Y ≤ Y ∧ Y < BoundsMin.Y + Height) :
    0 ≤ FinalIndex MapSizeX BoundsMin Width X Y ∧
      FinalIndex MapSizeX BoundsMin Width X Y < Width * Height := by
  unfold FinalIndex SampleOutputX
  obtain ⟨h1, h2⟩ := PositiveMod_bounds (PositiveMod X MapSizeX - BoundsMin.X) Width hW
  have h3 : 0 ≤ (Y - BoundsMin.Y) * Width := mul_nonneg (by omega) (le_of_lt hW)
  have h4 : (Y - BoundsMin.Y + 1) * Width ≤ Height * Width :=
    mul_le_mul_of_nonneg_right (by omega) (le_of_lt hW)
  constructor
  · omega
  · nlinarith

/-- C30: for every pixel `(X, Y)` that the resampling loops of a sample visit, the index
`FinalIndex = SampleOutputX + SampleOutputY × PixelWidth` written in the intermediate buffers
satisfies `0 ≤ FinalIndex < PixelWidth × PixelHeight`, which is the allocated length of the
intermediate colour buffer and, when alpha is tracked, of the intermediate weight buffer. -/
theorem intermediate_index_within_buffers (E : FEngine K) (MapSize : FIntPoint)
    (Pane : FPanoPane K) (X Y : Int)
    (hX : X ∈ LoopRange (PixelIndexHorzMinBound E MapSize Pane) (PixelIndexHorzMaxBound E MapSize Pane))
    (hY : Y ∈ LoopRange (PixelIndexVertMinBound E MapSize Pane) (PixelIndexVertMaxBound E MapSize Pane)) :
    0 ≤ FinalIndex MapSize.X (OutputBoundsMin E MapSize Pane) (PixelWidth E MapSize Pane) X Y ∧
    FinalIndex MapSize.X (OutputBoundsMin E MapSize Pane) (PixelWidth E MapSize Pane) X Y <
      PixelWidth E MapSize Pane * PixelHeight E MapSize Pane ∧
    ((NewBlendBuffers E MapSize Pane).Data.length : Int) =
      PixelWidth E MapSize Pane * PixelHeight E MapSize Pane ∧
    (Pane.bIncludeAlpha = true → ((NewBlendBuffers E MapSize Pane).AlphaArray.length : Int) =
      PixelWidth E MapSize Pane * PixelHeight E MapSize Pane) := by
  rw [mem_LoopRange] at hX hY
  have hW : 0 < PixelWidth E MapSize Pane := by
    simp only [PixelWidth, OutputBoundsMax, OutputBoundsMin]
    omega
  have hH : 0 < PixelHeight E MapSize Pane := by
    simp only [PixelHeight, OutputBoundsMax, OutputBoundsMin]
    omega
  have hY2 : (OutputBoundsMin E MapSize Pane).Y ≤ Y ∧
      Y < (OutputBoundsMin E MapSize Pane).Y + PixelHeight E MapSize Pane := by
    simp only [PixelHeight, OutputBoundsMax, OutputBoundsMin]
    omega
  obtain ⟨h1, h2⟩ := FinalIndex_bounds MapSize.X (OutputBoundsMin E MapSize Pane)
    (PixelWidth E MapSize Pane) (PixelHeight E MapSize Pane) X Y hW hY2
  have hlen : ((List.replicate (PixelWidth E MapSize Pane * PixelHeight E MapSize Pane).toNat
      (0 : FLinearColor K)).length : Int) =
      PixelWidth E MapSize Pane * PixelHeight E MapSize Pane := by
    rw [List.length_replicate]
    exact Int.toNat_of_nonneg (le_of_lt (mul_pos hW hH))
  have hlen2 : ((List.replicate (PixelWidth E MapSize Pane * PixelHeight E MapSize Pane).toNat
      (0 : K)).length : Int) = PixelWidth E MapSize Pane * PixelHeight E MapSize Pane := by
    rw [List.length_replicate]
    exact Int.toNat_of_nonneg (le_of_lt (mul_pos hW hH))
  refine ⟨h1, h2, hlen, ?_⟩
  intro hAlpha
  simp only [NewBlendBuffers, hAlpha, if_true, SetNumZeroed]
  exact hlen2

theorem intermediate_index_within_buffers_witness :
    (3 : Int) ∈ LoopRange
      (PixelIndexHorzMinBound RationalEngine ⟨8, 4⟩ (ExamplePane 0 0 4 2 0 0 (-1) true))
      (PixelIndexHorzMaxBound RationalEngine ⟨8, 4⟩ (ExamplePane 0 0 4 2 0 0 (-1) true)) ∧
    (2 : Int) ∈ LoopRange
      (PixelIndexVertMinBound RationalEngine ⟨8, 4⟩ (ExamplePane 0 0 4 2 0 0 (-1) true))
      (PixelIndexVertMaxBound RationalEngine ⟨8, 4⟩ (ExamplePane 0 0 4 2 0 0 (-1) true)) ∧
    0 ≤ FinalIndex 8 (OutputBoundsMin RationalEngine ⟨8, 4⟩ (ExamplePane 0 0 4 2 0 0 (-1) true))
      (PixelWidth RationalEngine ⟨8, 4⟩ (ExamplePane 0 0 4 2 0 0 (-1) true)) 3 2 ∧
    FinalIndex 8 (OutputBoundsMin RationalEngine ⟨8, 4⟩ (ExamplePane 0 0 4 2 0 0 (-1) true))
      (PixelWidth RationalEngine ⟨8, 4⟩ (ExamplePane 0 0 4 2 0 0 (-1) true)) 3 2 <
      PixelWidth RationalEngine ⟨8, 4⟩ (ExamplePane 0 0 4 2 0 0 (-1) true) *
        PixelHeight RationalEngine ⟨8, 4⟩ (ExamplePane 0 0 4 2 0 0 (-1) true) ∧
    ((NewBlendBuffers RationalEngine ⟨8, 4⟩ (ExamplePane 0 0 4 2 0 0 (-1) true)).Data.length : Int) =
      PixelWidth RationalEngine ⟨8, 4⟩ (ExamplePane 0 0 4 2 0 0 (-1) true) *
        PixelHeight RationalEngine ⟨8, 4⟩ (ExamplePane 0 0 4 2 0 0 (-1) true) ∧
    ((ExamplePane 0 0 4 2 0 0 (-1) true).bIncludeAlpha = true →
      ((NewBlendBuffers RationalEngine ⟨8, 4⟩
        (ExamplePane 0 0 4 2 0 0 (-1) true)).AlphaArray.length : Int) =
      PixelWidth RationalEngine ⟨8, 4⟩ (ExamplePane 0 0 4 2 0 0 (-1) true) *
        PixelHeight RationalEngine ⟨8, 4⟩ (ExamplePane 0 0 4 2 0 0 (-1) true)) :=
  ⟨by decide!, by decide!,
    intermediate_index_within_buffers RationalEngine ⟨8, 4⟩ (ExamplePane 0 0 4 2 0 0 (-1) true) 3 2
      (by decide!) (by decide!)⟩

/-! ## View-state slots -/

theorem GetAbsoluteIndex_GridPane (Pass : UPanoramicPass K) (Base : FPanoPane K) (e v h : Int) :
    GetAbsoluteIndex (GridPane Pass Base e v h) =
      if e = -1 ∨ e = 0 then v * Pass.NumHorizontalSteps + h
      else (Pass.NumVerticalSteps + v) * Pass.NumHorizontalSteps + h := by
  unfold GetAbsoluteIndex GridPane
  simp only
  by_cases h1 : e = -1
  · simp [h1]
  · by_cases h0 : e = 0
    · simp [h0]
    · simp [h1, h0]

theorem grid_index_unique (H v h v' h' : Int) (hh : 0 ≤ h ∧ h < H) (hh' : 0 ≤ h' ∧ h' < H)
    (heq : v * H + h = v' * H + h') : v = v' ∧ h = h' := by
  have hH : H ≠ 0 := by omega
  have e1 : (h + v * H) / H = v := by
    rw [Int.add_mul_ediv_right _ _ hH, Int.ediv_eq_zero_of_lt hh.1 hh.2, zero_add]
  have e2 : (h' + v' * H) / H = v' := by
    rw [Int.add_mul_ediv_right _ _ hH, Int.ediv_eq_zero_of_lt hh'.1 hh'.2, zero_add]
  have e3 : h + v * H = h' + v' * H := by linarith
  have hv : v = v' := by rw [← e1, ← e2, e3]
  subst hv
  exact ⟨rfl, by linarith⟩

theorem grid_index_bounds (H V v h : Int) (hv : 0 ≤ v ∧ v < V) (hh : 0 ≤ h ∧ h < H) :
    0 ≤ v * H + h ∧ v * H + h < V * H := by
  have h1 : 0 ≤ v * H := mul_nonneg hv.1 (by omega)
  have h2 : (v + 1) * H ≤ V * H := mul_le_mul_of_nonneg_right (by omega) (by omega)
  constructor
  · omega
  · nlinarith

theorem grid_index_onto (H V i : Int) (hH : 1 ≤ H) (hi : 0 ≤ i ∧ i < V * H) :
    ∃ v h, (0 ≤ v ∧ v < V) ∧ (0 ≤ h ∧ h < H) ∧ v * H + h = i := by
  have hHpos : 0 < H := by omega
  refine ⟨i / H, i % H, ⟨Int.ediv_nonneg hi.1 (le_of_lt hHpos), ?_⟩,
    ⟨Int.emod_nonneg i (ne_of_gt hHpos), Int.emod_lt_of_pos i hHpos⟩, ?_⟩
  · exact Int.ediv_lt_of_lt_mul hHpos hi.2
  · have := Int.emod_add_ediv i H
    linarith

/-- C29: for a pass with `H ≥ 1` horizontal and `V ≥ 1` vertical steps, `GetAbsoluteIndex` of the
panes that the pane loop runs through (eye -1 in mono, eyes 0 and 1 in stereo, `v < V`, `h < H`)
lies in `[0, NumPanoramicPanes)`, the length of the view-state array; two panes with the same index
have the same eye and step indices; and every index of `[0, NumPanoramicPanes)` is the index of
such a pane. -/
theorem absolute_index_is_one_to_one (Pass : UPanoramicPass K) (Base : FPanoPane K)
    (hH : 1 ≤ Pass.NumHorizontalSteps) (hV : 1 ≤ Pass.NumVerticalSteps) :
    (∀ e v h, InGrid Pass e v h →
      0 ≤ GetAbsoluteIndex (GridPane Pass Base e v h) ∧
      GetAbsoluteIndex (GridPane Pass Base e v h) < NumPanoramicPanes Pass) ∧
    (∀ e v h e' v' h', InGrid Pass e v h → InGrid Pass e' v' h' →
      GetAbsoluteIndex (GridPane Pass Base e v h) = GetAbsoluteIndex (GridPane Pass Base e' v' h') →
      e = e' ∧ v = v' ∧ h = h') ∧
    (∀ i, 0 ≤ i → i < NumPanoramicPanes Pass →
      ∃ e v h, InGrid Pass e v h ∧ GetAbsoluteIndex (GridPane Pass Base e v h) = i) := by
  have hVH : 0 < Pass.NumVerticalSteps * Pass.NumHorizontalSteps :=
    mul_pos (by omega) (by omega)
  cases hS : Pass.bStereo with
  | false =>
    have hN : NumPanoramicPanes Pass = Pass.NumVerticalSteps * Pass.NumHorizontalSteps := by
      simp only [NumPanoramicPanes, hS, Bool.false_eq_true, if_false, mul_one]
      exact mul_comm _ _
    have hidx : ∀ e v h, InGrid Pass e v h → e = -1 ∧
        GetAbsoluteIndex (GridPane Pass Base e v h) = v * Pass.NumHorizontalSteps + h := by
      intro e v h hg
      have he : e = -1 := by simpa [InGrid, hS] using hg.1
      rw [GetAbsoluteIndex_GridPane]
      simp [he]
    refine ⟨?_, ?_, ?_⟩
    · intro e v h hg
      rw [(hidx e v h hg).2, hN]
      exact grid_index_bounds _ _ v h hg.2.1 hg.2.2
    · intro e v h e' v' h' hg hg' heq
      rw [(hidx e v h hg).2, (hidx e' v' h' hg').2] at heq
      obtain ⟨e1, e2⟩ := grid_index_unique _ v h v' h' hg.2.2 hg'.2.2 heq
      exact ⟨by rw [(hidx e v h hg).1, (hidx e' v' h' hg').1], e1, e2⟩
    · intro i hi0 hi
      rw [hN] at hi
      obtain ⟨v, h, hv, hh, heq⟩ := grid_index_onto _ _ i hH ⟨hi0, hi⟩
      have hg : InGrid Pass (-1) v h := ⟨by simp [hS], hv, hh⟩
      exact ⟨-1, v, h, hg, by rw [(hidx (-1) v h hg).2, heq]⟩
  | true =>
    have hN : NumPanoramicPanes Pass = 2 * (Pass.NumVerticalSteps * Pass.NumHorizontalSteps) := by
      simp only [NumPanoramicPanes, hS, if_true]
      ring
    have hidx : ∀ e v h, InGrid Pass e v h → (e = 0 ∨ e = 1) ∧
        GetAbsoluteIndex (GridPane Pass Base e v h) =
          e * (Pass.NumVerticalSteps * Pass.NumHorizontalSteps) +
            (v * Pass.NumHorizontalSteps + h) := by
      intro e v h hg
      have he : e = 0 ∨ e = 1 := by simpa [InGrid, hS] using hg.1
      rw [GetAbsoluteIndex_GridPane]
      rcases he with he | he
      · simp [he]
      · simp only [he]
        norm_num
        ring
    refine ⟨?_, ?_, ?_⟩
    · intro e v h hg
      obtain ⟨he, hi⟩ := hidx e v h hg
      obtain ⟨b1, b2⟩ := grid_index_bounds _ _ v h hg.2.1 hg.2.2
      rw [hi, hN]
      rcases he with he | he
      · rw [he]; omega
      · rw [he]; omega
    · intro e v h e' v' h' hg hg' heq
      obtain ⟨he, hi⟩ := hidx e v h hg
      obtain ⟨he', hi'⟩ := hidx e' v' h' hg'
      obtain ⟨b1, b2⟩ := grid_index_bounds _ _ v h hg.2.1 hg.2.2
      obtain ⟨b1', b2'⟩ := grid_index_bounds _ _ v' h' hg'.2.1 hg'.2.2
      rw [hi, hi'] at heq
      have hee : e = e' := by
        rcases he with he | he <;> rcases he' with he' | he' <;> rw [he, he'] at heq ⊢ <;> omega
      subst hee
      have heq2 : v * Pass.NumHorizontalSteps + h = v' * Pass.NumHorizontalSteps + h' := by
        linarith
      obtain ⟨e1, e2⟩ := grid_index_unique _ v h v' h' hg.2.2 hg'.2.2 heq2
      exact ⟨rfl, e1, e2⟩
    · intro i hi0 hi
      rw [hN] at hi
      by_cases hlow : i < Pass.NumVerticalSteps * Pass.NumHorizontalSteps
      · obtain ⟨v, h, hv, hh, heq⟩ := grid_index_onto _ _ i hH ⟨hi0, hlow⟩
        have hg : InGrid Pass 0 v h := ⟨by simp [hS], hv, hh⟩
        exact ⟨0, v, h, hg, by rw [(hidx 0 v h hg).2, heq]; ring⟩
      · obtain ⟨v, h, hv, hh, heq⟩ := grid_index_onto Pass.NumHorizontalSteps
          Pass.NumVerticalSteps (i - Pass.NumVerticalSteps * Pass.NumHorizontalSteps) hH
          ⟨by omega, by omega⟩
        have hg : InGrid Pass 1 v h := ⟨by simp [hS], hv, hh⟩
        exact ⟨1, v, h, hg, by rw [(hidx 1 v h hg).2, heq]; ring⟩

theorem absolute_index_is_one_to_one_witness :
    1 ≤ (ExamplePass true 6 3 50).NumHorizontalSteps ∧
    1 ≤ (ExamplePass true 6 3 50).NumVerticalSteps ∧
    (∀ e v h, InGrid (ExamplePass true 6 3 50) e v h →
      0 ≤ GetAbsoluteIndex (GridPane (ExamplePass true 6 3 50) SeamPane e v h) ∧
      GetAbsoluteIndex (GridPane (ExamplePass true 6 3 50) SeamPane e v h) <
        NumPanoramicPanes (ExamplePass true 6 3 50)) ∧
    (∀ e v h e' v' h', InGrid (ExamplePass true 6 3 50) e v h →
      InGrid (ExamplePass true 6 3 50) e' v' h' →
      GetAbsoluteIndex (GridPane (ExamplePass true 6 3 50) SeamPane e v h) =
        GetAbsoluteIndex (GridPane (ExamplePass true 6 3 50) SeamPane e' v' h') →
      e = e' ∧ v = v' ∧ h = h') ∧
    (∀ i, 0 ≤ i → i < NumPanoramicPanes (ExamplePass true 6 3 50) →
      ∃ e v h, InGrid (ExamplePass true 6 3 50) e v h ∧
        GetAbsoluteIndex (GridPane (ExamplePass true 6 3 50) SeamPane e v h) = i) :=
  ⟨by decide, by decide,
    absolute_index_is_one_to_one (ExamplePass true 6 3 50) SeamPane (by decide) (by decide)⟩

/-! ## Latitude of the output rows -/

/-- C22, the code at failing inputs: on a map of 4 rows the latitudes computed for rows 0 to 3 are
112.5, 67.5, 22.5 and -22.5 degrees, the centres of the latitude bands being 67.5, 22.5, -22.5 and
-67.5; on a map of a single row the latitude of row 0 is 180 degrees. The latitude of row 0 is
above 90 degrees. -/
theorem latitude_of_first_row_exceeds_ninety :
    (List.range 4).map (fun (Y : Nat) => (Phi ⟨8, 4⟩ (Y : Int) : ℚ)) =
      [225 / 2, 135 / 2, 45 / 2, -(45 / 2)] ∧
    (List.range 4).map (fun (Y : Nat) => (90 - ((Y : ℚ) + 1 / 2) * (180 / 4) : ℚ)) =
      [135 / 2, 45 / 2, -(45 / 2), -(135 / 2)] ∧
    (Phi ⟨2, 1⟩ 0 : ℚ) = 180 ∧ (90 : ℚ) < Phi ⟨8, 4⟩ 0 := by
  decide!

/-! ## Side of the stereo eyes -/

/-- C28, the code at a failing input: with an eye separation of 6.5 the pane of eye index 0 has the
lateral offset +3.25 and its camera is displaced from the sequence camera by +3.25 along the
camera's rotated Y axis, the positive right axis; the pane of eye index 1 has the offset -3.25 and
is displaced by -3.25 along that axis. -/
theorem eye_zero_is_placed_on_the_right :
    StereoEyeOffset (ExamplePass true 4 2 50) 0 = 13 / 4 ∧
    StereoEyeOffset (ExamplePass true 4 2 50) 1 = -(13 / 4) ∧
    (SetupPane RationalPoseEngine (ExamplePass true 4 2 50) ExampleFrameInfo ⟨4, 4⟩ 1 0 0 0).map
        (fun Pane => (Pane.EyeIndex,
          DotProduct (Pane.OriginalCameraLocation - ExampleFrameInfo.CurrViewLocation)
            (RationalPoseEngine.RotateVector ExampleFrameInfo.CurrViewRotation ⟨0, 1, 0⟩))) =
      some (0, 13 / 4) ∧
    (SetupPane RationalPoseEngine (ExamplePass true 4 2 50) ExampleFrameInfo ⟨4, 4⟩ 1 1 0 0).map
        (fun Pane => (Pane.EyeIndex,
          DotProduct (Pane.OriginalCameraLocation - ExampleFrameInfo.CurrViewLocation)
            (RationalPoseEngine.RotateVector ExampleFrameInfo.CurrViewRotation ⟨0, 1, 0⟩))) =
      some (1, -(13 / 4)) := by
  decide!

/-! ## Footprint of the merge step -/

theorem foldl_forall_mem {σ α : Type} (f : σ → α → σ) (P : σ → Prop) :
    ∀ (l : List α) (s : σ), (∀ s, ∀ a ∈ l, P s → P (f s a)) → P s → P (l.foldl f s) := by
  intro l
  induction l with
  | nil => intro s _ hs; exact hs
  | cons a l ih =>
    intro s h hs
    exact ih _ (fun s b hb => h s b (List.mem_cons_of_mem _ hb)) (h s a (List.mem_cons_self _ _) hs)

theorem AddAt_getElem?_ne {α : Type} [Add α] (arr : List α) (Index : Int) (v : α) (i : Nat)
    (hne : (i : Int) ≠ Index) : (AddAt arr Index v)[i]? = arr[i]? := by
  unfold AddAt
  split
  · rename_i h0
    have hne2 : Index.toNat ≠ i := by omega
    rw [List.getElem?_modify]
    simp [hne2]
  · rfl

theorem DestIndex_bounds (E : FEngine K) (MapSize : FIntPoint) (Pane : FPanoPane K)
    (SampleX SampleY : Int) (hW : 0 < MapSize.X)
    (hY : SampleY ∈ LoopRange 0 (PixelHeight E MapSize Pane)) :
    0 ≤ DestIndex MapSize (OutputBoundsMin E MapSize Pane) SampleX SampleY ∧
      DestIndex MapSize (OutputBoundsMin E MapSize Pane) SampleX SampleY <
        MapSize.X * MapSize.Y := by
  rw [mem_LoopRange] at hY
  obtain ⟨h1, h2⟩ := PositiveMod_bounds (SampleX + (OutputBoundsMin E MapSize Pane).X) MapSize.X hW
  have hmin : 0 ≤ (OutputBoundsMin E MapSize Pane).Y := by
    simp only [OutputBoundsMin, PixelIndexVertMinBound]
    exact le_max_right _ _
  have hmax : (OutputBoundsMax E MapSize Pane).Y ≤ MapSize.Y := by
    simp only [OutputBoundsMax, PixelIndexVertMaxBound]
    exact min_le_right _ _
  have hrow : SampleY + (OutputBoundsMin E MapSize Pane).Y + 1 ≤ MapSize.Y := by
    have : PixelHeight E MapSize Pane =
        (OutputBoundsMax E MapSize Pane).Y - (OutputBoundsMin E MapSize Pane).Y := rfl
    omega
  have h3 : 0 ≤ (SampleY + (OutputBoundsMin E MapSize Pane).Y) * MapSize.X :=
    mul_nonneg (by omega) (le_of_lt hW)
  have h4 : (SampleY + (OutputBoundsMin E MapSize Pane).Y + 1) * MapSize.X ≤
      MapSize.Y * MapSize.X := mul_le_mul_of_nonneg_right hrow (le_of_lt hW)
  unfold DestIndex
  constructor
  · omega
  · nlinarith

/-- C25: on a map of width `W > 0` and height `H`, for a pane with eye index `e` in {-1, 0, 1}
and `e' = 0` for `e = -1`, `e' = e` otherwise, every index `DestIndex + EyeOffset` that the
merge loops of a sample compute lies in `[e' × W × H, (e' + 1) × W × H)`, and every entry of the
shared colour and weight buffers at an index outside this range is left unchanged by the merge
step, as are the lengths of both buffers. -/
theorem merge_writes_only_own_eye_block (E : FEngine K) (MapSize : FIntPoint) (Pane : FPanoPane K)
    (Source Shared : FBlendBuffers K) (hW : 0 < MapSize.X)
    (hEye : Pane.EyeIndex = -1 ∨ Pane.EyeIndex = 0 ∨ Pane.EyeIndex = 1) :
    (∀ SampleX ∈ LoopRange 0 (PixelWidth E MapSize Pane),
      ∀ SampleY ∈ LoopRange 0 (PixelHeight E MapSize Pane),
        (if Pane.EyeIndex = -1 then 0 else Pane.EyeIndex) * (MapSize.X * MapSize.Y) ≤
          DestIndex MapSize (OutputBoundsMin E MapSize Pane) SampleX SampleY +
            EyeOffset MapSize Pane ∧
        DestIndex MapSize (OutputBoundsMin E MapSize Pane) SampleX SampleY +
            EyeOffset MapSize Pane <
          ((if Pane.EyeIndex = -1 then 0 else Pane.EyeIndex) + 1) * (MapSize.X * MapSize.Y)) ∧
    (∀ i : Nat,
      ((i : Int) < (if Pane.EyeIndex = -1 then 0 else Pane.EyeIndex) * (MapSize.X * MapSize.Y) ∨
        ((if Pane.EyeIndex = -1 then 0 else Pane.EyeIndex) + 1) * (MapSize.X * MapSize.Y) ≤
          (i : Int)) →
      (MergeSample E MapSize Pane Source Shared).Data[i]? = Shared.Data[i]? ∧
      (MergeSample E MapSize Pane Source Shared).AlphaArray[i]? = Shared.AlphaArray[i]?) ∧
    (MergeSample E MapSize Pane Source Shared).Data.length = Shared.Data.length ∧
    (MergeSample E MapSize Pane Source Shared).AlphaArray.length = Shared.AlphaArray.length := by
  have hrange : ∀ SampleX ∈ LoopRange 0 (PixelWidth E MapSize Pane),
      ∀ SampleY ∈ LoopRange 0 (PixelHeight E MapSize Pane),
        (if Pane.EyeIndex = -1 then 0 else Pane.EyeIndex) * (MapSize.X * MapSize.Y) ≤
          DestIndex MapSize (OutputBoundsMin E MapSize Pane) SampleX SampleY +
            EyeOffset MapSize Pane ∧
        DestIndex MapSize (OutputBoundsMin E MapSize Pane) SampleX SampleY +
            EyeOffset MapSize Pane <
          ((if Pane.EyeIndex = -1 then 0 else Pane.EyeIndex) + 1) * (MapSize.X * MapSize.Y) := by
    intro SampleX _ SampleY hY
    obtain ⟨h1, h2⟩ := DestIndex_bounds E MapSize Pane SampleX SampleY hW hY
    unfold EyeOffset
    rcases hEye with he | he | he
    · simp only [he, ne_eq, not_true_eq_false, if_false, if_true]
      omega
    · simp only [he]
      norm_num
      omega
    · simp only [he]
      norm_num
      omega
  refine ⟨hrange, ?_⟩
  have hinv : (∀ i : Nat,
      ((i : Int) < (if Pane.EyeIndex = -1 then 0 else Pane.EyeIndex) * (MapSize.X * MapSize.Y) ∨
        ((if Pane.EyeIndex = -1 then 0 else Pane.EyeIndex) + 1) * (MapSize.X * MapSize.Y) ≤
          (i : Int)) →
      (MergeSample E MapSize Pane Source Shared).Data[i]? = Shared.Data[i]? ∧
      (MergeSample E MapSize Pane Source Shared).AlphaArray[i]? = Shared.AlphaArray[i]?) ∧
      (MergeSample E MapSize Pane Source Shared).Data.length = Shared.Data.length ∧
      (MergeSample E MapSize Pane Source Shared).AlphaArray.length = Shared.AlphaArray.length := by
    unfold MergeSample MergeBuffers
    apply foldl_forall_mem _ (fun S : FBlendBuffers K => (∀ i : Nat,
      ((i : Int) < (if Pane.EyeIndex = -1 then 0 else Pane.EyeIndex) * (MapSize.X * MapSize.Y) ∨
        ((if Pane.EyeIndex = -1 then 0 else Pane.EyeIndex) + 1) * (MapSize.X * MapSize.Y) ≤
          (i : Int)) →
      S.Data[i]? = Shared.Data[i]? ∧ S.AlphaArray[i]? = Shared.AlphaArray[i]?) ∧
      S.Data.length = Shared.Data.length ∧ S.AlphaArray.length = Shared.AlphaArray.length)
    · intro S SampleY hY hS
      unfold MergeRow
      apply foldl_forall_mem _ (fun S : FBlendBuffers K => (∀ i : Nat,
        ((i : Int) < (if Pane.EyeIndex = -1 then 0 else Pane.EyeIndex) * (MapSize.X * MapSize.Y) ∨
          ((if Pane.EyeIndex = -1 then 0 else Pane.EyeIndex) + 1) * (MapSize.X * MapSize.Y) ≤
            (i : Int)) →
        S.Data[i]? = Shared.Data[i]? ∧ S.AlphaArray[i]? = Shared.AlphaArray[i]?) ∧
        S.Data.length = Shared.Data.length ∧ S.AlphaArray.length = Shared.AlphaArray.length) _ _ _ hS
      intro S SampleX hX hS
      obtain ⟨hkeep, hl1, hl2⟩ := hS
      obtain ⟨hlo, hhi⟩ := hrange SampleX hX SampleY hY
      unfold MergePixel
      refine ⟨?_, ?_, ?_⟩
      · intro i hi
        have hne : (i : Int) ≠ DestIndex MapSize (OutputBoundsMin E MapSize Pane) SampleX SampleY +
            EyeOffset MapSize Pane := by omega
        constructor
        · simp only
          rw [AddAt_getElem?_ne _ _ _ i hne]
          exact (hkeep i hi).1
        · simp only
          split
          · rw [AddAt_getElem?_ne _ _ _ i hne]
            exact (hkeep i hi).2
          · exact (hkeep i hi).2
      · simp only
        rw [AddAt_length]
        exact hl1
      · simp only
        split
        · rw [AddAt_length]
          exact hl2
        · exact hl2
    · exact ⟨fun i _ => ⟨rfl, rfl⟩, rfl, rfl⟩
  exact hinv

theorem merge_writes_only_own_eye_block_witness :
    (0 : Int) < (⟨8, 4⟩ : FIntPoint).X ∧
    ((ExamplePane 0 0 6 3 0 0 1 true).EyeIndex = -1 ∨ (ExamplePane 0 0 6 3 0 0 1 true).EyeIndex = 0 ∨
      (ExamplePane 0 0 6 3 0 0 1 true).EyeIndex = 1) ∧
    (∀ SampleX ∈ LoopRange 0 (PixelWidth RationalEngine ⟨8, 4⟩ (ExamplePane 0 0 6 3 0 0 1 true)),
      ∀ SampleY ∈ LoopRange 0 (PixelHeight RationalEngine ⟨8, 4⟩ (ExamplePane 0 0 6 3 0 0 1 true)),
        (if (ExamplePane 0 0 6 3 0 0 1 true).EyeIndex = -1 then 0
          else (ExamplePane 0 0 6 3 0 0 1 true).EyeIndex) *
            ((⟨8, 4⟩ : FIntPoint).X * (⟨8, 4⟩ : FIntPoint).Y) ≤
          DestIndex ⟨8, 4⟩ (OutputBoundsMin RationalEngine ⟨8, 4⟩ (ExamplePane 0 0 6 3 0 0 1 true))
            SampleX SampleY + EyeOffset ⟨8, 4⟩ (ExamplePane 0 0 6 3 0 0 1 true) ∧
        DestIndex ⟨8, 4⟩ (OutputBoundsMin RationalEngine ⟨8, 4⟩ (ExamplePane 0 0 6 3 0 0 1 true))
            SampleX SampleY + EyeOffset ⟨8, 4⟩ (ExamplePane 0 0 6 3 0 0 1 true) <
          ((if (ExamplePane 0 0 6 3 0 0 1 true).EyeIndex = -1 then 0
            else (ExamplePane 0 0 6 3 0 0 1 true).EyeIndex) + 1) *
              ((⟨8, 4⟩ : FIntPoint).X * (⟨8, 4⟩ : FIntPoint).Y)) ∧
    (∀ i : Nat,
      ((i : Int) < (if (ExamplePane 0 0 6 3 0 0 1 true).EyeIndex = -1 then 0
          else (ExamplePane 0 0 6 3 0 0 1 true).EyeIndex) *
            ((⟨8, 4⟩ : FIntPoint).X * (⟨8, 4⟩ : FIntPoint).Y) ∨
        ((if (ExamplePane 0 0 6 3 0 0 1 true).EyeIndex = -1 then 0
          else (ExamplePane 0 0 6 3 0 0 1 true).EyeIndex) + 1) *
            ((⟨8, 4⟩ : FIntPoint).X * (⟨8, 4⟩ : FIntPoint).Y) ≤ (i : Int)) →
      (MergeSample RationalEngine ⟨8, 4⟩ (ExamplePane 0 0 6 3 0 0 1 true)
        (NewBlendBuffers RationalEngine ⟨8, 4⟩ (ExamplePane 0 0 6 3 0 0 1 true))
        ⟨SetNumZeroed 64, SetNumZeroed 64⟩).Data[i]? =
        (SetNumZeroed 64 : List (FLinearColor ℚ))[i]? ∧
      (MergeSample RationalEngine ⟨8, 4⟩ (ExamplePane 0 0 6 3 0 0 1 true)
        (NewBlendBuffers RationalEngine ⟨8, 4⟩ (ExamplePane 0 0 6 3 0 0 1 true))
        ⟨SetNumZeroed 64, SetNumZeroed 64⟩).AlphaArray[i]? = (SetNumZeroed 64 : List ℚ)[i]?) ∧
    (MergeSample RationalEngine ⟨8, 4⟩ (ExamplePane 0 0 6 3 0 0 1 true)
      (NewBlendBuffers RationalEngine ⟨8, 4⟩ (ExamplePane 0 0 6 3 0 0 1 true))
      ⟨SetNumZeroed 64, SetNumZeroed 64⟩).Data.length =
      (SetNumZeroed 64 : List (FLinearColor ℚ)).length ∧
    (MergeSample RationalEngine ⟨8, 4⟩ (ExamplePane 0 0 6 3 0 0 1 true)
      (NewBlendBuffers RationalEngine ⟨8, 4⟩ (ExamplePane 0 0 6 3 0 0 1 true))
      ⟨SetNumZeroed 64, SetNumZeroed 64⟩).AlphaArray.length = (SetNumZeroed 64 : List ℚ).length :=
  ⟨by decide, by decide,
    merge_writes_only_own_eye_block RationalEngine ⟨8, 4⟩ (ExamplePane 0 0 6 3 0 0 1 true)
      (NewBlendBuffers RationalEngine ⟨8, 4⟩ (ExamplePane 0 0 6 3 0 0 1 true))
      ⟨SetNumZeroed 64, SetNumZeroed 64⟩ (by decide) (by decide)⟩

/-! ## The clipped flag of the bilinear sampler -/

theorem ClampPixelCoords_flag (p size : FIntPoint) (b : Bool) :
    (ClampPixelCoords p size b).2 = true ↔ b = true ∨ OutsideArray p size := by
  unfold ClampPixelCoords OutsideArray
  simp only
  split
  · rename_i h
    simp [h]
  · rename_i h
    simp [h]

theorem ClampPixelCoords_inside (p size : FIntPoint) (b : Bool) (hX : 1 ≤ size.X)
    (hY : 1 ≤ size.Y) :
    (0 ≤ (ClampPixelCoords p size b).1.X ∧ (ClampPixelCoords p size b).1.X ≤ size.X - 1) ∧
    (0 ≤ (ClampPixelCoords p size b).1.Y ∧ (ClampPixelCoords p size b).1.Y ≤ size.Y - 1) ∧
    0 ≤ (ClampPixelCoords p size b).1.X + (ClampPixelCoords p size b).1.Y * size.X ∧
    (ClampPixelCoords p size b).1.X + (ClampPixelCoords p size b).1.Y * size.X <
      size.X * size.Y := by
  have hx : 0 ≤ (ClampPixelCoords p size b).1.X ∧ (ClampPixelCoords p size b).1.X ≤ size.X - 1 := by
    simp only [ClampPixelCoords, Clamp]
    omega
  have hy : 0 ≤ (ClampPixelCoords p size b).1.Y ∧ (ClampPixelCoords p size b).1.Y ≤ size.Y - 1 := by
    simp only [ClampPixelCoords, Clamp]
    omega
  refine ⟨hx, hy, ?_, ?_⟩
  · have := mul_nonneg hy.1 (by omega : (0 : Int) ≤ size.X)
    omega
  · have h1 : ((ClampPixelCoords p size b).1.Y + 1) * size.X ≤ size.Y * size.X :=
      mul_le_mul_of_nonneg_right (by omega) (by omega)
    nlinarith

/-- C24: for a tile buffer of `Wt ≥ 1` by `Ht ≥ 1` pixels and a sample coordinate for which
`GetColorBilinearFiltered`, entered with the flag `false`, returns: the flag is `true` exactly
when one of the four taps `L`, `L + (1, 0)`, `L + (0, 1)`, `L + (1, 1)` lies outside
`[0, Wt - 1] × [0, Ht - 1]`; every tap, once clamped, lies inside that rectangle and its linear
index lies in `[0, Wt × Ht)`; and when the flag is `true` for the sample coordinate of a pixel,
the pixel's iteration leaves the intermediate colour and weight buffers as they were. -/
theorem clipped_flag_iff_a_tap_is_outside (InData : FImagePixelData K) (Coords : FVector2D K)
    (bIncludeAlpha : Bool) (Color : FLinearColor K) (bClipped : Bool)
    (hX : 1 ≤ InData.Size.X) (hY : 1 ≤ InData.Size.Y)
    (hret : GetColorBilinearFiltered InData Coords false bIncludeAlpha = some (Color, bClipped)) :
    (bClipped = true ↔ ∃ Tap ∈ TapIndices Coords, OutsideArray Tap InData.Size) ∧
    (∀ Tap ∈ TapIndices Coords, ∀ Flag : Bool,
      (0 ≤ (ClampPixelCoords Tap InData.Size Flag).1.X ∧
        (ClampPixelCoords Tap InData.Size Flag).1.X ≤ InData.Size.X - 1) ∧
      (0 ≤ (ClampPixelCoords Tap InData.Size Flag).1.Y ∧
        (ClampPixelCoords Tap InData.Size Flag).1.Y ≤ InData.Size.Y - 1) ∧
      0 ≤ (ClampPixelCoords Tap InData.Size Flag).1.X +
        (ClampPixelCoords Tap InData.Size Flag).1.Y * InData.Size.X ∧
      (ClampPixelCoords Tap InData.Size Flag).1.X +
        (ClampPixelCoords Tap InData.Size Flag).1.Y * InData.Size.X <
          InData.Size.X * InData.Size.Y) ∧
    (bClipped = true → ∀ (E : FEngine K) (MapSize : FIntPoint) (X Y : Int)
      (Target : FBlendBuffers K),
      DirectionInSampleScreenSpace E MapSize InData.Payload.Pane X Y = Coords →
      InData.Payload.Pane.bIncludeAlpha = bIncludeAlpha →
      BlendPixel E MapSize InData X Y Target = some Target) := by
  have hsup : InData.PixelType ≠ EImagePixelType.Color := by
    intro hc
    unfold GetColorBilinearFiltered at hret
    simp [FetchPixel, hc] at hret
  refine ⟨?_, ?_, ?_⟩
  · unfold GetColorBilinearFiltered at hret
    simp only [FetchPixel_supported InData hsup, Option.some.injEq, Prod.mk.injEq] at hret
    rw [← hret.2]
    simp only [ClampPixelCoords_flag, TapIndices, List.mem_cons, List.mem_singleton,
      List.not_mem_nil, or_false, exists_eq_or_imp, exists_eq_left, Bool.false_eq_true, false_or]
    tauto
  · intro Tap _ Flag
    exact ClampPixelCoords_inside Tap InData.Size Flag hX hY
  · intro hclip E MapSize X Y Target hCoords hAlpha
    subst hclip
    unfold BlendPixel
    simp only [hCoords, hAlpha, hret]
    split
    · rfl
    · rfl

theorem clipped_flag_iff_a_tap_is_outside_witness :
    1 ≤ (MonoSample 0).Size.X ∧ 1 ≤ (MonoSample 0).Size.Y ∧
    GetColorBilinearFiltered (MonoSample 0) ⟨4, 2⟩ false false =
      some (⟨1 / 2, 1 / 2, 1 / 2, 1⟩, true) ∧
    (true = true ↔ ∃ Tap ∈ TapIndices (⟨4, 2⟩ : FVector2D ℚ), OutsideArray Tap (MonoSample 0).Size) ∧
    (∀ Tap ∈ TapIndices (⟨4, 2⟩ : FVector2D ℚ), ∀ Flag : Bool,
      (0 ≤ (ClampPixelCoords Tap (MonoSample 0).Size Flag).1.X ∧
        (ClampPixelCoords Tap (MonoSample 0).Size Flag).1.X ≤ (MonoSample 0).Size.X - 1) ∧
      (0 ≤ (ClampPixelCoords Tap (MonoSample 0).Size Flag).1.Y ∧
        (ClampPixelCoords Tap (MonoSample 0).Size Flag).1.Y ≤ (MonoSample 0).Size.Y - 1) ∧
      0 ≤ (ClampPixelCoords Tap (MonoSample 0).Size Flag).1.X +
        (ClampPixelCoords Tap (MonoSample 0).Size Flag).1.Y * (MonoSample 0).Size.X ∧
      (ClampPixelCoords Tap (MonoSample 0).Size Flag).1.X +
        (ClampPixelCoords Tap (MonoSample 0).Size Flag).1.Y * (MonoSample 0).Size.X <
          (MonoSample 0).Size.X * (MonoSample 0).Size.Y) ∧
    (true = true → ∀ (E : FEngine ℚ) (MapSize : FIntPoint) (X Y : Int)
      (Target : FBlendBuffers ℚ),
      DirectionInSampleScreenSpace E MapSize (MonoSample 0).Payload.Pane X Y = ⟨4, 2⟩ →
      (MonoSample 0).Payload.Pane.bIncludeAlpha = false →
      BlendPixel E MapSize (MonoSample 0) X Y Target = some Target) :=
  ⟨by decide, by decide, by decide!,
    clipped_flag_iff_a_tap_is_outside (MonoSample 0) ⟨4, 2⟩ false ⟨1 / 2, 1 / 2, 1 / 2, 1⟩ true
      (by decide) (by decide) (by decide!)⟩

/-! ## The bounding rectangle -/

/-- C26, the code at a failing input: on a map of 8 by 4 pixels, for a tile looking at yaw 22 and
pitch 0 degrees with a field of view of 135 degrees, the rectangle loops visit the columns 2, 3, 4
and the rows 1, 2, 3; the pixel in column 5 and row 2 is not visited, although its angular weights
are positive, its squared weight is above the threshold and the bilinear sampler does not clip its
sample coordinate. -/
theorem rectangle_misses_a_weighted_pixel :
    (LoopRange (PixelIndexHorzMinBound RationalEngine ⟨8, 4⟩ OffCentrePane)
      (PixelIndexHorzMaxBound RationalEngine ⟨8, 4⟩ OffCentrePane)).map
        (fun X => PositiveMod X 8) = [2, 3, 4] ∧
    LoopRange (PixelIndexVertMinBound RationalEngine ⟨8, 4⟩ OffCentrePane)
      (PixelIndexVertMaxBound RationalEngine ⟨8, 4⟩ OffCentrePane) = [1, 2, 3] ∧
    0 < WeightTheta RationalEngine ⟨8, 4⟩ OffCentrePane 5 ∧
    0 < WeightPhi RationalEngine ⟨8, 4⟩ OffCentrePane 2 ∧
    KINDA_SMALL_NUMBER < SampleWeightSquared RationalEngine ⟨8, 4⟩ OffCentrePane 5 2 ∧
    (GetColorBilinearFiltered OffCentreSample
      (DirectionInSampleScreenSpace RationalEngine ⟨8, 4⟩ OffCentrePane 5 2) false false).map
        (fun Result => Result.2) = some false := by
  decide!

/-! ## The angular weight, for the cosine and sine of the real numbers -/

theorem cos_half_fov_lt_one (Half : ℝ) (h0 : 0 < Half) (h180 : Half < 180) :
    Real.cos (Half * (Real.pi / 180)) < 1 := by
  have hpi := Real.pi_pos
  have h1 : 0 < Half * (Real.pi / 180) := by positivity
  have h2 : Half * (Real.pi / 180) ≤ Real.pi := by nlinarith
  have := Real.cos_lt_cos_of_nonneg_of_le_pi (le_refl 0) h2 h1
  rwa [Real.cos_zero] at this

theorem falloff_bounds (d c : ℝ) (hd : d ≤ 1) (hc : c < 1) :
    0 ≤ max (d - c) 0 / (1 - c) ∧ max (d - c) 0 / (1 - c) ≤ 1 := by
  have h1 : 0 < 1 - c := by linarith
  constructor
  · exact div_nonneg (le_max_right _ _) (le_of_lt h1)
  · rw [div_le_one h1]
    exact max_le (by linarith) (le_of_lt h1)

theorem falloff_eq_one_iff (d c : ℝ) (hc : c < 1) : max (d - c) 0 / (1 - c) = 1 ↔ d = 1 := by
  have h1 : 0 < 1 - c := by linarith
  rw [div_eq_one_iff_eq (ne_of_gt h1)]
  constructor
  · intro h
    rcases le_total (d - c) 0 with h2 | h2
    · rw [max_eq_right h2] at h
      linarith
    · rw [max_eq_left h2] at h
      linarith
  · intro h
    rw [h, max_eq_left (le_of_lt h1)]

theorem falloff_eq_zero (d c : ℝ) (hdc : d ≤ c) : max (d - c) 0 / (1 - c) = 0 := by
  rw [max_eq_right (by linarith), zero_div]

theorem cos_degrees_eq_one_iff (Delta : ℝ) :
    Real.cos (Delta * (Real.pi / 180)) = 1 ↔ ∃ k : ℤ, Delta = 360 * (k : ℝ) := by
  have hpi := Real.pi_pos
  rw [Real.cos_eq_one_iff]
  constructor
  · rintro ⟨n, hn⟩
    refine ⟨n, ?_⟩
    have h : Delta * Real.pi = (360 * (n : ℝ)) * Real.pi := by linarith
    exact mul_right_cancel₀ (ne_of_gt hpi) h
  · rintro ⟨k, hk⟩
    exact ⟨k, by rw [hk]; ring⟩

theorem cos_degrees_le_of_far (Delta Half : ℝ) (k : ℤ) (h0 : 0 ≤ Half)
    (hfar : Half ≤ |Delta - 360 * (k : ℝ)|) (hnear : |Delta - 360 * (k : ℝ)| ≤ 180) :
    Real.cos (Delta * (Real.pi / 180)) ≤ Real.cos (Half * (Real.pi / 180)) := by
  have hpi := Real.pi_pos
  have e1 : Real.cos (Delta * (Real.pi / 180)) =
      Real.cos (|Delta - 360 * (k : ℝ)| * (Real.pi / 180)) := by
    have e2 : |Delta - 360 * (k : ℝ)| * (Real.pi / 180) =
        |(Delta - 360 * (k : ℝ)) * (Real.pi / 180)| := by
      rw [abs_mul, abs_of_pos (by positivity : (0 : ℝ) < Real.pi / 180)]
    rw [e2, Real.cos_abs]
    have e3 : (Delta - 360 * (k : ℝ)) * (Real.pi / 180) =
        Delta * (Real.pi / 180) - (k : ℝ) * (2 * Real.pi) := by ring
    rw [e3, Real.cos_sub_int_mul_two_pi]
  rw [e1]
  apply Real.cos_le_cos_of_nonneg_of_le_pi
  · positivity
  · nlinarith
  · exact mul_le_mul_of_nonneg_right hfar (by positivity)

theorem WeightTheta_real (E : FEngine ℝ) (MapSize : FIntPoint) (Pane : FPanoPane ℝ) (X : Int)
    (hCos : E.Cos = Real.cos) (hSin : E.Sin = Real.sin) (hPI : E.PI = Real.pi) :
    WeightTheta E MapSize Pane X =
      max (Real.cos ((Theta MapSize X - (SampleRotation E Pane).Yaw) * (Real.pi / 180)) -
        Real.cos (1 / 2 * Pane.HorizontalFieldOfView * (Real.pi / 180))) 0 /
      (1 - Real.cos (1 / 2 * Pane.HorizontalFieldOfView * (Real.pi / 180))) := by
  simp only [WeightTheta, DotProduct, OutputDirectionTheta, SampleDirectionOnTheta, SampleYawRad,
    SampleHalfHorizontalFoVCosine, SampleHalfHorizontalFoVDegrees, DegreesToRadians, hCos, hSin,
    hPI, mul_zero, add_zero]
  rw [sub_mul, Real.cos_sub]

theorem WeightPhi_real (E : FEngine ℝ) (MapSize : FIntPoint) (Pane : FPanoPane ℝ) (Y : Int)
    (hCos : E.Cos = Real.cos) (hSin : E.Sin = Real.sin) (hPI : E.PI = Real.pi) :
    WeightPhi E MapSize Pane Y =
      max (Real.cos ((Phi MapSize Y - (SampleRotation E Pane).Pitch) * (Real.pi / 180)) -
        Real.cos (1 / 2 * Pane.VerticalFieldOfView * (Real.pi / 180))) 0 /
      (1 - Real.cos (1 / 2 * Pane.VerticalFieldOfView * (Real.pi / 180))) := by
  simp only [WeightPhi, DotProduct, OutputDirectionPhi, SampleDirectionOnPhi, SamplePitchRad,
    SampleHalfVerticalFoVCosine, SampleHalfVerticalFoVDegrees, DegreesToRadians, hCos, hSin,
    hPI, mul_zero, zero_mul, add_zero]
  rw [sub_mul, Real.cos_sub]

/-- C23: for an engine whose cosine, sine and pi are those of the real numbers and a tile whose
horizontal and vertical field of view lie in (0, 360) degrees, at every output pixel the weight
`WeightTheta × WeightPhi` and its square lie in [0, 1]; the weight is 1 exactly when the pixel's
theta equals the tile's yaw and its phi the tile's pitch (as angles, that is up to whole turns);
and the weight is 0 whenever the angular distance from theta to the yaw is at least half the
horizontal field of view, or the distance from phi to the pitch at least half the vertical one. -/
theorem angular_weight_in_unit_interval (E : FEngine ℝ) (MapSize : FIntPoint) (Pane : FPanoPane ℝ)
    (X Y : Int) (hCos : E.Cos = Real.cos) (hSin : E.Sin = Real.sin) (hPI : E.PI = Real.pi)
    (hH : 0 < Pane.HorizontalFieldOfView ∧ Pane.HorizontalFieldOfView < 360)
    (hV : 0 < Pane.VerticalFieldOfView ∧ Pane.VerticalFieldOfView < 360) :
    (0 ≤ WeightTheta E MapSize Pane X * WeightPhi E MapSize Pane Y ∧
      WeightTheta E MapSize Pane X * WeightPhi E MapSize Pane Y ≤ 1) ∧
    (0 ≤ SampleWeightSquared E MapSize Pane X Y ∧ SampleWeightSquared E MapSize Pane X Y ≤ 1) ∧
    (WeightTheta E MapSize Pane X * WeightPhi E MapSize Pane Y = 1 ↔
      (∃ k : ℤ, Theta MapSize X - (SampleRotation E Pane).Yaw = 360 * (k : ℝ)) ∧
      (∃ l : ℤ, Phi MapSize Y - (SampleRotation E Pane).Pitch = 360 * (l : ℝ))) ∧
    (|Theta MapSize X - (SampleRotation E Pane).Yaw| < 360 →
      |Phi MapSize Y - (SampleRotation E Pane).Pitch| < 360 →
      (WeightTheta E MapSize Pane X * WeightPhi E MapSize Pane Y = 1 ↔
        Theta MapSize X = (SampleRotation E Pane).Yaw ∧
        Phi MapSize Y = (SampleRotation E Pane).Pitch)) ∧
    (∀ k : ℤ,
      1 / 2 * Pane.HorizontalFieldOfView ≤
        |Theta MapSize X - (SampleRotation E Pane).Yaw - 360 * (k : ℝ)| →
      |Theta MapSize X - (SampleRotation E Pane).Yaw - 360 * (k : ℝ)| ≤ 180 →
      WeightTheta E MapSize Pane X * WeightPhi E MapSize Pane Y = 0) ∧
    (∀ l : ℤ,
      1 / 2 * Pane.VerticalFieldOfView ≤
        |Phi MapSize Y - (SampleRotation E Pane).Pitch - 360 * (l : ℝ)| →
      |Phi MapSize Y - (SampleRotation E Pane).Pitch - 360 * (l : ℝ)| ≤ 180 →
      WeightTheta E MapSize Pane X * WeightPhi E MapSize Pane Y = 0) := by
  have hcH := cos_half_fov_lt_one (1 / 2 * Pane.HorizontalFieldOfView) (by linarith [hH.1])
    (by linarith [hH.2])
  have hcV := cos_half_fov_lt_one (1 / 2 * Pane.VerticalFieldOfView) (by linarith [hV.1])
    (by linarith [hV.2])
  have eT := WeightTheta_real E MapSize Pane X hCos hSin hPI
  have eP := WeightPhi_real E MapSize Pane Y hCos hSin hPI
  obtain ⟨t0, t1⟩ := falloff_bounds
    (Real.cos ((Theta MapSize X - (SampleRotation E Pane).Yaw) * (Real.pi / 180)))
    _ (Real.cos_le_one _) hcH
  obtain ⟨p0, p1⟩ := falloff_bounds
    (Real.cos ((Phi MapSize Y - (SampleRotation E Pane).Pitch) * (Real.pi / 180)))
    _ (Real.cos_le_one _) hcV
  rw [← eT] at t0 t1
  rw [← eP] at p0 p1
  have hprod0 : 0 ≤ WeightTheta E MapSize Pane X * WeightPhi E MapSize Pane Y :=
    mul_nonneg t0 p0
  have hprod1 : WeightTheta E MapSize Pane X * WeightPhi E MapSize Pane Y ≤ 1 :=
    mul_le_one₀ t1 p0 p1
  have hone : WeightTheta E MapSize Pane X * WeightPhi E MapSize Pane Y = 1 ↔
      WeightTheta E MapSize Pane X = 1 ∧ WeightPhi E MapSize Pane Y = 1 := by
    constructor
    · intro h
      have h1 : WeightTheta E MapSize Pane X = 1 := by nlinarith
      have h2 : WeightPhi E MapSize Pane Y = 1 := by nlinarith
      exact ⟨h1, h2⟩
    · rintro ⟨h1, h2⟩
      rw [h1, h2, mul_one]
  have honeT : WeightTheta E MapSize Pane X = 1 ↔
      ∃ k : ℤ, Theta MapSize X - (SampleRotation E Pane).Yaw = 360 * (k : ℝ) := by
    rw [eT, falloff_eq_one_iff _ _ hcH, cos_degrees_eq_one_iff]
  have honeP : WeightPhi E MapSize Pane Y = 1 ↔
      ∃ l : ℤ, Phi MapSize Y - (SampleRotation E Pane).Pitch = 360 * (l : ℝ) := by
    rw [eP, falloff_eq_one_iff _ _ hcV, cos_degrees_eq_one_iff]
  have hturn : ∀ Delta : ℝ, |Delta| < 360 → ((∃ k : ℤ, Delta = 360 * (k : ℝ)) ↔ Delta = 0) := by
    intro Delta hlt
    constructor
    · rintro ⟨k, hk⟩
      rw [hk, abs_mul, abs_of_pos (by norm_num : (0 : ℝ) < 360)] at hlt
      have hk1 : |(k : ℝ)| < 1 := by linarith
      have hk2 : |k| < 1 := by exact_mod_cast hk1
      have hk0 : k = 0 := Int.abs_lt_one_iff.mp hk2
      rw [hk, hk0]
      simp
    · intro h
      exact ⟨0, by rw [h]; simp⟩
  refine ⟨⟨hprod0, hprod1⟩, ?_, ?_, ?_, ?_, ?_⟩
  · simp only [SampleWeightSquared]
    exact ⟨mul_nonneg hprod0 hprod0, mul_le_one₀ hprod1 hprod0 hprod1⟩
  · rw [hone, honeT, honeP]
  · intro hT hP
    rw [hone, honeT, honeP, hturn _ hT, hturn _ hP, sub_eq_zero, sub_eq_zero]
  · intro k hfar hnear
    have hle := cos_degrees_le_of_far (Theta MapSize X - (SampleRotation E Pane).Yaw)
      (1 / 2 * Pane.HorizontalFieldOfView) k (by linarith [hH.1]) hfar hnear
    rw [eT, falloff_eq_zero _ _ hle, zero_mul]
  · intro l hfar hnear
    have hle := cos_degrees_le_of_far (Phi MapSize Y - (SampleRotation E Pane).Pitch)
      (1 / 2 * Pane.VerticalFieldOfView) l (by linarith [hV.1]) hfar hnear
    rw [eP, falloff_eq_zero _ _ hle, mul_zero]

theorem angular_weight_in_unit_interval_witness :
    ∃ E : FEngine ℝ, E.Cos = Real.cos ∧ E.Sin = Real.sin ∧ E.PI = Real.pi ∧
    (0 < (PaneLookingAt 22 0 135 135 : FPanoPane ℝ).HorizontalFieldOfView ∧
      (PaneLookingAt 22 0 135 135 : FPanoPane ℝ).HorizontalFieldOfView < 360) ∧
    (0 < (PaneLookingAt 22 0 135 135 : FPanoPane ℝ).VerticalFieldOfView ∧
      (PaneLookingAt 22 0 135 135 : FPanoPane ℝ).VerticalFieldOfView < 360) ∧
    (0 ≤ WeightTheta E ⟨8, 4⟩ (PaneLookingAt 22 0 135 135) 5 *
        WeightPhi E ⟨8, 4⟩ (PaneLookingAt 22 0 135 135) 2 ∧
      WeightTheta E ⟨8, 4⟩ (PaneLookingAt 22 0 135 135) 5 *
        WeightPhi E ⟨8, 4⟩ (PaneLookingAt 22 0 135 135) 2 ≤ 1) ∧
    (0 ≤ SampleWeightSquared E ⟨8, 4⟩ (PaneLookingAt 22 0 135 135) 5 2 ∧
      SampleWeightSquared E ⟨8, 4⟩ (PaneLookingAt 22 0 135 135) 5 2 ≤ 1) ∧
    (WeightTheta E ⟨8, 4⟩ (PaneLookingAt 22 0 135 135) 5 *
        WeightPhi E ⟨8, 4⟩ (PaneLookingAt 22 0 135 135) 2 = 1 ↔
      (∃ k : ℤ, Theta ⟨8, 4⟩ 5 - (SampleRotation E (PaneLookingAt 22 0 135 135)).Yaw =
        360 * (k : ℝ)) ∧
      (∃ l : ℤ, Phi ⟨8, 4⟩ 2 - (SampleRotation E (PaneLookingAt 22 0 135 135)).Pitch =
        360 * (l : ℝ))) ∧
    (|Theta ⟨8, 4⟩ 5 - (SampleRotation E (PaneLookingAt 22 0 135 135)).Yaw| < 360 →
      |Phi ⟨8, 4⟩ 2 - (SampleRotation E (PaneLookingAt 22 0 135 135)).Pitch| < 360 →
      (WeightTheta E ⟨8, 4⟩ (PaneLookingAt 22 0 135 135) 5 *
          WeightPhi E ⟨8, 4⟩ (PaneLookingAt 22 0 135 135) 2 = 1 ↔
        Theta ⟨8, 4⟩ 5 = (SampleRotation E (PaneLookingAt 22 0 135 135)).Yaw ∧
        Phi ⟨8, 4⟩ 2 = (SampleRotation E (PaneLookingAt 22 0 135 135)).Pitch)) ∧
    (∀ k : ℤ,
      1 / 2 * (PaneLookingAt 22 0 135 135 : FPanoPane ℝ).HorizontalFieldOfView ≤
        |Theta ⟨8, 4⟩ 5 - (SampleRotation E (PaneLookingAt 22 0 135 135)).Yaw - 360 * (k : ℝ)| →
      |Theta ⟨8, 4⟩ 5 - (SampleRotation E (PaneLookingAt 22 0 135 135)).Yaw - 360 * (k : ℝ)| ≤
        180 →
      WeightTheta E ⟨8, 4⟩ (PaneLookingAt 22 0 135 135) 5 *
        WeightPhi E ⟨8, 4⟩ (PaneLookingAt 22 0 135 135) 2 = 0) ∧
    (∀ l : ℤ,
      1 / 2 * (PaneLookingAt 22 0 135 135 : FPanoPane ℝ).VerticalFieldOfView ≤
        |Phi ⟨8, 4⟩ 2 - (SampleRotation E (PaneLookingAt 22 0 135 135)).Pitch - 360 * (l : ℝ)| →
      |Phi ⟨8, 4⟩ 2 - (SampleRotation E (PaneLookingAt 22 0 135 135)).Pitch - 360 * (l : ℝ)| ≤
        180 →
      WeightTheta E ⟨8, 4⟩ (PaneLookingAt 22 0 135 135) 5 *
        WeightPhi E ⟨8, 4⟩ (PaneLookingAt 22 0 135 135) 2 = 0) :=
  ⟨⟨Real.pi, Real.cos, Real.sin, fun _ Camera => Camera, fun _ v => v,
      fun _ _ _ _ => ⟨⟨0, 0, 0, 0⟩, ⟨0, 0, 0, 0⟩, ⟨0, 0, 0, 0⟩, ⟨0, 0, 0, 0⟩⟩, fun _ v => v⟩,
    rfl, rfl, rfl, by norm_num [PaneLookingAt], by norm_num [PaneLookingAt],
    angular_weight_in_unit_interval _ ⟨8, 4⟩ (PaneLookingAt 22 0 135 135) 5 2 rfl rfl rfl
      (by norm_num [PaneLookingAt]) (by norm_num [PaneLookingAt])⟩

/-! ## The alpha channel as accumulated weight -/

theorem foldlM_option_rel {α β γ : Type} (R : β → γ → Prop) (f : β → α → Option β)
    (g : γ → α → Option γ)
    (h : ∀ a b c b2, R b c → f b a = some b2 → ∃ c2, g c a = some c2 ∧ R b2 c2) :
    ∀ (l : List α) (b : β) (c : γ) (b2 : β), R b c → l.foldlM f b = some b2 →
      ∃ c2, l.foldlM g c = some c2 ∧ R b2 c2 := by
  intro l
  induction l with
  | nil =>
    intro b c b2 hR hf
    simp only [List.foldlM_nil, Option.pure_def, Option.some.injEq] at hf
    exact ⟨c, rfl, hf ▸ hR⟩
  | cons a l ih =>
    intro b c b2 hR hf
    rw [List.foldlM_cons] at hf ⊢
    cases hfa : f b a with
    | none => rw [hfa] at hf; exact absurd hf (by simp)
    | some b1 =>
      rw [hfa] at hf
      obtain ⟨c1, hc1, hR1⟩ := h a b c b1 hR hfa
      rw [hc1]
      exact ih b1 c1 b2 hR1 hf

theorem foldl_rel {α β γ : Type} (R : β → γ → Prop) (f : β → α → β) (g : γ → α → γ)
    (h : ∀ a b c, R b c → R (f b a) (g c a)) :
    ∀ (l : List α) (b : β) (c : γ), R b c → R (l.foldl f b) (l.foldl g c) := by
  intro l
  induction l with
  | nil => intro b c hR; exact hR
  | cons a l ih => intro b c hR; exact ih _ _ (h a b c hR)

theorem map_A_AddAt (Colours : List (FLinearColor K)) (Index : Int) (v : FLinearColor K) :
    (AddAt Colours Index v).map (fun Pixel => Pixel.A) =
      AddAt (Colours.map (fun Pixel => Pixel.A)) Index v.A := by
  unfold AddAt
  split
  · apply List.ext_getElem?
    intro n
    simp only [List.getElem?_map, List.getElem?_modify]
    cases Colours[n]? with
    | none => rfl
    | some x =>
      simp only [Option.map_some', Option.some.injEq]
      split <;> simp
  · rfl

theorem A_ReadAt (Colours : List (FLinearColor K)) (Index : Int) :
    (ReadAt Colours Index).A = ReadAt (Colours.map (fun Pixel => Pixel.A)) Index := by
  unfold ReadAt
  split
  · exact (List.getD_map Colours 0 (fun Pixel : FLinearColor K => Pixel.A)).symm
  · rfl

theorem GetColorBilinearFiltered_alpha (InData : FImagePixelData K) (Coords : FVector2D K)
    (Flag : Bool) :
    GetColorBilinearFiltered InData Coords Flag false =
      (GetColorBilinearFiltered InData Coords Flag true).map
        (fun Result => ({ Result.1 with A := 1 }, Result.2)) := by
  unfold GetColorBilinearFiltered
  simp only
  split <;> simp

theorem BlendPixel_weights (E : FEngine K) (MapSize : FIntPoint) (InData : FImagePixelData K)
    (X Y : Int) (Colour Weight Colour2 : FBlendBuffers K)
    (hAlpha : InData.Payload.Pane.bIncludeAlpha = false) (hR : AlphaIsWeight Colour Weight)
    (h : BlendPixel E MapSize InData X Y Colour = some Colour2) :
    ∃ Weight2, BlendPixel E MapSize (TrackAlpha InData) X Y Weight = some Weight2 ∧
      AlphaIsWeight Colour2 Weight2 := by
  unfold BlendPixel at h ⊢
  simp only [hAlpha] at h
  have e1 : SampleWeightSquared E MapSize (TrackAlpha InData).Payload.Pane X Y =
      SampleWeightSquared E MapSize InData.Payload.Pane X Y := rfl
  have e2 : DirectionInSampleScreenSpace E MapSize (TrackAlpha InData).Payload.Pane X Y =
      DirectionInSampleScreenSpace E MapSize InData.Payload.Pane X Y := rfl
  have e3 : FinalIndex MapSize.X (OutputBoundsMin E MapSize (TrackAlpha InData).Payload.Pane)
      (PixelWidth E MapSize (TrackAlpha InData).Payload.Pane) X Y =
      FinalIndex MapSize.X (OutputBoundsMin E MapSize InData.Payload.Pane)
        (PixelWidth E MapSize InData.Payload.Pane) X Y := rfl
  have e4 : (TrackAlpha InData).Payload.Pane.bIncludeAlpha = true := rfl
  have e5 : ∀ Coords Flag b, GetColorBilinearFiltered (TrackAlpha InData) Coords Flag b =
      GetColorBilinearFiltered InData Coords Flag b := fun _ _ _ => rfl
  simp only [e1, e2, e3, e4, e5]
  split
  · rename_i hw
    simp only [hw, if_true] at h
    rw [GetColorBilinearFiltered_alpha] at h
    cases hg : GetColorBilinearFiltered InData
        (DirectionInSampleScreenSpace E MapSize InData.Payload.Pane X Y) false true with
    | none => rw [hg] at h; exact absurd h (by simp)
    | some Result =>
      obtain ⟨SampleColor, bClipped⟩ := Result
      rw [hg] at h
      simp only [Option.map_some'] at h
      cases bClipped with
      | true =>
        simp only [Bool.not_true, Bool.false_eq_true, if_false, Option.some.injEq] at h
        exact ⟨Weight, rfl, h ▸ hR⟩
      | false =>
        simp only [Bool.not_false, if_true, Option.some.injEq] at h
        refine ⟨_, rfl, ?_⟩
        rw [← h]
        unfold AlphaIsWeight at hR ⊢
        simp only [if_true]
        rw [map_A_AddAt, hR]
        simp
  · rename_i hw
    simp only [hw, if_false, Option.some.injEq] at h
    exact ⟨Weight, rfl, h ▸ hR⟩

theorem BlendSample_weights (E : FEngine K) (MapSize : FIntPoint) (InData : FImagePixelData K)
    (Colour : FBlendBuffers K) (hAlpha : InData.Payload.Pane.bIncludeAlpha = false)
    (h : BlendSample E MapSize InData = some Colour) :
    ∃ Weight, BlendSample E MapSize (TrackAlpha InData) = some Weight ∧
      AlphaIsWeight Colour Weight := by
  unfold BlendSample at h ⊢
  refine foldlM_option_rel AlphaIsWeight _ _ ?_ _ _ _ _ ?_ h
  · intro Y Colour1 Weight1 Colour2 hR hrow
    unfold BlendRow at hrow ⊢
    refine foldlM_option_rel AlphaIsWeight _ _ ?_ _ _ _ _ hR hrow
    intro X Colour3 Weight3 Colour4 hR3 hpix
    exact BlendPixel_weights E MapSize InData X Y Colour3 Weight3 Colour4 hAlpha hR3 hpix
  · unfold AlphaIsWeight NewBlendBuffers
    have e4 : (TrackAlpha InData).Payload.Pane.bIncludeAlpha = true := rfl
    simp only [e4, if_true, SetNumZeroed, List.map_replicate]
    rfl

theorem MergeSample_weights (E : FEngine K) (MapSize : FIntPoint) (InData : FImagePixelData K)
    (Colour Weight SharedColour SharedWeight : FBlendBuffers K)
    (hAlpha : InData.Payload.Pane.bIncludeAlpha = false)
    (hT : AlphaIsWeight Colour Weight) (hS : AlphaIsWeight SharedColour SharedWeight) :
    AlphaIsWeight (MergeSample E MapSize InData.Payload.Pane Colour SharedColour)
      (MergeSample E MapSize (TrackAlpha InData).Payload.Pane Weight SharedWeight) := by
  unfold MergeSample MergeBuffers
  refine foldl_rel AlphaIsWeight _ _ ?_ _ _ _ hS
  intro SampleY S1 S2 hS1
  unfold MergeRow
  refine foldl_rel AlphaIsWeight _ _ ?_ _ _ _ hS1
  intro SampleX S3 S4 hS3
  unfold MergePixel AlphaIsWeight at *
  have e4 : (TrackAlpha InData).Payload.Pane.bIncludeAlpha = true := rfl
  have e6 : EyeOffset MapSize (TrackAlpha InData).Payload.Pane =
      EyeOffset MapSize InData.Payload.Pane := rfl
  have e7 : OutputBoundsMin E MapSize (TrackAlpha InData).Payload.Pane =
      OutputBoundsMin E MapSize InData.Payload.Pane := rfl
  have e8 : PixelWidth E MapSize (TrackAlpha InData).Payload.Pane =
      PixelWidth E MapSize InData.Payload.Pane := rfl
  simp only [e4, e6, e7, e8, if_true]
  rw [map_A_AddAt, hS3, A_ReadAt, hT]

theorem AccumulateSamples_weights (E : FEngine K) (MapSize : FIntPoint) :
    ∀ (Samples : List (FImagePixelData K)) (SharedColour SharedWeight Colour : FBlendBuffers K),
      (∀ InData ∈ Samples, InData.Payload.Pane.bIncludeAlpha = false) →
      AlphaIsWeight SharedColour SharedWeight →
      AccumulateSamples E MapSize SharedColour Samples = some Colour →
      ∃ Weight, AccumulateSamples E MapSize SharedWeight (Samples.map TrackAlpha) = some Weight ∧
        AlphaIsWeight Colour Weight := by
  intro Samples
  induction Samples with
  | nil =>
    intro SharedColour SharedWeight Colour _ hS h
    simp only [AccumulateSamples, List.foldlM_nil, Option.pure_def, Option.some.injEq] at h
    exact ⟨SharedWeight, rfl, h ▸ hS⟩
  | cons InData Rest ih =>
    intro SharedColour SharedWeight Colour hAlpha hS h
    unfold AccumulateSamples at h ⊢
    rw [List.map_cons, List.foldlM_cons] at *
    unfold AccumulateSample at h ⊢
    cases hB : BlendSample E MapSize InData with
    | none => rw [hB] at h; exact absurd h (by simp)
    | some Target =>
      rw [hB] at h
      obtain ⟨Weight, hW, hT⟩ := BlendSample_weights E MapSize InData Target
        (hAlpha InData (List.mem_cons_self _ _)) hB
      rw [hW]
      exact ih _ _ Colour (fun a ha => hAlpha a (List.mem_cons_of_mem _ ha))
        (MergeSample_weights E MapSize InData Target Weight SharedColour SharedWeight
          (hAlpha InData (List.mem_cons_self _ _)) hT hS) h

theorem FrameBuffers_cons (E : FEngine K) (MapSize : FIntPoint) (First : FImagePixelData K)
    (Rest : List (FImagePixelData K)) :
    FrameBuffers E MapSize (First :: Rest) =
      AccumulateSamples E MapSize
        ⟨(NewOutputFrame MapSize First.Payload.Pane).OutputEquirectangularMap,
          (NewOutputFrame MapSize First.Payload.Pane).AlphaArray⟩ (First :: Rest) := rfl

theorem AccumulateSamples_snoc (E : FEngine K) (MapSize : FIntPoint)
    (Samples : List (FImagePixelData K)) (InData : FImagePixelData K)
    (Init Shared : FBlendBuffers K) (h : AccumulateSamples E MapSize Init Samples = some Shared) :
    AccumulateSamples E MapSize Init (Samples ++ [InData]) =
      AccumulateSample E MapSize Shared InData := by
  unfold AccumulateSamples at h ⊢
  rw [List.foldlM_append, h]
  simp only [Option.bind_eq_bind, Option.some_bind]
  rw [List.foldlM_cons]
  cases AccumulateSample E MapSize Shared InData <;> rfl

theorem FrameBuffers_singleton (E : FEngine K) (MapSize : FIntPoint) (InData : FImagePixelData K) :
    FrameBuffers E MapSize [InData] =
      AccumulateSample E MapSize
        ⟨(NewOutputFrame MapSize InData.Payload.Pane).OutputEquirectangularMap,
          (NewOutputFrame MapSize InData.Payload.Pane).AlphaArray⟩ InData := by
  rw [FrameBuffers_cons]
  exact AccumulateSamples_snoc E MapSize [] InData _ _ rfl

theorem FrameBuffers_snoc (E : FEngine K) (MapSize : FIntPoint)
    (Samples : List (FImagePixelData K)) (InData : FImagePixelData K) (Shared : FBlendBuffers K)
    (h : FrameBuffers E MapSize Samples = some Shared) :
    FrameBuffers E MapSize (Samples ++ [InData]) = AccumulateSample E MapSize Shared InData := by
  cases Samples with
  | nil => exact absurd h (by simp [FrameBuffers])
  | cons First Rest =>
    rw [FrameBuffers_cons] at h
    rw [List.cons_append, FrameBuffers_cons, ← List.cons_append]
    exact AccumulateSamples_snoc E MapSize (First :: Rest) InData _ Shared h

theorem FrameBuffers_weights (E : FEngine K) (MapSize : FIntPoint)
    (Samples : List (FImagePixelData K)) (Colour : FBlendBuffers K)
    (hAlpha : ∀ InData ∈ Samples, InData.Payload.Pane.bIncludeAlpha = false)
    (h : FrameBuffers E MapSize Samples = some Colour) :
    ∃ Weight, FrameBuffers E MapSize (Samples.map TrackAlpha) = some Weight ∧
      AlphaIsWeight Colour Weight := by
  cases Samples with
  | nil => exact absurd h (by simp [FrameBuffers])
  | cons First Rest =>
    rw [FrameBuffers_cons] at h
    rw [List.map_cons, FrameBuffers_cons, ← List.map_cons]
    refine AccumulateSamples_weights E MapSize (First :: Rest) _ _ Colour hAlpha ?_ h
    unfold AlphaIsWeight NewOutputFrame
    have e4 : (TrackAlpha First).Payload.Pane.bIncludeAlpha = true := rfl
    have e5 : EyeMultiplier (TrackAlpha First).Payload.Pane = EyeMultiplier First.Payload.Pane := rfl
    simp only [e4, e5, if_true, SetNumZeroed, List.map_replicate]
    rfl

/-- State of a blender that received the given samples of the frame `Key`, fewer than the frame
expects: nothing pending for the frame before its first sample, afterwards exactly one pending
state, whose buffers are the accumulated buffers of the samples. -/
theorem run_frame_buffers (E : FEngine K) (MapSize : FIntPoint)
    (Key : FMoviePipelineFrameOutputState) (N : Int) :
    ∀ Samples : List (FImagePixelData K),
      (∀ InData ∈ Samples, InData.PixelType ≠ EImagePixelType.Color) →
      (∀ InData ∈ Samples, InData.Payload.SampleState.OutputState = Key) →
      (∀ First, Samples.head? = some First → TotalSampleCount First.Payload.Pane = N) →
      (Samples.length : Int) < N →
      ∃ Before Calls, DeliverSamples E (NewBlender MapSize) Samples = some (Before, Calls) ∧
        Before.OutputEquirectangularMapSize = MapSize ∧
        ((Samples = [] ∧ PendingOfFrame Before.PendingData Key.OutputFrameNumber = []) ∨
          (Samples ≠ [] ∧ ∃ Frame,
            PendingOfFrame Before.PendingData Key.OutputFrameNumber = [(Key, Frame)] ∧
            Frame.NumSamplesTotal = N ∧
            NumFinishedSamples Frame.BlendedData = (Samples.length : Int) ∧
            FrameBuffers E MapSize Samples =
              some ⟨Frame.OutputEquirectangularMap, Frame.AlphaArray⟩)) := by
  intro Samples
  induction Samples using List.reverseRecOn with
  | nil =>
    intro _ _ _ _
    exact ⟨NewBlender MapSize, [], rfl, rfl, Or.inl ⟨rfl, rfl⟩⟩
  | append_singleton Samples InData ih =>
    intro hsup hkey hN hcount
    rw [List.length_append, List.length_singleton] at hcount
    push_cast at hcount
    obtain ⟨Before, CallsBefore, hrun, hsize, hinv⟩ := ih
      (fun a ha => hsup a (List.mem_append_left _ ha))
      (fun a ha => hkey a (List.mem_append_left _ ha))
      (fun First hF => hN First (by
        cases Samples with
        | nil => simp at hF
        | cons a l => simpa using hF))
      (by omega)
    have hk : InData.Payload.SampleState.OutputState = Key :=
      hkey InData (List.mem_append_right _ (List.mem_singleton_self _))
    obtain ⟨After, Calls, hsub⟩ := submit_total E Before InData
      (hsup InData (List.mem_append_right _ (List.mem_singleton_self _)))
    have hprog : FrameProgress Before InData.Payload.SampleState.OutputState N
        (Samples.length : Int) := by
      rw [hk]
      rcases hinv with ⟨hnil, hP⟩ | ⟨hne, Frame, hP, hT, hFin, _⟩
      · exact Or.inl ⟨by rw [hnil]; rfl, hP⟩
      · have hpos : 0 < (Samples.length : Int) := by
          have := List.length_pos.mpr hne
          omega
        exact Or.inr ⟨hpos, Frame, hP, hT, hFin⟩
    have hN0 : (Samples.length : Int) = 0 → TotalSampleCount InData.Payload.Pane = N := by
      intro h0
      have hnil : Samples = [] := List.length_eq_zero.mp (by omega)
      exact hN InData (by rw [hnil]; rfl)
    obtain ⟨Target, hBlend, hcase⟩ := submit_same_frame E Before After InData Calls N
      (Samples.length : Int) hprog hN0 hsub
    rw [hsize] at hBlend
    have hAfterSize : After.OutputEquirectangularMapSize = MapSize := by
      obtain ⟨_, _, hs, _⟩ := submit_cases E Before After InData Calls hsub
      rw [hs, hsize]
    refine ⟨After, CallsBefore ++ Calls,
      DeliverSamples_snoc E Samples _ Before After InData CallsBefore Calls hrun hsub,
      hAfterSize, Or.inr ⟨by simp, ?_⟩⟩
    rcases hcase with ⟨hlast, _, _⟩ | ⟨_, hprog2, hP2, _⟩
    · omega
    · rw [hk] at hP2 hprog2
      rcases hprog2 with ⟨h0, _⟩ | ⟨_, Frame2, hPF, hT2, hFin2⟩
      · have := Int.natCast_nonneg Samples.length
        omega
      · have hFrame : Frame2 = UpdatedOutputFrame E Before InData Target := by
          rw [hPF] at hP2
          simpa using hP2
        refine ⟨Frame2, hPF, hT2, ?_, ?_⟩
        · rw [hFin2, List.length_append, List.length_singleton]
          push_cast
          rfl
        · rw [hFrame]
          have hShared : (⟨(UpdatedOutputFrame E Before InData Target).OutputEquirectangularMap,
              (UpdatedOutputFrame E Before InData Target).AlphaArray⟩ : FBlendBuffers K) =
              SharedAfterMerge E Before InData Target := rfl
          rw [hShared]
          unfold SharedAfterMerge
          rw [hsize, ResolveOutputFrame_eq, hk]
          rcases hinv with ⟨hnil, hP⟩ | ⟨hne, Frame, hP, _, _, hFB⟩
          · rw [hP, hnil, List.nil_append, FrameBuffers_singleton, hsize]
            unfold AccumulateSample
            rw [hBlend]
            rfl
          · rw [hP, FrameBuffers_snoc E MapSize Samples InData _ hFB]
            unfold AccumulateSample
            rw [hBlend]
            rfl

theorem FrameBuffers_SharedAfterMerge (E : FEngine K) (MapSize : FIntPoint)
    (Samples : List (FImagePixelData K)) (Before : FPanoramicBlender K)
    (InData : FImagePixelData K) (Target : FBlendBuffers K)
    (hsize : Before.OutputEquirectangularMapSize = MapSize)
    (hinv : (Samples = [] ∧ PendingOfFrame Before.PendingData
        InData.Payload.SampleState.OutputState.OutputFrameNumber = []) ∨
      (∃ Frame, PendingOfFrame Before.PendingData
          InData.Payload.SampleState.OutputState.OutputFrameNumber =
            [(InData.Payload.SampleState.OutputState, Frame)] ∧
        FrameBuffers E MapSize Samples = some ⟨Frame.OutputEquirectangularMap, Frame.AlphaArray⟩))
    (hBlend : BlendSample E MapSize InData = some Target) :
    FrameBuffers E MapSize (Samples ++ [InData]) = some (SharedAfterMerge E Before InData Target) := by
  unfold SharedAfterMerge
  rw [hsize, ResolveOutputFrame_eq]
  rcases hinv with ⟨hnil, hP⟩ | ⟨Frame, hP, hFB⟩
  · rw [hP, hnil, List.nil_append, FrameBuffers_singleton, hsize]
    unfold AccumulateSample
    rw [hBlend]
    rfl
  · rw [hP, FrameBuffers_snoc E MapSize Samples InData _ hFB]
    unfold AccumulateSample
    rw [hBlend]
    rfl

/-- C27: for samples of one frame, all submitted with alpha accumulation disabled, to a new
blender, the samples before the last one not completing the frame: after the merge step of the
last sample the alpha channel of every entry of the frame's shared colour buffer equals the
accumulated weight of the samples at that entry (the sum of the squared weights of the
contributions merged into it), so the normalization of a pixel divides R, G and B by the
accumulated weight; this buffer is the one that the call stores in the frame's pending state or,
when the sample completes the frame, normalizes into the emitted panorama. -/
theorem alpha_channel_is_accumulated_weight (E : FEngine K) (MapSize : FIntPoint)
    (Key : FMoviePipelineFrameOutputState) (N : Int) (Samples : List (FImagePixelData K))
    (InData : FImagePixelData K)
    (hsup : ∀ Sample ∈ Samples ++ [InData], Sample.PixelType ≠ EImagePixelType.Color)
    (hkey : ∀ Sample ∈ Samples ++ [InData], Sample.Payload.SampleState.OutputState = Key)
    (halpha : ∀ Sample ∈ Samples ++ [InData], Sample.Payload.Pane.bIncludeAlpha = false)
    (hN : ∀ First, (Samples ++ [InData]).head? = some First →
      TotalSampleCount First.Payload.Pane = N)
    (hcount : (Samples.length : Int) < N) :
    ∃ Before Calls Target Weights,
      DeliverSamples E (NewBlender MapSize) Samples = some (Before, Calls) ∧
      BlendSample E MapSize InData = some Target ∧
      AccumulatedWeight E MapSize (Samples ++ [InData]) = some Weights ∧
      (SharedAfterMerge E Before InData Target).Data.map (fun Pixel => Pixel.A) = Weights ∧
      (∀ i : Int,
        NormalizePixel false (ReadAt (SharedAfterMerge E Before InData Target).Data i)
            (ReadAt (SharedAfterMerge E Before InData Target).AlphaArray i) =
          ⟨FloatDiv (ReadAt (SharedAfterMerge E Before InData Target).Data i).R (ReadAt Weights i),
            FloatDiv (ReadAt (SharedAfterMerge E Before InData Target).Data i).G (ReadAt Weights i),
            FloatDiv (ReadAt (SharedAfterMerge E Before InData Target).Data i).B (ReadAt Weights i),
            some 1⟩) ∧
      ∃ After MoreCalls,
        OnCompleteRenderPassDataAvailable_AnyThread E Before InData = some (After, MoreCalls) ∧
        (((Samples.length : Int) + 1 = N ∧
            MoreCalls = DebugCalls E Before InData Target ++
              [FinalPixelData E Before InData Target]) ∨
          ((Samples.length : Int) + 1 ≠ N ∧
            PendingOfFrame After.PendingData Key.OutputFrameNumber =
              [(Key, UpdatedOutputFrame E Before InData Target)])) := by
  have hk : InData.Payload.SampleState.OutputState = Key :=
    hkey InData (List.mem_append_right _ (List.mem_singleton_self _))
  obtain ⟨Before, Calls, hrun, hsize, hinv⟩ := run_frame_buffers E MapSize Key N Samples
    (fun a ha => hsup a (List.mem_append_left _ ha))
    (fun a ha => hkey a (List.mem_append_left _ ha))
    (fun First hF => hN First (by
      cases Samples with
      | nil => simp at hF
      | cons a l => simpa using hF))
    hcount
  obtain ⟨After, MoreCalls, hsub⟩ := submit_total E Before InData
    (hsup InData (List.mem_append_right _ (List.mem_singleton_self _)))
  have hprog : FrameProgress Before InData.Payload.SampleState.OutputState N
      (Samples.length : Int) := by
    rw [hk]
    rcases hinv with ⟨hnil, hP⟩ | ⟨hne, Frame, hP, hT, hFin, _⟩
    · exact Or.inl ⟨by rw [hnil]; rfl, hP⟩
    · have hpos : 0 < (Samples.length : Int) := by
        have := List.length_pos.mpr hne
        omega
      exact Or.inr ⟨hpos, Frame, hP, hT, hFin⟩
  have hN0 : (Samples.length : Int) = 0 → TotalSampleCount InData.Payload.Pane = N := by
    intro h0
    have hnil : Samples = [] := List.length_eq_zero.mp (by omega)
    exact hN InData (by rw [hnil]; rfl)
  obtain ⟨Target, hBlend, hcase⟩ := submit_same_frame E Before After InData MoreCalls N
    (Samples.length : Int) hprog hN0 hsub
  rw [hsize] at hBlend
  have hinv2 : (Samples = [] ∧ PendingOfFrame Before.PendingData
        InData.Payload.SampleState.OutputState.OutputFrameNumber = []) ∨
      (∃ Frame, PendingOfFrame Before.PendingData
          InData.Payload.SampleState.OutputState.OutputFrameNumber =
            [(InData.Payload.SampleState.OutputState, Frame)] ∧
        FrameBuffers E MapSize Samples =
          some ⟨Frame.OutputEquirectangularMap, Frame.AlphaArray⟩) := by
    rw [hk]
    rcases hinv with ⟨hnil, hP⟩ | ⟨_, Frame, hP, _, _, hFB⟩
    · exact Or.inl ⟨hnil, hP⟩
    · exact Or.inr ⟨Frame, hP, hFB⟩
  have hFB := FrameBuffers_SharedAfterMerge E MapSize Samples Before InData Target hsize hinv2
    hBlend
  obtain ⟨Weight, hW, hRel⟩ := FrameBuffers_weights E MapSize (Samples ++ [InData]) _ halpha hFB
  refine ⟨Before, Calls, Target, Weight.AlphaArray, hrun, hBlend, ?_, hRel, ?_, After, MoreCalls,
    hsub, ?_⟩
  · unfold AccumulatedWeight
    rw [hW]
    rfl
  · intro i
    unfold AlphaIsWeight at hRel
    simp only [NormalizePixel, Bool.false_eq_true, if_false]
    rw [← hRel, ← A_ReadAt]
  · rcases hcase with ⟨hlast, _, hcalls⟩ | ⟨hnot, _, hP2, _⟩
    · exact Or.inl ⟨hlast, hcalls⟩
    · rw [hk] at hP2
      exact Or.inr ⟨hnot, hP2⟩

theorem alpha_channel_is_accumulated_weight_witness :
    (∀ Sample ∈ [MonoSample 0, MonoSample 1] ++ [MonoSample 2],
      Sample.PixelType ≠ EImagePixelType.Color) ∧
    (∀ Sample ∈ [MonoSample 0, MonoSample 1] ++ [MonoSample 2],
      Sample.Payload.SampleState.OutputState = ⟨7, 0⟩) ∧
    (∀ Sample ∈ [MonoSample 0, MonoSample 1] ++ [MonoSample 2],
      Sample.Payload.Pane.bIncludeAlpha = false) ∧
    (∀ First, ([MonoSample 0, MonoSample 1] ++ [MonoSample 2]).head? = some First →
      TotalSampleCount First.Payload.Pane = 8) ∧
    (([MonoSample 0, MonoSample 1].length : Nat) : Int) < 8 ∧
    ∃ Before Calls Target Weights,
      DeliverSamples RationalEngine (NewBlender ⟨8, 4⟩) [MonoSample 0, MonoSample 1] =
        some (Before, Calls) ∧
      BlendSample RationalEngine ⟨8, 4⟩ (MonoSample 2) = some Target ∧
      AccumulatedWeight RationalEngine ⟨8, 4⟩ ([MonoSample 0, MonoSample 1] ++ [MonoSample 2]) =
        some Weights ∧
      (SharedAfterMerge RationalEngine Before (MonoSample 2) Target).Data.map
        (fun Pixel => Pixel.A) = Weights ∧
      (∀ i : Int,
        NormalizePixel false
            (ReadAt (SharedAfterMerge RationalEngine Before (MonoSample 2) Target).Data i)
            (ReadAt (SharedAfterMerge RationalEngine Before (MonoSample 2) Target).AlphaArray i) =
          ⟨FloatDiv (ReadAt (SharedAfterMerge RationalEngine Before (MonoSample 2) Target).Data i).R
              (ReadAt Weights i),
            FloatDiv (ReadAt (SharedAfterMerge RationalEngine Before (MonoSample 2) Target).Data i).G
              (ReadAt Weights i),
            FloatDiv (ReadAt (SharedAfterMerge RationalEngine Before (MonoSample 2) Target).Data i).B
              (ReadAt Weights i),
            some 1⟩) ∧
      ∃ After MoreCalls,
        OnCompleteRenderPassDataAvailable_AnyThread RationalEngine Before (MonoSample 2) =
          some (After, MoreCalls) ∧
        (((([MonoSample 0, MonoSample 1].length : Nat) : Int) + 1 = 8 ∧
            MoreCalls = DebugCalls RationalEngine Before (MonoSample 2) Target ++
              [FinalPixelData RationalEngine Before (MonoSample 2) Target]) ∨
          ((([MonoSample 0, MonoSample 1].length : Nat) : Int) + 1 ≠ 8 ∧
            PendingOfFrame After.PendingData
                (⟨7, 0⟩ : FMoviePipelineFrameOutputState).OutputFrameNumber =
              [(⟨7, 0⟩, UpdatedOutputFrame RationalEngine Before (MonoSample 2) Target)])) :=
  ⟨by decide, by decide, by decide, by
      intro First hF
      simp only [List.cons_append, List.nil_append, List.head?_cons, Option.some.injEq] at hF
      rw [← hF]
      decide,
    by decide,
    alpha_channel_is_accumulated_weight RationalEngine ⟨8, 4⟩ ⟨7, 0⟩ 8
      [MonoSample 0, MonoSample 1] (MonoSample 2) (by decide) (by decide) (by decide)
      (by
        intro First hF
        simp only [List.cons_append, List.nil_append, List.head?_cons, Option.some.injEq] at hF
        rw [← hF]
        decide)
      (by decide)⟩

/-! ## The vertical step values as rotation angles -/

theorem VerticalDistribute_eq (V : Int) (hV : 1 ≤ V) :
    VerticalDistributeValuesInInterval (-90 : K) 90 V =
      (List.range V.toNat).map (fun (i : Nat) => 90 + ((i : K) + 1 / 2) * (180 / (V : K))) := by
  unfold VerticalDistributeValuesInInterval
  simp only [DistributeLoop_eq, max_eq_left hV]
  apply List.map_congr_left
  intro i _
  ring

/-- C16, as the code behaves: for `V ≥ 1`, `VerticalDistributeValuesInInterval(-90, 90, V)`
returns exactly `V` values; the `i`-th (`0 ≤ i < V`) is `90 + (i + 1/2) × 180 / V`, which is the
centre `-90 + (i + 1/2) × 180 / V` of the `i`-th pitch band plus 180 degrees and lies strictly
between 90 and 270; and for a pane of `H ≥ 1` by `V` steps `GetCameraOrientationForStereo` hands
this value, in radians, to the engine as the angle of the rotation about the Y axis, next to the
yaw `h × 360 / H`. -/
theorem vertical_steps_are_rotation_angles (P : FPoseEngine K) (InPane : FPanoPane K) (V : Int)
    (hV : 1 ≤ V) (hPaneV : InPane.NumVerticalSteps = V) (hH : 1 ≤ InPane.NumHorizontalSteps) :
    ((VerticalDistributeValuesInInterval (-90 : K) 90 V).length : Int) = V ∧
    (∀ i : Nat, (i : Int) < V →
      (VerticalDistributeValuesInInterval (-90 : K) 90 V)[i]? =
        some (90 + ((i : K) + 1 / 2) * (180 / (V : K))) ∧
      90 + ((i : K) + 1 / 2) * (180 / (V : K)) =
        (-90 + ((i : K) + 1 / 2) * (180 / (V : K))) + 180 ∧
      (90 : K) < 90 + ((i : K) + 1 / 2) * (180 / (V : K)) ∧
      90 + ((i : K) + 1 / 2) * (180 / (V : K)) < 270) ∧
    (∀ v h : Nat, (v : Int) < V → (h : Int) < InPane.NumHorizontalSteps →
      InPane.VerticalStepIndex = (v : Int) → InPane.HorizontalStepIndex = (h : Int) →
      GetCameraOrientationForStereo P InPane false =
        some (InPane.OriginalCameraLocation,
          P.StepRotation InPane.OriginalCameraRotation
            ((h : K) * (360 / (InPane.NumHorizontalSteps : K)) * (P.PI / 180))
            ((90 + ((v : K) + 1 / 2) * (180 / (V : K))) * (P.PI / 180)))) := by
  have hVpos : (0 : K) < (V : K) := by exact_mod_cast (by omega : (0 : Int) < V)
  have hget : ∀ i : Nat, (i : Int) < V →
      (VerticalDistributeValuesInInterval (-90 : K) 90 V)[i]? =
        some (90 + ((i : K) + 1 / 2) * (180 / (V : K))) := by
    intro i hi
    have : i < V.toNat := by omega
    rw [VerticalDistribute_eq V hV, List.getElem?_map, List.getElem?_range this]
    rfl
  refine ⟨?_, ?_, ?_⟩
  · rw [VerticalDistribute_eq V hV, List.length_map, List.length_range]
    exact Int.toNat_of_nonneg (by omega)
  · intro i hi
    have hiK : (i : K) < (V : K) := by exact_mod_cast hi
    have hi0 : (0 : K) ≤ (i : K) := Nat.cast_nonneg i
    have hstep : (0 : K) < 180 / (V : K) := by positivity
    refine ⟨hget i hi, by ring, ?_, ?_⟩
    · have : (0 : K) < ((i : K) + 1 / 2) * (180 / (V : K)) := by positivity
      linarith
    · have h1 : ((i : K) + 1 / 2) * (180 / (V : K)) < (V : K) * (180 / (V : K)) := by
        have hi1 : (i : K) + 1 ≤ (V : K) := by exact_mod_cast (by omega : (i : Int) + 1 ≤ V)
        exact mul_lt_mul_of_pos_right (by linarith) hstep
      have h2 : (V : K) * (180 / (V : K)) = 180 := by field_simp
      linarith
  · intro v h hv hh hvi hhi
    have hyaw : (HorizontalDistributeValuesInInterval (0 : K) 360 InPane.NumHorizontalSteps)[h]? =
        some ((h : K) * (360 / (InPane.NumHorizontalSteps : K))) := by
      have : h < InPane.NumHorizontalSteps.toNat := by omega
      rw [HorizontalDistribute_eq _ hH, List.getElem?_map, List.getElem?_range this]
      rfl
    unfold GetCameraOrientationForStereo
    simp only [StepValue, hPaneV, hvi, hhi, Int.natCast_nonneg, if_true, Int.toNat_ofNat, hyaw,
      hget v hv, Bool.false_eq_true, if_false]

theorem vertical_steps_are_rotation_angles_witness :
    (1 : Int) ≤ 2 ∧ (ExamplePane 0 0 4 2 1 0 (-1) false).NumVerticalSteps = 2 ∧
    1 ≤ (ExamplePane 0 0 4 2 1 0 (-1) false).NumHorizontalSteps ∧
    ((VerticalDistributeValuesInInterval (-90 : ℚ) 90 2).length : Int) = 2 ∧
    (∀ i : Nat, (i : Int) < 2 →
      (VerticalDistributeValuesInInterval (-90 : ℚ) 90 2)[i]? =
        some (90 + ((i : ℚ) + 1 / 2) * (180 / ((2 : Int) : ℚ))) ∧
      90 + ((i : ℚ) + 1 / 2) * (180 / ((2 : Int) : ℚ)) =
        (-90 + ((i : ℚ) + 1 / 2) * (180 / ((2 : Int) : ℚ))) + 180 ∧
      (90 : ℚ) < 90 + ((i : ℚ) + 1 / 2) * (180 / ((2 : Int) : ℚ)) ∧
      90 + ((i : ℚ) + 1 / 2) * (180 / ((2 : Int) : ℚ)) < 270) ∧
    (∀ v h : Nat, (v : Int) < 2 →
      (h : Int) < (ExamplePane 0 0 4 2 1 0 (-1) false).NumHorizontalSteps →
      (ExamplePane 0 0 4 2 1 0 (-1) false).VerticalStepIndex = (v : Int) →
      (ExamplePane 0 0 4 2 1 0 (-1) false).HorizontalStepIndex = (h : Int) →
      GetCameraOrientationForStereo RationalPoseEngine (ExamplePane 0 0 4 2 1 0 (-1) false) false =
        some ((ExamplePane 0 0 4 2 1 0 (-1) false).OriginalCameraLocation,
          RationalPoseEngine.StepRotation (ExamplePane 0 0 4 2 1 0 (-1) false).OriginalCameraRotation
            ((h : ℚ) * (360 / ((ExamplePane 0 0 4 2 1 0 (-1) false).NumHorizontalSteps : ℚ)) *
              (RationalPoseEngine.PI / 180))
            ((90 + ((v : ℚ) + 1 / 2) * (180 / ((2 : Int) : ℚ))) *
              (RationalPoseEngine.PI / 180)))) :=
  ⟨by decide, rfl, by decide,
    vertical_steps_are_rotation_angles RationalPoseEngine (ExamplePane 0 0 4 2 1 0 (-1) false) 2
      (by decide) rfl (by decide)⟩

/-! ## Coverage of the first row -/

theorem GetCameraOrientationForStereo_of_indices (P : FPoseEngine K) (InPane : FPanoPane K)
    (v h : Nat) (hV : 1 ≤ InPane.NumVerticalSteps) (hH : 1 ≤ InPane.NumHorizontalSteps)
    (hv : (v : Int) < InPane.NumVerticalSteps) (hh : (h : Int) < InPane.NumHorizontalSteps)
    (hvi : InPane.VerticalStepIndex = (v : Int)) (hhi : InPane.HorizontalStepIndex = (h : Int)) :
    GetCameraOrientationForStereo P InPane false =
        some (InPane.OriginalCameraLocation,
          P.StepRotation InPane.OriginalCameraRotation
            ((h : K) * (360 / (InPane.NumHorizontalSteps : K)) * (P.PI / 180))
            ((90 + ((v : K) + 1 / 2) * (180 / (InPane.NumVerticalSteps : K))) * (P.PI / 180))) ∧
    GetCameraOrientationForStereo P InPane true =
        some (InPane.PrevOriginalCameraLocation,
          P.StepRotation InPane.PrevOriginalCameraRotation
            ((h : K) * (360 / (InPane.NumHorizontalSteps : K)) * (P.PI / 180))
            ((90 + ((v : K) + 1 / 2) * (180 / (InPane.NumVerticalSteps : K))) * (P.PI / 180))) := by
  have hyaw : (HorizontalDistributeValuesInInterval (0 : K) 360 InPane.NumHorizontalSteps)[h]? =
      some ((h : K) * (360 / (InPane.NumHorizontalSteps : K))) := by
    have : h < InPane.NumHorizontalSteps.toNat := by omega
    rw [HorizontalDistribute_eq _ hH, List.getElem?_map, List.getElem?_range this]
    rfl
  have hpitch : (VerticalDistributeValuesInInterval (-90 : K) 90 InPane.NumVerticalSteps)[v]? =
      some (90 + ((v : K) + 1 / 2) * (180 / (InPane.NumVerticalSteps : K))) := by
    have : v < InPane.NumVerticalSteps.toNat := by omega
    rw [VerticalDistribute_eq _ hV, List.getElem?_map, List.getElem?_range this]
    rfl
  constructor
  · unfold GetCameraOrientationForStereo
    simp only [StepValue, hvi, hhi, Int.natCast_nonneg, if_true, Int.toNat_ofNat, hyaw,
      hpitch, Bool.false_eq_true, if_false]
  · unfold GetCameraOrientationForStereo
    simp only [StepValue, hvi, hhi, Int.natCast_nonneg, if_true, Int.toNat_ofNat, hyaw,
      hpitch]

theorem SetupPane_mono (P : FPoseEngine K) (Pass : UPanoramicPass K) (FrameInfo : FFrameInfo K)
    (PaneResolution : FIntPoint) (MinZ : K) (v h : Nat) (hMono : Pass.bStereo = false)
    (hV : 1 ≤ Pass.NumVerticalSteps) (hH : 1 ≤ Pass.NumHorizontalSteps)
    (hv : (v : Int) < Pass.NumVerticalSteps) (hh : (h : Int) < Pass.NumHorizontalSteps) :
    ∃ Pane, SetupPane P Pass FrameInfo PaneResolution MinZ 0 v h = some Pane ∧
      Pane.VerticalFieldOfView = (GetFieldOfView Pass).2 ∧
      Pane.HorizontalFieldOfView = (GetFieldOfView Pass).1 ∧
      Pane.EyeIndex = -1 ∧
      Pane.OriginalCameraRotation = FrameInfo.CurrViewRotation ∧
      Pane.CameraRotation = P.StepRotation FrameInfo.CurrViewRotation
        ((h : K) * (360 / (Pass.NumHorizontalSteps : K)) * (P.PI / 180))
        ((90 + ((v : K) + 1 / 2) * (180 / (Pass.NumVerticalSteps : K))) * (P.PI / 180)) := by
  have hpose : OriginalCameraPose P Pass FrameInfo 0 =
      some (FrameInfo.CurrViewLocation, FrameInfo.PrevViewLocation, FrameInfo.CurrViewRotation,
        FrameInfo.PrevViewRotation) := by
    simp [OriginalCameraPose, StereoIndex, hMono]
  unfold SetupPane
  rw [hpose]
  simp only
  obtain ⟨h1, h2⟩ := GetCameraOrientationForStereo_of_indices P
    { OriginalCameraLocation := FrameInfo.CurrViewLocation
      PrevOriginalCameraLocation := FrameInfo.PrevViewLocation
      OriginalCameraRotation := FrameInfo.CurrViewRotation
      PrevOriginalCameraRotation := FrameInfo.PrevViewRotation
      NearClippingPlane := MinZ
      EyeSeparation := Pass.EyeSeparation
      EyeConvergenceDistance := Pass.EyeConvergenceDistance
      HorizontalFieldOfView := (GetFieldOfView Pass).1
      VerticalFieldOfView := (GetFieldOfView Pass).2
      Resolution := PaneResolution
      CameraLocation := FrameInfo.CurrViewLocation
      PrevCameraLocation := FrameInfo.PrevViewLocation
      CameraRotation := FrameInfo.CurrViewRotation
      PrevCameraRotation := FrameInfo.PrevViewRotation
      NumHorizontalSteps := Pass.NumHorizontalSteps
      NumVerticalSteps := Pass.NumVerticalSteps
      HorizontalStepIndex := (h : Int)
      VerticalStepIndex := (v : Int)
      EyeIndex := StereoIndex Pass 0
      bIncludeAlpha := Pass.bAccumulatorIncludesAlpha } v h hV hH hv hh rfl rfl
  rw [h1, h2]
  refine ⟨_, rfl, rfl, rfl, ?_, rfl, rfl⟩
  simp [StereoIndex, hMono]

/-- C20, the code at failing inputs: for the mono layout of `H ≥ 4` horizontal and 2 vertical
steps with an overlap of 50 percent and no override, every tile that the pane loop sets up has a
vertical field of view of 135 degrees and a sample rotation of pitch -45 or 45 degrees (the
engine's conversion of the rotation about the Y axis by 135 or 225 degrees, taken as a
hypothesis on the engine); on a map of 2 to 4 rows the latitude computed for row 0 is above 90
degrees (`90 + 90 / Hmap`, the centre of the band above the map), at least 67.5 degrees, half
the field of view, from the pitch of every tile (75 degrees from the nearer one on a map of 3
rows), so for the cosine and sine of the real numbers every tile has the weight 0 at every pixel
of row 0. -/
theorem first_row_receives_no_weight (E : FEngine ℝ) (P : FPoseEngine ℝ)
    (Pass : UPanoramicPass ℝ) (FrameInfo : FFrameInfo ℝ) (PaneResolution MapSize : FIntPoint)
    (MinZ : ℝ) (v h : Nat) (X : Int)
    (hCos : E.Cos = Real.cos) (hSin : E.Sin = Real.sin) (hPI : E.PI = Real.pi)
    (hEngine : ∀ (Source : FRotator ℝ) (YawRad Angle : ℝ), 90 < Angle → Angle < 270 →
      (E.InverseTransformRotation Source
        (P.StepRotation Source YawRad (Angle * (P.PI / 180)))).Pitch = Angle - 180)
    (hMono : Pass.bStereo = false) (hH : 4 ≤ Pass.NumHorizontalSteps)
    (hV : Pass.NumVerticalSteps = 2) (hOverlap : Pass.OverlapPercentage = 50)
    (hOverride : Pass.VertFieldOfView = 0) (hMap : 2 ≤ MapSize.Y ∧ MapSize.Y ≤ 4)
    (hv : (v : Int) < Pass.NumVerticalSteps) (hh : (h : Int) < Pass.NumHorizontalSteps) :
    ∃ Pane, SetupPane P Pass FrameInfo PaneResolution MinZ 0 v h = some Pane ∧
      Pane.VerticalFieldOfView = 135 ∧
      ((SampleRotation E Pane).Pitch = -45 ∨ (SampleRotation E Pane).Pitch = 45) ∧
      90 < (Phi MapSize 0 : ℝ) ∧
      WeightPhi E MapSize Pane 0 = 0 ∧
      SampleWeightSquared E MapSize Pane X 0 = 0 := by
  obtain ⟨Pane, hPane, hFov, _, _, hOrig, hCam⟩ := SetupPane_mono P Pass FrameInfo PaneResolution
    MinZ v h hMono (by omega) (by omega) hv hh
  have hFov135 : Pane.VerticalFieldOfView = 135 := by
    rw [hFov]
    have hq : Int.tdiv 180 2 = 90 := by decide
    simp only [GetFieldOfView, hOverride, hV, hOverlap, hq, gt_iff_lt, lt_self_iff_false, if_false]
    norm_num
  have hvcases : v = 0 ∨ v = 1 := by
    rw [hV] at hv
    omega
  have hPitch : (SampleRotation E Pane).Pitch = -45 ∨ (SampleRotation E Pane).Pitch = 45 := by
    unfold SampleRotation
    rw [hOrig, hCam, hV]
    rcases hvcases with h0 | h1
    · left
      rw [hEngine _ _ _ (by rw [h0]; norm_num) (by rw [h0]; norm_num), h0]
      norm_num
    · right
      rw [hEngine _ _ _ (by rw [h1]; norm_num) (by rw [h1]; norm_num), h1]
      norm_num
  have hY2 : (2 : ℝ) ≤ (MapSize.Y : ℝ) := by exact_mod_cast hMap.1
  have hY4 : (MapSize.Y : ℝ) ≤ 4 := by exact_mod_cast hMap.2
  have hYpos : (0 : ℝ) < (MapSize.Y : ℝ) := by linarith
  have hPhi : (Phi MapSize 0 : ℝ) = 90 + 90 / (MapSize.Y : ℝ) := by
    simp only [Phi, EquiRectMapPhiStep, Int.cast_zero, sub_zero]
    field_simp
    ring
  have hquot1 : (45 / 2 : ℝ) ≤ 90 / (MapSize.Y : ℝ) := by
    rw [le_div_iff₀ hYpos]
    linarith
  have hquot2 : (90 : ℝ) / (MapSize.Y : ℝ) ≤ 45 := by
    rw [div_le_iff₀ hYpos]
    linarith
  have hPhi90 : 90 < (Phi MapSize 0 : ℝ) := by
    rw [hPhi]
    linarith
  have hWeightPhi : WeightPhi E MapSize Pane 0 = 0 := by
    rw [WeightPhi_real E MapSize Pane 0 hCos hSin hPI]
    apply falloff_eq_zero
    have hle := cos_degrees_le_of_far (Phi MapSize 0 - (SampleRotation E Pane).Pitch)
      (1 / 2 * Pane.VerticalFieldOfView) 0 (by rw [hFov135]; norm_num)
    simp only [Int.cast_zero, mul_zero, sub_zero] at hle
    apply hle
    · rw [hFov135, hPhi]
      rcases hPitch with hp | hp
      · rw [hp, abs_of_nonneg (by linarith)]
        linarith
      · rw [hp, abs_of_nonneg (by linarith)]
        linarith
    · rw [hPhi]
      rcases hPitch with hp | hp
      · rw [hp, abs_of_nonneg (by linarith)]
        linarith
      · rw [hp, abs_of_nonneg (by linarith)]
        linarith
  refine ⟨Pane, hPane, hFov135, hPitch, hPhi90, hWeightPhi, ?_⟩
  simp only [SampleWeightSquared, hWeightPhi, mul_zero]

theorem first_row_receives_no_weight_witness :
    ∃ (E : FEngine ℝ) (P : FPoseEngine ℝ),
    E.Cos = Real.cos ∧ E.Sin = Real.sin ∧ E.PI = Real.pi ∧
    (∀ (Source : FRotator ℝ) (YawRad Angle : ℝ), 90 < Angle → Angle < 270 →
      (E.InverseTransformRotation Source
        (P.StepRotation Source YawRad (Angle * (P.PI / 180)))).Pitch = Angle - 180) ∧
    (⟨false, false, 4, 2, 50, 0, 0, 13 / 2, true, 195, true⟩ : UPanoramicPass ℝ).bStereo = false ∧
    4 ≤ (⟨false, false, 4, 2, 50, 0, 0, 13 / 2, true, 195, true⟩ :
      UPanoramicPass ℝ).NumHorizontalSteps ∧
    (⟨false, false, 4, 2, 50, 0, 0, 13 / 2, true, 195, true⟩ :
      UPanoramicPass ℝ).NumVerticalSteps = 2 ∧
    (⟨false, false, 4, 2, 50, 0, 0, 13 / 2, true, 195, true⟩ :
      UPanoramicPass ℝ).OverlapPercentage = 50 ∧
    (⟨false, false, 4, 2, 50, 0, 0, 13 / 2, true, 195, true⟩ :
      UPanoramicPass ℝ).VertFieldOfView = 0 ∧
    (2 ≤ (⟨6, 3⟩ : FIntPoint).Y ∧ (⟨6, 3⟩ : FIntPoint).Y ≤ 4) ∧
    ((1 : Nat) : Int) < (⟨false, false, 4, 2, 50, 0, 0, 13 / 2, true, 195, true⟩ :
      UPanoramicPass ℝ).NumVerticalSteps ∧
    ((3 : Nat) : Int) < (⟨false, false, 4, 2, 50, 0, 0, 13 / 2, true, 195, true⟩ :
      UPanoramicPass ℝ).NumHorizontalSteps ∧
    ∃ Pane, SetupPane P ⟨false, false, 4, 2, 50, 0, 0, 13 / 2, true, 195, true⟩
        ⟨⟨0, 0, 0⟩, ⟨0, 0, 0⟩, ⟨0, 0, 0⟩, ⟨0, 0, 0⟩⟩ ⟨3, 3⟩ 1 0 (1 : Nat) (3 : Nat) = some Pane ∧
      Pane.VerticalFieldOfView = 135 ∧
      ((SampleRotation E Pane).Pitch = -45 ∨ (SampleRotation E Pane).Pitch = 45) ∧
      90 < (Phi ⟨6, 3⟩ 0 : ℝ) ∧
      WeightPhi E ⟨6, 3⟩ Pane 0 = 0 ∧
      SampleWeightSquared E ⟨6, 3⟩ Pane 5 0 = 0 :=
  have hEngine : ∀ (Source : FRotator ℝ) (YawRad Angle : ℝ), 90 < Angle → Angle < 270 →
      ((⟨Real.pi, Real.cos, Real.sin, fun _ Camera => Camera, fun _ w => w,
          fun _ _ _ _ => ⟨⟨0, 0, 0, 0⟩, ⟨0, 0, 0, 0⟩, ⟨0, 0, 0, 0⟩, ⟨0, 0, 0, 0⟩⟩,
          fun _ w => w⟩ : FEngine ℝ).InverseTransformRotation Source
        ((⟨Real.pi, Real.arctan, fun _ w => w, fun Rotation _ => Rotation,
            fun _ YawRad PitchRad =>
              ⟨PitchRad * (180 / Real.pi) - 180, YawRad * (180 / Real.pi) - 180, 180⟩⟩ :
          FPoseEngine ℝ).StepRotation Source YawRad (Angle * (Real.pi / 180)))).Pitch =
        Angle - 180 := by
    intro Source YawRad Angle _ _
    have hpi : Real.pi ≠ 0 := Real.pi_ne_zero
    show Angle * (Real.pi / 180) * (180 / Real.pi) - 180 = Angle - 180
    field_simp
  ⟨⟨Real.pi, Real.cos, Real.sin, fun _ Camera => Camera, fun _ w => w,
      fun _ _ _ _ => ⟨⟨0, 0, 0, 0⟩, ⟨0, 0, 0, 0⟩, ⟨0, 0, 0, 0⟩, ⟨0, 0, 0, 0⟩⟩, fun _ w => w⟩,
    ⟨Real.pi, Real.arctan, fun _ w => w, fun Rotation _ => Rotation,
      fun _ YawRad PitchRad =>
        ⟨PitchRad * (180 / Real.pi) - 180, YawRad * (180 / Real.pi) - 180, 180⟩⟩,
    rfl, rfl, rfl, hEngine, rfl, by decide, rfl, rfl, rfl, by decide, by decide, by decide,
    first_row_receives_no_weight _ _ ⟨false, false, 4, 2, 50, 0, 0, 13 / 2, true, 195, true⟩
      ⟨⟨0, 0, 0⟩, ⟨0, 0, 0⟩, ⟨0, 0, 0⟩, ⟨0, 0, 0⟩⟩ ⟨3, 3⟩ ⟨6, 3⟩ 1 1 3 5 rfl rfl rfl hEngine rfl
      (by decide) rfl rfl rfl (by decide) (by decide) (by decide)⟩

/-! ## Panes that declare no samples or no resolution -/

theorem OperationsInRange_of_first (E : FEngine K) (Blender : FPanoramicBlender K)
    (InData : FImagePixelData K)
    (hMap : 0 < Blender.OutputEquirectangularMapSize.X ∧
      0 < Blender.OutputEquirectangularMapSize.Y)
    (hTile : 1 ≤ InData.Size.X ∧ 1 ≤ InData.Size.Y ∧
      (InData.RawData.length : Int) = InData.Size.X * InData.Size.Y)
    (hEye : InData.Payload.Pane.EyeIndex = -1 ∨ InData.Payload.Pane.EyeIndex = 0 ∨
      InData.Payload.Pane.EyeIndex = 1)
    (hRect : 0 ≤ PixelWidth E Blender.OutputEquirectangularMapSize InData.Payload.Pane ∧
      0 ≤ PixelHeight E Blender.OutputEquirectangularMapSize InData.Payload.Pane) :
    OperationsInRange E Blender InData := by
  obtain ⟨hMX, hMY⟩ := hMap
  obtain ⟨hSX, hSY, hRaw⟩ := hTile
  obtain ⟨hW0, hH0⟩ := hRect
  have hMult : 1 ≤ EyeMultiplier InData.Payload.Pane ∧ EyeMultiplier InData.Payload.Pane ≤ 2 := by
    unfold EyeMultiplier
    split <;> omega
  have hXY : 0 < Blender.OutputEquirectangularMapSize.X * Blender.OutputEquirectangularMapSize.Y :=
    mul_pos hMX hMY
  have hTargetLen : ((NewBlendBuffers E Blender.OutputEquirectangularMapSize
      InData.Payload.Pane).Data.length : Int) =
      PixelWidth E Blender.OutputEquirectangularMapSize InData.Payload.Pane *
        PixelHeight E Blender.OutputEquirectangularMapSize InData.Payload.Pane := by
    simp only [NewBlendBuffers, SetNumZeroed, List.length_replicate]
    exact Int.toNat_of_nonneg (mul_nonneg hW0 hH0)
  have hTargetAlpha : InData.Payload.Pane.bIncludeAlpha = true →
      ((NewBlendBuffers E Blender.OutputEquirectangularMapSize
        InData.Payload.Pane).AlphaArray.length : Int) =
      PixelWidth E Blender.OutputEquirectangularMapSize InData.Payload.Pane *
        PixelHeight E Blender.OutputEquirectangularMapSize InData.Payload.Pane := by
    intro hA
    simp only [NewBlendBuffers, hA, if_true, SetNumZeroed, List.length_replicate]
    exact Int.toNat_of_nonneg (mul_nonneg hW0 hH0)
  have hAlloc : 0 ≤ Blender.OutputEquirectangularMapSize.X *
      Blender.OutputEquirectangularMapSize.Y * EyeMultiplier InData.Payload.Pane :=
    mul_nonneg (le_of_lt hXY) (by omega)
  have hFrameLen : ((NewOutputFrame Blender.OutputEquirectangularMapSize
      InData.Payload.Pane).OutputEquirectangularMap.length : Int) =
      Blender.OutputEquirectangularMapSize.X * Blender.OutputEquirectangularMapSize.Y *
        EyeMultiplier InData.Payload.Pane := by
    simp only [NewOutputFrame, SetNumZeroed, List.length_replicate]
    exact Int.toNat_of_nonneg hAlloc
  have hFrameAlpha : InData.Payload.Pane.bIncludeAlpha = true →
      ((NewOutputFrame Blender.OutputEquirectangularMapSize
        InData.Payload.Pane).AlphaArray.length : Int) =
      Blender.OutputEquirectangularMapSize.X * Blender.OutputEquirectangularMapSize.Y *
        EyeMultiplier InData.Payload.Pane := by
    intro hA
    simp only [NewOutputFrame, hA, if_true, SetNumZeroed, List.length_replicate]
    exact Int.toNat_of_nonneg hAlloc
  refine ⟨ne_of_gt hMX, hAlloc, mul_nonneg hW0 hH0, ?_, ?_, ?_, ?_⟩
  · intro Index OutClipped
    obtain ⟨_, _, h1, h2⟩ := ClampPixelCoords_inside Index InData.Size OutClipped hSX hSY
    rw [hRaw]
    exact ⟨h1, h2⟩
  · intro Y hY X hX
    have hXm := (mem_LoopRange _ _ _).mp hX
    have hYm := (mem_LoopRange _ _ _).mp hY
    have hW : 0 < PixelWidth E Blender.OutputEquirectangularMapSize InData.Payload.Pane := by
      simp only [PixelWidth, OutputBoundsMax, OutputBoundsMin]
      omega
    have hY2 : (OutputBoundsMin E Blender.OutputEquirectangularMapSize InData.Payload.Pane).Y ≤ Y ∧
        Y < (OutputBoundsMin E Blender.OutputEquirectangularMapSize InData.Payload.Pane).Y +
          PixelHeight E Blender.OutputEquirectangularMapSize InData.Payload.Pane := by
      simp only [PixelHeight, OutputBoundsMax, OutputBoundsMin]
      omega
    obtain ⟨h1, h2⟩ := FinalIndex_bounds Blender.OutputEquirectangularMapSize.X
      (OutputBoundsMin E Blender.OutputEquirectangularMapSize InData.Payload.Pane)
      (PixelWidth E Blender.OutputEquirectangularMapSize InData.Payload.Pane)
      (PixelHeight E Blender.OutputEquirectangularMapSize InData.Payload.Pane) X Y hW hY2
    refine ⟨ne_of_gt hW, h1, ?_, ?_⟩
    · rw [hTargetLen]
      exact h2
    · intro hA
      rw [hTargetAlpha hA]
      exact h2
  · intro SampleY hY SampleX hX
    have hXm := (mem_LoopRange _ _ _).mp hX
    have hYm := (mem_LoopRange _ _ _).mp hY
    have hsrc0 : 0 ≤ SampleX + SampleY *
        PixelWidth E Blender.OutputEquirectangularMapSize InData.Payload.Pane := by
      have := mul_nonneg hYm.1 hW0
      omega
    have hsrc1 : SampleX + SampleY *
        PixelWidth E Blender.OutputEquirectangularMapSize InData.Payload.Pane <
        PixelWidth E Blender.OutputEquirectangularMapSize InData.Payload.Pane *
          PixelHeight E Blender.OutputEquirectangularMapSize InData.Payload.Pane := by
      have h1 : (SampleY + 1) *
          PixelWidth E Blender.OutputEquirectangularMapSize InData.Payload.Pane ≤
          PixelHeight E Blender.OutputEquirectangularMapSize InData.Payload.Pane *
            PixelWidth E Blender.OutputEquirectangularMapSize InData.Payload.Pane :=
        mul_le_mul_of_nonneg_right (by omega) hW0
      nlinarith
    obtain ⟨hd0, hd1⟩ := DestIndex_bounds E Blender.OutputEquirectangularMapSize
      InData.Payload.Pane SampleX SampleY hMX hY
    have hdest : 0 ≤ DestIndex Blender.OutputEquirectangularMapSize
          (OutputBoundsMin E Blender.OutputEquirectangularMapSize InData.Payload.Pane)
          SampleX SampleY + EyeOffset Blender.OutputEquirectangularMapSize InData.Payload.Pane ∧
        DestIndex Blender.OutputEquirectangularMapSize
          (OutputBoundsMin E Blender.OutputEquirectangularMapSize InData.Payload.Pane)
          SampleX SampleY + EyeOffset Blender.OutputEquirectangularMapSize InData.Payload.Pane <
        Blender.OutputEquirectangularMapSize.X * Blender.OutputEquirectangularMapSize.Y *
          EyeMultiplier InData.Payload.Pane := by
      unfold EyeOffset EyeMultiplier
      rcases hEye with he | he | he
      · simp only [he, ne_eq, not_true_eq_false, if_false, if_true]
        omega
      · simp only [he]
        norm_num
        omega
      · simp only [he]
        norm_num
        omega
    refine ⟨hsrc0, ?_, ?_, hdest.1, ?_, ?_⟩
    · rw [hTargetLen]
      exact hsrc1
    · intro hA
      rw [hTargetAlpha hA]
      exact hsrc1
    · rw [hFrameLen]
      exact hdest.2
    · intro hA
      rw [hFrameAlpha hA]
      exact hdest.2
  · intro hA
    have h1 := hFrameLen
    have h2 := hFrameAlpha hA
    omega

/-- C10, as the code behaves: the pane's expected sample count and resolution are never tested.
For the first sample of a frame, delivered as a dense tile of at least 1 by 1 pixels with an eye
index of -1, 0 or 1 and a rectangle of width and height not below 0 to a blender whose map has a
positive width and height, whatever step counts and resolution the pane declares: no operation
of the call leaves its range (every array index lies inside its array); the call fails exactly
when the tile has an encoding that is not implemented and some pixel of the rectangle has a
squared weight above the threshold; and a call that does not fail creates the frame's state: with
an expected sample count `H × V × eyeMultiplier` of 1 it emits one panorama and removes the
state, with any other count (0 and negative counts included) it emits no panorama and leaves
exactly one state of the frame pending, expecting the declared count, with 1 sample finished. -/
theorem unvalidated_pane_creates_frame_state (E : FEngine K) (Blender : FPanoramicBlender K)
    (InData : FImagePixelData K)
    (hMap : 0 < Blender.OutputEquirectangularMapSize.X ∧
      0 < Blender.OutputEquirectangularMapSize.Y)
    (hTile : 1 ≤ InData.Size.X ∧ 1 ≤ InData.Size.Y ∧
      (InData.RawData.length : Int) = InData.Size.X * InData.Size.Y)
    (hEye : InData.Payload.Pane.EyeIndex = -1 ∨ InData.Payload.Pane.EyeIndex = 0 ∨
      InData.Payload.Pane.EyeIndex = 1)
    (hRect : 0 ≤ PixelWidth E Blender.OutputEquirectangularMapSize InData.Payload.Pane ∧
      0 ≤ PixelHeight E Blender.OutputEquirectangularMapSize InData.Payload.Pane)
    (hNew : FindPendingFrame Blender.PendingData
      InData.Payload.SampleState.OutputState.OutputFrameNumber = none) :
    OperationsInRange E Blender InData ∧
    (OnCompleteRenderPassDataAvailable_AnyThread E Blender InData = none ↔
      InData.PixelType = EImagePixelType.Color ∧
        ∃ Y ∈ LoopRange
            (PixelIndexVertMinBound E Blender.OutputEquirectangularMapSize InData.Payload.Pane)
            (PixelIndexVertMaxBound E Blender.OutputEquirectangularMapSize InData.Payload.Pane),
          ∃ X ∈ LoopRange
              (PixelIndexHorzMinBound E Blender.OutputEquirectangularMapSize InData.Payload.Pane)
              (PixelIndexHorzMaxBound E Blender.OutputEquirectangularMapSize InData.Payload.Pane),
            SampleWeightSquared E Blender.OutputEquirectangularMapSize InData.Payload.Pane X Y >
              KINDA_SMALL_NUMBER) ∧
    (∀ After Calls,
      OnCompleteRenderPassDataAvailable_AnyThread E Blender InData = some (After, Calls) →
      (TotalSampleCount InData.Payload.Pane = 1 ∧ (PanoramaCalls Calls).length = 1 ∧
        PendingOfFrame After.PendingData
          InData.Payload.SampleState.OutputState.OutputFrameNumber = []) ∨
      (TotalSampleCount InData.Payload.Pane ≠ 1 ∧ PanoramaCalls Calls = [] ∧
        ∃ Frame, PendingOfFrame After.PendingData
            InData.Payload.SampleState.OutputState.OutputFrameNumber =
            [(InData.Payload.SampleState.OutputState, Frame)] ∧
          Frame.NumSamplesTotal = TotalSampleCount InData.Payload.Pane ∧
          NumFinishedSamples Frame.BlendedData = 1)) := by
  refine ⟨OperationsInRange_of_first E Blender InData hMap hTile hEye hRect, ?_, ?_⟩
  · rw [← BlendSample_eq_none_iff]
    unfold OnCompleteRenderPassDataAvailable_AnyThread
    cases hB : BlendSample E Blender.OutputEquirectangularMapSize InData with
    | none => simp
    | some T =>
      simp only
      split <;> simp
  · intro After Calls h
    have hprog : FrameProgress Blender InData.Payload.SampleState.OutputState
        (TotalSampleCount InData.Payload.Pane) 0 :=
      Or.inl ⟨rfl, (FindPendingFrame_none_iff _ _).mp hNew⟩
    obtain ⟨T, _, hc⟩ := submit_same_frame E Blender After InData Calls
      (TotalSampleCount InData.Payload.Pane) 0 hprog (fun _ => rfl) h
    rcases hc with ⟨hN, hp, hcalls⟩ | ⟨hN, hprog2, _, hcalls⟩
    · left
      refine ⟨by omega, ?_, hp⟩
      rw [hcalls]
      unfold PanoramaCalls
      rw [List.filter_append]
      have := PanoramaCalls_DebugCalls E Blender InData T
      unfold PanoramaCalls at this
      rw [this]
      simp [FinalPixelData]
    · right
      refine ⟨fun h1 => hN (by omega), ?_, ?_⟩
      · rw [hcalls]
        exact PanoramaCalls_DebugCalls E Blender InData T
      · rcases hprog2 with ⟨h0, _⟩ | ⟨_, Frame, hL, hFN, hFk⟩
        · omega
        · exact ⟨Frame, hL, hFN, by simpa using hFk⟩

theorem unvalidated_pane_creates_frame_state_witness :
    (0 < (NewBlender ⟨8, 4⟩ : FPanoramicBlender ℚ).OutputEquirectangularMapSize.X ∧
      0 < (NewBlender ⟨8, 4⟩ : FPanoramicBlender ℚ).OutputEquirectangularMapSize.Y) ∧
    (1 ≤ MalformedSample.Size.X ∧ 1 ≤ MalformedSample.Size.Y ∧
      (MalformedSample.RawData.length : Int) = MalformedSample.Size.X * MalformedSample.Size.Y) ∧
    (MalformedSample.Payload.Pane.EyeIndex = -1 ∨ MalformedSample.Payload.Pane.EyeIndex = 0 ∨
      MalformedSample.Payload.Pane.EyeIndex = 1) ∧
    (0 ≤ PixelWidth RationalEngine ⟨8, 4⟩ MalformedSample.Payload.Pane ∧
      0 ≤ PixelHeight RationalEngine ⟨8, 4⟩ MalformedSample.Payload.Pane) ∧
    FindPendingFrame (NewBlender ⟨8, 4⟩ : FPanoramicBlender ℚ).PendingData
      MalformedSample.Payload.SampleState.OutputState.OutputFrameNumber = none ∧
    TotalSampleCount MalformedSample.Payload.Pane = 0 ∧
    OperationsInRange RationalEngine (NewBlender ⟨8, 4⟩) MalformedSample ∧
    (OnCompleteRenderPassDataAvailable_AnyThread RationalEngine (NewBlender ⟨8, 4⟩)
        MalformedSample = none ↔
      MalformedSample.PixelType = EImagePixelType.Color ∧
        ∃ Y ∈ LoopRange
            (PixelIndexVertMinBound RationalEngine
              (NewBlender ⟨8, 4⟩ : FPanoramicBlender ℚ).OutputEquirectangularMapSize
              MalformedSample.Payload.Pane)
            (PixelIndexVertMaxBound RationalEngine
              (NewBlender ⟨8, 4⟩ : FPanoramicBlender ℚ).OutputEquirectangularMapSize
              MalformedSample.Payload.Pane),
          ∃ X ∈ LoopRange
              (PixelIndexHorzMinBound RationalEngine
                (NewBlender ⟨8, 4⟩ : FPanoramicBlender ℚ).OutputEquirectangularMapSize
                MalformedSample.Payload.Pane)
              (PixelIndexHorzMaxBound RationalEngine
                (NewBlender ⟨8, 4⟩ : FPanoramicBlender ℚ).OutputEquirectangularMapSize
                MalformedSample.Payload.Pane),
            SampleWeightSquared RationalEngine
              (NewBlender ⟨8, 4⟩ : FPanoramicBlender ℚ).OutputEquirectangularMapSize
              MalformedSample.Payload.Pane X Y > KINDA_SMALL_NUMBER) ∧
    (∀ After Calls,
      OnCompleteRenderPassDataAvailable_AnyThread RationalEngine (NewBlender ⟨8, 4⟩)
        MalformedSample = some (After, Calls) →
      (TotalSampleCount MalformedSample.Payload.Pane = 1 ∧ (PanoramaCalls Calls).length = 1 ∧
        PendingOfFrame After.PendingData
          MalformedSample.Payload.SampleState.OutputState.OutputFrameNumber = []) ∨
      (TotalSampleCount MalformedSample.Payload.Pane ≠ 1 ∧ PanoramaCalls Calls = [] ∧
        ∃ Frame, PendingOfFrame After.PendingData
            MalformedSample.Payload.SampleState.OutputState.OutputFrameNumber =
            [(MalformedSample.Payload.SampleState.OutputState, Frame)] ∧
          Frame.NumSamplesTotal = TotalSampleCount MalformedSample.Payload.Pane ∧
          NumFinishedSamples Frame.BlendedData = 1)) :=
  ⟨by decide, by decide, by decide, by decide!, rfl, by decide,
    unvalidated_pane_creates_frame_state RationalEngine (NewBlender ⟨8, 4⟩) MalformedSample
      (by decide) (by decide) (by decide) (by decide!) rfl⟩

end Proofs

end Panoramic
